import Mathlib

/-!
# MapViewerSDL: geometry pool, camera, debug-draw adapter, icosphere generator

A shallow embedding of `src/MapViewerSDL/{Renderer,Camera,DetourDebugDraw}.cpp`
and `SphereMesh.hpp`.

Modelling conventions.

* `float`.  The hit test (`Renderer::HitTest`, `Camera::GetPickRay`,
  `Camera::UnprojectPoint`) and the `glm` functions are written over a type `F`
  that carries the operations `+`, `-`, `*`, `/`, unary minus, `<`, the
  conversion from `int`, the literals that occur in the code and the libm calls,
  and nothing else: no law of arithmetic or of the order is assumed, operations
  are applied in the order of the source, and every test is the comparison the
  source writes.  IEEE binary32, with rounding, infinities and NaN (for which
  every comparison is false), is such a type, and so is every ordered field.
  The theorems on the closest hit, on the category mask and on ties assume at
  most that `<` is irreflexive and transitive, which holds for binary32.
  `XFloat` below is such a type with infinities and NaN.
* The remaining code (buffer pool, sphere mesh, camera motion, debug draw) is
  written over an ordered field `F` (exact arithmetic).  The libm calls
  (`sqrt`, `sin`, `cos`, `tan`) and the constant pi are the operations of the
  class `MathFns F`; for `F = ℝ` they are the real functions.  Theorems that
  depend on the value of an arithmetic expression are statements about exact
  arithmetic; rounding is not modelled.
* `int` inputs are `Int`; `static_cast<unsigned int>` is reduction modulo `2^32`.
  Sizes of `std::vector`s are natural numbers and are converted to `int`
  exactly.
* An out-of-range `operator[]` on a `std::vector` is undefined behaviour in the
  source; functions that perform unchecked lookups return `Option`, with `none`
  standing for such a lookup.
* The `glm` functions (`cross`, `dot`, `normalize`, `rotate`, `lookAt`,
  `perspective`, `inverse`) belong to an external library; they are modelled in
  the namespace `glm` after the library's definitions.
-/

namespace MapViewer

/-- The libm operations used by the program on `float`. -/
class MathFns (F : Type) where
  sqrt : F → F
  sin : F → F
  cos : F → F
  tan : F → F
  pi : F

noncomputable instance instMathFnsReal : MathFns ℝ where
  sqrt := Real.sqrt
  sin := Real.sin
  cos := Real.cos
  tan := Real.tan
  pi := Real.pi

/-! ## Vectors -/

/-- `math::Vertex` of `utility/Vector.hpp`: three floats, compared coordinate-wise. -/
structure Vertex (F : Type) where
  X : F
  Y : F
  Z : F
deriving DecidableEq

/-- `glm::vec3`. -/
structure Vec3 (F : Type) where
  x : F
  y : F
  z : F
deriving DecidableEq

/-- `glm::vec4`. -/
structure Vec4 (F : Type) where
  x : F
  y : F
  z : F
  w : F
deriving DecidableEq

namespace glm

variable {F : Type} [Add F] [Sub F] [Mul F] [Div F] [Neg F] [OfNat F 0] [OfNat F 1] [OfNat F 2]
  [OfNat F 180] [MathFns F]

def add (a b : Vec3 F) : Vec3 F := ⟨a.x + b.x, a.y + b.y, a.z + b.z⟩

def sub (a b : Vec3 F) : Vec3 F := ⟨a.x - b.x, a.y - b.y, a.z - b.z⟩

def scale (a : Vec3 F) (k : F) : Vec3 F := ⟨a.x * k, a.y * k, a.z * k⟩

def divs (a : Vec3 F) (k : F) : Vec3 F := ⟨a.x / k, a.y / k, a.z / k⟩

def dot (a b : Vec3 F) : F := a.x * b.x + a.y * b.y + a.z * b.z

def cross (a b : Vec3 F) : Vec3 F :=
  ⟨a.y * b.z - b.y * a.z, a.z * b.x - b.z * a.x, a.x * b.y - b.x * a.y⟩

/-- `glm::inversesqrt`. -/
def inversesqrt (x : F) : F := 1 / MathFns.sqrt x

/-- `glm::length`. -/
def length (v : Vec3 F) : F := MathFns.sqrt (dot v v)

/-- `glm::normalize(v) = v * inversesqrt(dot(v, v))`. -/
def normalize (v : Vec3 F) : Vec3 F := scale v (inversesqrt (dot v v))

end glm

/-- `glm::mat4`, column-major: `c0 .. c3` are the columns `m[0] .. m[3]`, and
`m[i][j]` is component `j` of column `i`. -/
structure Mat4 (F : Type) where
  c0 : Vec4 F
  c1 : Vec4 F
  c2 : Vec4 F
  c3 : Vec4 F
deriving DecidableEq

namespace glm

variable {F : Type} [Add F] [Sub F] [Mul F] [Div F] [Neg F] [OfNat F 0] [OfNat F 1] [OfNat F 2]
  [OfNat F 180] [MathFns F]

def add4 (a b : Vec4 F) : Vec4 F := ⟨a.x + b.x, a.y + b.y, a.z + b.z, a.w + b.w⟩

def sub4 (a b : Vec4 F) : Vec4 F := ⟨a.x - b.x, a.y - b.y, a.z - b.z, a.w - b.w⟩

/-- Component-wise product of two `vec4`. -/
def mul4 (a b : Vec4 F) : Vec4 F := ⟨a.x * b.x, a.y * b.y, a.z * b.z, a.w * b.w⟩

def scale4 (a : Vec4 F) (k : F) : Vec4 F := ⟨a.x * k, a.y * k, a.z * k, a.w * k⟩

/-- `glm::vec4(v, w)`. -/
def vec4 (v : Vec3 F) (w : F) : Vec4 F := ⟨v.x, v.y, v.z, w⟩

/-- `glm::vec3(v)` for a `vec4`: the first three components. -/
def vec3 (v : Vec4 F) : Vec3 F := ⟨v.x, v.y, v.z⟩

/-- The identity matrix, `glm::mat4(1)`. -/
def mat4One : Mat4 F := ⟨⟨1, 0, 0, 0⟩, ⟨0, 1, 0, 0⟩, ⟨0, 0, 1, 0⟩, ⟨0, 0, 0, 1⟩⟩

/-- Matrix times column vector, `m * v`. -/
def mulVec (m : Mat4 F) (v : Vec4 F) : Vec4 F :=
  add4 (add4 (scale4 m.c0 v.x) (scale4 m.c1 v.y)) (add4 (scale4 m.c2 v.z) (scale4 m.c3 v.w))

/-- Matrix product, `a * b`: column `i` of the result is `a * b[i]`. -/
def mulMat (a b : Mat4 F) : Mat4 F :=
  ⟨mulVec a b.c0, mulVec a b.c1, mulVec a b.c2, mulVec a b.c3⟩

/-- `glm::inverse` for `mat4` (`compute_inverse<4, 4>`): cofactors divided by
the determinant. -/
def inverse (m : Mat4 F) : Mat4 F :=
  let Coef00 := m.c2.z * m.c3.w - m.c3.z * m.c2.w
  let Coef02 := m.c1.z * m.c3.w - m.c3.z * m.c1.w
  let Coef03 := m.c1.z * m.c2.w - m.c2.z * m.c1.w
  let Coef04 := m.c2.y * m.c3.w - m.c3.y * m.c2.w
  let Coef06 := m.c1.y * m.c3.w - m.c3.y * m.c1.w
  let Coef07 := m.c1.y * m.c2.w - m.c2.y * m.c1.w
  let Coef08 := m.c2.y * m.c3.z - m.c3.y * m.c2.z
  let Coef10 := m.c1.y * m.c3.z - m.c3.y * m.c1.z
  let Coef11 := m.c1.y * m.c2.z - m.c2.y * m.c1.z
  let Coef12 := m.c2.x * m.c3.w - m.c3.x * m.c2.w
  let Coef14 := m.c1.x * m.c3.w - m.c3.x * m.c1.w
  let Coef15 := m.c1.x * m.c2.w - m.c2.x * m.c1.w
  let Coef16 := m.c2.x * m.c3.z - m.c3.x * m.c2.z
  let Coef18 := m.c1.x * m.c3.z - m.c3.x * m.c1.z
  let Coef19 := m.c1.x * m.c2.z - m.c2.x * m.c1.z
  let Coef20 := m.c2.x * m.c3.y - m.c3.x * m.c2.y
  let Coef22 := m.c1.x * m.c3.y - m.c3.x * m.c1.y
  let Coef23 := m.c1.x * m.c2.y - m.c2.x * m.c1.y
  let Fac0 : Vec4 F := ⟨Coef00, Coef00, Coef02, Coef03⟩
  let Fac1 : Vec4 F := ⟨Coef04, Coef04, Coef06, Coef07⟩
  let Fac2 : Vec4 F := ⟨Coef08, Coef08, Coef10, Coef11⟩
  let Fac3 : Vec4 F := ⟨Coef12, Coef12, Coef14, Coef15⟩
  let Fac4 : Vec4 F := ⟨Coef16, Coef16, Coef18, Coef19⟩
  let Fac5 : Vec4 F := ⟨Coef20, Coef20, Coef22, Coef23⟩
  let V0 : Vec4 F := ⟨m.c1.x, m.c0.x, m.c0.x, m.c0.x⟩
  let V1 : Vec4 F := ⟨m.c1.y, m.c0.y, m.c0.y, m.c0.y⟩
  let V2 : Vec4 F := ⟨m.c1.z, m.c0.z, m.c0.z, m.c0.z⟩
  let V3 : Vec4 F := ⟨m.c1.w, m.c0.w, m.c0.w, m.c0.w⟩
  let Inv0 := add4 (sub4 (mul4 V1 Fac0) (mul4 V2 Fac1)) (mul4 V3 Fac2)
  let Inv1 := add4 (sub4 (mul4 V0 Fac0) (mul4 V2 Fac3)) (mul4 V3 Fac4)
  let Inv2 := add4 (sub4 (mul4 V0 Fac1) (mul4 V1 Fac3)) (mul4 V3 Fac5)
  let Inv3 := add4 (sub4 (mul4 V0 Fac2) (mul4 V1 Fac4)) (mul4 V2 Fac5)
  let SignA : Vec4 F := ⟨1, -1, 1, -1⟩
  let SignB : Vec4 F := ⟨-1, 1, -1, 1⟩
  let Inverse : Mat4 F := ⟨mul4 Inv0 SignA, mul4 Inv1 SignB, mul4 Inv2 SignA, mul4 Inv3 SignB⟩
  let Row0 : Vec4 F := ⟨Inverse.c0.x, Inverse.c1.x, Inverse.c2.x, Inverse.c3.x⟩
  let Dot0 := mul4 m.c0 Row0
  let Dot1 := (Dot0.x + Dot0.y) + (Dot0.z + Dot0.w)
  let OneOverDeterminant := 1 / Dot1
  ⟨scale4 Inverse.c0 OneOverDeterminant, scale4 Inverse.c1 OneOverDeterminant,
   scale4 Inverse.c2 OneOverDeterminant, scale4 Inverse.c3 OneOverDeterminant⟩

/-- `glm::lookAt` (right-handed). -/
def lookAt (eye center up : Vec3 F) : Mat4 F :=
  let f := normalize (sub center eye)
  let s := normalize (cross f up)
  let u := cross s f
  ⟨⟨s.x, u.x, -f.x, 0⟩, ⟨s.y, u.y, -f.y, 0⟩, ⟨s.z, u.z, -f.z, 0⟩,
   ⟨-dot s eye, -dot u eye, dot f eye, 1⟩⟩

/-- `glm::perspective` (right-handed, depth range -1 to 1). -/
def perspective (fovy aspect zNear zFar : F) : Mat4 F :=
  let tanHalfFovy := MathFns.tan (fovy / 2)
  ⟨⟨1 / (aspect * tanHalfFovy), 0, 0, 0⟩,
   ⟨0, 1 / tanHalfFovy, 0, 0⟩,
   ⟨0, 0, -(zFar + zNear) / (zFar - zNear), -1⟩,
   ⟨0, 0, -(2 * zFar * zNear) / (zFar - zNear), 0⟩⟩

/-- `glm::radians`. -/
def radians (degrees : F) : F := degrees * (MathFns.pi / 180)

/-- `glm::rotate(v, angle, normal)` of `gtx/rotate_vector.hpp`: the upper-left
3x3 block of the rotation matrix about `normalize(normal)`, applied to `v`. -/
def rotate (v : Vec3 F) (angle : F) (normal : Vec3 F) : Vec3 F :=
  let c := MathFns.cos angle
  let s := MathFns.sin angle
  let axis := normalize normal
  let temp := scale axis (1 - c)
  let R0 : Vec3 F := ⟨c + temp.x * axis.x, temp.x * axis.y + s * axis.z,
    temp.x * axis.z - s * axis.y⟩
  let R1 : Vec3 F := ⟨temp.y * axis.x - s * axis.z, c + temp.y * axis.y,
    temp.y * axis.z + s * axis.x⟩
  let R2 : Vec3 F := ⟨temp.z * axis.x + s * axis.y, temp.z * axis.y - s * axis.x,
    c + temp.z * axis.z⟩
  add (add (scale R0 v.x) (scale R1 v.y)) (scale R2 v.z)

end glm

/-! ## Renderer data model (`Renderer.hpp`) -/

/-- `Renderer::Geometry`, in declaration order. -/
inductive Geometry where
  | TerrainGeometry
  | LiquidGeometry
  | WmoGeometry
  | DoodadGeometry
  | NavMeshGeometry
  | SphereGeometry
  | LineGeometry
  | ArrowGeometry
  | GameObjectGeometry
deriving DecidableEq, Repr

open Geometry

/-- The enumerator value of a geometry category. -/
def Geometry.toNat : Geometry → Nat
  | TerrainGeometry => 0
  | LiquidGeometry => 1
  | WmoGeometry => 2
  | DoodadGeometry => 3
  | NavMeshGeometry => 4
  | SphereGeometry => 5
  | LineGeometry => 6
  | ArrowGeometry => 7
  | GameObjectGeometry => 8

/-- The categories in the order `0 .. NumGeometryBuffers - 1`. -/
def allGeometry : List Geometry :=
  [TerrainGeometry, LiquidGeometry, WmoGeometry, DoodadGeometry, NavMeshGeometry,
   SphereGeometry, LineGeometry, ArrowGeometry, GameObjectGeometry]

/-- `Renderer::ColoredVertex`. -/
structure ColoredVertex (F : Type) where
  position : Vec3 F
  normal : Vec3 F
  color : Vec4 F
deriving DecidableEq

/-- `Renderer::GeometryBuffer`. -/
structure GeometryBuffer (F : Type) where
  UserParameter : Nat := 0
  vertices : List (ColoredVertex F) := []
  indices : List Nat := []
  vao : Nat := 0
  vbo : Nat := 0
  ebo : Nat := 0
  uploaded : Bool := false
deriving DecidableEq

/-- The pool part of `Renderer`: the per-category buffer lists, the two
instance registries and the render flags. -/
structure Renderer (F : Type) where
  m_buffers : Geometry → List (GeometryBuffer F) := fun _ => []
  m_wmos : Finset Nat := ∅
  m_doodads : Finset Nat := ∅
  m_renderADT : Bool := true
  m_renderLiquid : Bool := true
  m_renderWMO : Bool := true
  m_renderDoodad : Bool := true
  m_renderMesh : Bool := true
  m_wireframeEnabled : Bool := false

section RendererCode

variable {F : Type} [LinearOrderedField F] [MathFns F]

def LiquidColor : Vec4 F := ⟨25 / 100, 28 / 100, 9 / 10, 1 / 2⟩
def WmoColor : Vec4 F := ⟨1, 95 / 100, 0, 1⟩
def DoodadColor : Vec4 F := ⟨1, 0, 0, 1⟩
def SphereColor : Vec4 F := ⟨1, 1 / 2, 1 / 4, 3 / 4⟩
def LineColor : Vec4 F := ⟨1 / 2, 1 / 4, 0, 1⟩
def ArrowColor : Vec4 F := ⟨1 / 2, 1 / 4, 0, 1⟩
def GameObjectColor : Vec4 F := ⟨8 / 10, 1 / 2, 1 / 10, 1⟩
def MeshColor : Vec4 F := ⟨1, 1, 1, 3 / 4⟩
def MeshSteepColor : Vec4 F := ⟨3 / 10, 3 / 10, 3 / 10, 3 / 4⟩
def TerrainColor : Vec4 F := ⟨1 / 2, 8 / 10, 1 / 2, 1⟩

/-- `Renderer::ToGlm`. -/
def ToGlm (v : Vertex F) : Vec3 F := ⟨v.X, v.Y, v.Z⟩

/-- `static_cast<unsigned int>(idx)` for an `int`. -/
def toUnsigned (idx : Int) : Nat := (idx % 4294967296).toNat

/-- The normal-generation loop of `InsertBuffer` (lines 199-221): it walks the
index list three at a time; a trailing incomplete triple ends the loop, a
triple with an out-of-range index is skipped. -/
def generateNormals : List Nat → List (ColoredVertex F) → List (ColoredVertex F)
  | idx0 :: idx1 :: idx2 :: rest, vertices =>
    match vertices[idx0]?, vertices[idx1]?, vertices[idx2]? with
    | some c0, some c1, some c2 =>
      let p0 := c0.position
      let p1 := c1.position
      let p2 := c2.position
      let normal := glm.normalize (glm.cross (glm.sub p1 p0) (glm.sub p2 p0))
      let vertices := vertices.modify (fun cv => { cv with normal := normal }) idx0
      let vertices := vertices.modify (fun cv => { cv with normal := normal }) idx1
      let vertices := vertices.modify (fun cv => { cv with normal := normal }) idx2
      generateNormals rest vertices
    | _, _, _ => generateNormals rest vertices
  | _, vertices => vertices

/-- The buffer built by `Renderer::InsertBuffer` before it is pushed. -/
def makeBuffer (color : Vec4 F) (vertices : List (Vertex F)) (indices : List Int)
    (userParam : Nat) (genNormals : Bool) : GeometryBuffer F :=
  let bvertices : List (ColoredVertex F) :=
    vertices.map (fun v => { position := ToGlm v, normal := ⟨0, 0, 1⟩, color := color })
  let bindices : List Nat := indices.map toUnsigned
  let bvertices :=
    if genNormals ∧ bindices.length ≥ 3 then generateNormals bindices bvertices
    else bvertices
  { UserParameter := userParam, vertices := bvertices, indices := bindices }

/-- `Renderer::InsertBuffer`. -/
def InsertBuffer (bufferList : List (GeometryBuffer F)) (color : Vec4 F)
    (vertices : List (Vertex F)) (indices : List Int)
    (userParam : Nat := 0) (genNormals : Bool := true) : List (GeometryBuffer F) :=
  bufferList ++ [makeBuffer color vertices indices userParam genNormals]

/-- Replace the buffer list of one category (`m_buffers[type]` taken by reference). -/
def Renderer.setBuffers (r : Renderer F) (type : Geometry) (l : List (GeometryBuffer F)) :
    Renderer F :=
  { r with m_buffers := Function.update r.m_buffers type l }

/-! ## Icosphere generator (`SphereMesh.hpp`) -/

/-- `vertices[v]` for an `int` index `v`; `none` when `v` is out of range. -/
def lookupInt {α : Type} (vertices : List α) (v : Int) : Option α :=
  if 0 ≤ v then vertices[v.toNat]? else none

/-- The lambda `addVertex` of `GenerateSphereMesh`: the vertex it pushes. -/
def addVertex (center : Vertex F) (radius : F) (x y z : F) : Vertex F :=
  let length := MathFns.sqrt (x * x + y * y + z * z)
  ⟨center.X + (x / length) * radius, center.Y + (y / length) * radius,
   center.Z + (z / length) * radius⟩

/-- The lambda `normalize` of the subdivision loop. -/
def sphereNormalize (center : Vertex F) (radius : F) (v : Vertex F) : Vertex F :=
  let dx := v.X - center.X
  let dy := v.Y - center.Y
  let dz := v.Z - center.Z
  let len := MathFns.sqrt (dx * dx + dy * dy + dz * dz)
  ⟨center.X + (dx / len) * radius, center.Y + (dy / len) * radius,
   center.Z + (dz / len) * radius⟩

/-- The twelve vertices of the icosahedron, in push order. -/
def initialVertices (center : Vertex F) (radius : F) : List (Vertex F) :=
  let t : F := (1 + MathFns.sqrt 5) / 2
  [addVertex center radius (-1) t 0, addVertex center radius 1 t 0,
   addVertex center radius (-1) (-t) 0, addVertex center radius 1 (-t) 0,
   addVertex center radius 0 (-1) t, addVertex center radius 0 1 t,
   addVertex center radius 0 (-1) (-t), addVertex center radius 0 1 (-t),
   addVertex center radius t 0 (-1), addVertex center radius t 0 1,
   addVertex center radius (-t) 0 (-1), addVertex center radius (-t) 0 1]

def initialIndices : List Int :=
  [0, 11, 5, 0, 5, 1, 0, 1, 7, 0, 7, 10, 0, 10, 11,
   1, 5, 9, 5, 11, 4, 11, 10, 2, 10, 7, 6, 7, 1, 8,
   3, 9, 4, 3, 4, 2, 3, 2, 6, 3, 6, 8, 3, 8, 9,
   4, 9, 5, 2, 4, 11, 6, 2, 10, 8, 6, 7, 9, 8, 1]

/-- The inner loop of `GenerateSphereMesh` (lines 59-113) over the remaining
indices, carrying `vertices` and `newIndices`. -/
def subdivide (center : Vertex F) (radius : F) :
    List Int → List (Vertex F) → List Int → Option (List (Vertex F) × List Int)
  | v0 :: v1 :: v2 :: rest, vertices, newIndices => do
    let p0 ← lookupInt vertices v0
    let p1 ← lookupInt vertices v1
    let p2 ← lookupInt vertices v2
    let m01 : Vertex F := ⟨(p0.X + p1.X) / 2, (p0.Y + p1.Y) / 2, (p0.Z + p1.Z) / 2⟩
    let m12 : Vertex F := ⟨(p1.X + p2.X) / 2, (p1.Y + p2.Y) / 2, (p1.Z + p2.Z) / 2⟩
    let m20 : Vertex F := ⟨(p2.X + p0.X) / 2, (p2.Y + p0.Y) / 2, (p2.Z + p0.Z) / 2⟩
    let m01 := sphereNormalize center radius m01
    let m12 := sphereNormalize center radius m12
    let m20 := sphereNormalize center radius m20
    let m01Idx : Int := vertices.length
    let vertices := vertices ++ [m01]
    let m12Idx : Int := vertices.length
    let vertices := vertices ++ [m12]
    let m20Idx : Int := vertices.length
    let vertices := vertices ++ [m20]
    let newIndices := newIndices ++
      [v0, m01Idx, m20Idx, v1, m12Idx, m01Idx, v2, m20Idx, m12Idx, m01Idx, m12Idx, m20Idx]
    subdivide center radius rest vertices newIndices
  | _, vertices, newIndices => some (vertices, newIndices)

/-- The outer loop `for (level = 0; level < recursionLevel; ++level)` with
`n` iterations left. -/
def subdivideLevels (center : Vertex F) (radius : F) :
    Nat → List (Vertex F) → List Int → Option (List (Vertex F) × List Int)
  | 0, vertices, indices => some (vertices, indices)
  | n + 1, vertices, indices => do
    let (vertices, newIndices) ← subdivide center radius indices vertices []
    subdivideLevels center radius n vertices newIndices

/-- `GenerateSphereMesh`. -/
def GenerateSphereMesh (center : Vertex F) (radius : F) (recursionLevel : Int := 2) :
    Option (List (Vertex F) × List Int) :=
  subdivideLevels center radius recursionLevel.toNat (initialVertices center radius)
    initialIndices

/-- The pairs of indices whose midpoint one subdivision pass computes: for
every complete index triple `(v0, v1, v2)` the pairs `(v0, v1)`, `(v1, v2)` and
`(v2, v0)`. -/
def edgePairs : List Int → List (Int × Int)
  | v0 :: v1 :: v2 :: rest => (v0, v1) :: (v1, v2) :: (v2, v0) :: edgePairs rest
  | _ => []

/-- The squared Euclidean distance of two points. -/
def distSq (a b : Vertex F) : F :=
  (a.X - b.X) * (a.X - b.X) + (a.Y - b.Y) * (a.Y - b.Y) + (a.Z - b.Z) * (a.Z - b.Z)

/-! ## Pool operations (`Renderer.cpp`) -/

/-- `Renderer::CleanupBuffer`. -/
def CleanupBuffer (buffer : GeometryBuffer F) : GeometryBuffer F :=
  { buffer with vao := 0, vbo := 0, ebo := 0, uploaded := false }

/-- `Renderer::ClearBuffers(Geometry type)`: every buffer is cleaned up, then
the list is emptied. -/
def Renderer.ClearBuffers (r : Renderer F) (type : Geometry) : Renderer F :=
  let cleaned := (r.m_buffers type).map CleanupBuffer
  (r.setBuffers type cleaned).setBuffers type []

/-- `Renderer::ClearBuffers()`. -/
def Renderer.ClearAllBuffers (r : Renderer F) : Renderer F :=
  let r := allGeometry.foldl (fun r type => r.ClearBuffers type) r
  { r with m_wmos := ∅, m_doodads := ∅ }

def Renderer.ClearSprites (r : Renderer F) : Renderer F :=
  ((r.ClearBuffers SphereGeometry).ClearBuffers LineGeometry).ClearBuffers ArrowGeometry

def Renderer.ClearGameObjects (r : Renderer F) : Renderer F :=
  r.ClearBuffers GameObjectGeometry

def Renderer.AddTerrain (r : Renderer F) (vertices : List (Vertex F)) (indices : List Int)
    (areaId : Nat) : Renderer F :=
  r.setBuffers TerrainGeometry
    (InsertBuffer (r.m_buffers TerrainGeometry) TerrainColor vertices indices areaId)

def Renderer.AddLiquid (r : Renderer F) (vertices : List (Vertex F)) (indices : List Int) :
    Renderer F :=
  r.setBuffers LiquidGeometry
    (InsertBuffer (r.m_buffers LiquidGeometry) LiquidColor vertices indices)

def Renderer.AddWmo (r : Renderer F) (id : Nat) (vertices : List (Vertex F))
    (indices : List Int) : Renderer F :=
  let r := { r with m_wmos := insert id r.m_wmos }
  r.setBuffers WmoGeometry (InsertBuffer (r.m_buffers WmoGeometry) WmoColor vertices indices id)

def Renderer.AddDoodad (r : Renderer F) (id : Nat) (vertices : List (Vertex F))
    (indices : List Int) : Renderer F :=
  let r := { r with m_doodads := insert id r.m_doodads }
  r.setBuffers DoodadGeometry
    (InsertBuffer (r.m_buffers DoodadGeometry) DoodadColor vertices indices id)

def Renderer.AddMesh (r : Renderer F) (vertices : List (Vertex F)) (indices : List Int)
    (steep : Bool) : Renderer F :=
  let color : Vec4 F := if steep then MeshSteepColor else MeshColor
  r.setBuffers NavMeshGeometry
    (InsertBuffer (r.m_buffers NavMeshGeometry) color vertices indices)

def Renderer.AddLines (r : Renderer F) (vertices : List (Vertex F)) (indices : List Int) :
    Renderer F :=
  r.setBuffers LineGeometry
    (InsertBuffer (r.m_buffers LineGeometry) LineColor vertices indices 0 false)

/-- `Renderer::AddSphere`; `none` only if the generator performs an
out-of-range lookup. -/
def Renderer.AddSphere (r : Renderer F) (position : Vertex F) (size : F)
    (recursionLevel : Int := 2) : Option (Renderer F) := do
  let (vertices, indices) ← GenerateSphereMesh position size recursionLevel
  pure (r.setBuffers SphereGeometry
    (InsertBuffer (r.m_buffers SphereGeometry) SphereColor vertices indices))

def Renderer.AddArrows (r : Renderer F) (start end_ : Vertex F) (_step : F) : Renderer F :=
  let vertices : List (Vertex F) := [start, end_]
  let indices : List Int := [0, 1]
  r.setBuffers ArrowGeometry
    (InsertBuffer (r.m_buffers ArrowGeometry) ArrowColor vertices indices 0 false)

/-- The loop `for (const auto& point : path) AddSphere(point, 1.5f, 1)`. -/
def addPathSpheres (r : Renderer F) : List (Vertex F) → Option (Renderer F)
  | [] => some r
  | point :: rest => do
    let r ← r.AddSphere point (3 / 2) 1
    addPathSpheres r rest

/-- The loop of `AddPath` that builds `lineVertices` and `lineIndices`, from
position `i` of the path on. -/
def pathLines : List (Vertex F) → Nat → List (Vertex F) × List Int
  | a :: b :: rest, i =>
    let r := pathLines (b :: rest) (i + 1)
    (a :: b :: r.1, ((i * 2 : Nat) : Int) :: ((i * 2 + 1 : Nat) : Int) :: r.2)
  | _, _ => ([], [])

/-- `Renderer::AddPath`. -/
def Renderer.AddPath (r : Renderer F) (path : List (Vertex F)) : Option (Renderer F) :=
  if path.length < 2 then some r
  else do
    let r ← addPathSpheres r path
    let l := pathLines path 0
    pure (r.AddLines l.1 l.2)

def Renderer.AddGameObject (r : Renderer F) (vertices : List (Vertex F))
    (indices : List Int) : Renderer F :=
  r.setBuffers GameObjectGeometry
    (InsertBuffer (r.m_buffers GameObjectGeometry) GameObjectColor vertices indices)

/-- `Renderer::HasWmo`. -/
def Renderer.HasWmo (r : Renderer F) (id : Nat) : Bool := decide (id ∈ r.m_wmos)

/-- `Renderer::HasDoodad`. -/
def Renderer.HasDoodad (r : Renderer F) (id : Nat) : Bool := decide (id ∈ r.m_doodads)

/-- One call of an `Add*` member function, with its arguments. -/
inductive AddOp (F : Type) where
  | terrain (vertices : List (Vertex F)) (indices : List Int) (areaId : Nat)
  | liquid (vertices : List (Vertex F)) (indices : List Int)
  | wmo (id : Nat) (vertices : List (Vertex F)) (indices : List Int)
  | doodad (id : Nat) (vertices : List (Vertex F)) (indices : List Int)
  | mesh (vertices : List (Vertex F)) (indices : List Int) (steep : Bool)
  | lines (vertices : List (Vertex F)) (indices : List Int)
  | sphere (position : Vertex F) (size : F) (recursionLevel : Int)
  | arrows (start end_ : Vertex F) (step : F)
  | path (path : List (Vertex F))
  | gameObject (vertices : List (Vertex F)) (indices : List Int)

/-- The effect of one `Add*` call on the pool. -/
def Renderer.applyAdd (r : Renderer F) : AddOp F → Option (Renderer F)
  | .terrain vs is areaId => some (r.AddTerrain vs is areaId)
  | .liquid vs is => some (r.AddLiquid vs is)
  | .wmo id vs is => some (r.AddWmo id vs is)
  | .doodad id vs is => some (r.AddDoodad id vs is)
  | .mesh vs is steep => some (r.AddMesh vs is steep)
  | .lines vs is => some (r.AddLines vs is)
  | .sphere position size level => r.AddSphere position size level
  | .arrows s e step => some (r.AddArrows s e step)
  | .path p => r.AddPath p
  | .gameObject vs is => some (r.AddGameObject vs is)

/-- A sequence of `Add*` calls, applied left to right. -/
def Renderer.applyAdds (r : Renderer F) : List (AddOp F) → Option (Renderer F)
  | [] => some r
  | op :: ops => do
    let r ← r.applyAdd op
    r.applyAdds ops

/-- The face normal that the normal-generation loop computes for an index
triple: `normalize(cross(p1 - p0, p2 - p0))` for the positions at the three
indices; `none` when one of the indices is out of range. -/
def faceNormal (positions : List (Vec3 F)) (tri : Nat × Nat × Nat) : Option (Vec3 F) := do
  let p0 ← positions[tri.1]?
  let p1 ← positions[tri.2.1]?
  let p2 ← positions[tri.2.2]?
  pure (glm.normalize (glm.cross (glm.sub p1 p0) (glm.sub p2 p0)))

/-- The index triple `tri` references vertex `k`. -/
def references (k : Nat) (tri : Nat × Nat × Nat) : Bool :=
  decide (k = tri.1 ∨ k = tri.2.1 ∨ k = tri.2.2)

/-- The complete index triples of an index sequence, in order. -/
def indexTriples : List Nat → List (Nat × Nat × Nat)
  | i0 :: i1 :: i2 :: rest => (i0, i1, i2) :: indexTriples rest
  | _ => []

/-- The face normal of the last complete, in-range index triple that
references vertex `k`, if there is one. -/
def lastFaceNormal (positions : List (Vec3 F)) (indices : List Nat) (k : Nat) :
    Option (Vec3 F) :=
  (((indexTriples indices).filter (references k)).filterMap (faceNormal positions)).getLast?

/-- The distinct elements of a list, in the order of their first occurrence. -/
def firstOccurrences {α : Type} [DecidableEq α] (l : List α) : List α :=
  l.foldl (fun acc v => if v ∈ acc then acc else acc ++ [v]) []

/-- The call `InsertBuffer(m_buffers[type], color, vertices, indices, userParam,
genNormals)` as the `Add*` wrappers make it: the `insert` of the pool. -/
def Renderer.insert (r : Renderer F) (type : Geometry) (color : Vec4 F)
    (vertices : List (Vertex F)) (indices : List Int)
    (userParam : Nat := 0) (genNormals : Bool := true) : Renderer F :=
  r.setBuffers type
    (InsertBuffer (r.m_buffers type) color vertices indices userParam genNormals)

/-- The buffer that `AddSphere(position, size, recursionLevel)` inserts. -/
def sphereBuffer (position : Vertex F) (size : F) (recursionLevel : Int) :
    Option (GeometryBuffer F) :=
  (GenerateSphereMesh position size recursionLevel).map
    (fun m => makeBuffer SphereColor m.1 m.2 0 true)

/-- The pool after `Renderer::Renderer()`: no buffers, empty registries. -/
def Renderer.new : Renderer F := {}

/-- Every element of an `int` index array lies in `[0, n)`. -/
def IndicesBelow (indices : List Int) (n : Nat) : Prop :=
  ∀ i ∈ indices, 0 ≤ i ∧ i < (n : Int)

/-- The caller-supplied index array of an `Add*` call references only
positions of the vertex array passed in the same call.  Calls that take no
index array impose no condition. -/
def AddOp.IndicesInRange : AddOp F → Prop
  | .terrain vertices indices _ => IndicesBelow indices vertices.length
  | .liquid vertices indices => IndicesBelow indices vertices.length
  | .wmo _ vertices indices => IndicesBelow indices vertices.length
  | .doodad _ vertices indices => IndicesBelow indices vertices.length
  | .mesh vertices indices _ => IndicesBelow indices vertices.length
  | .lines vertices indices => IndicesBelow indices vertices.length
  | .sphere _ _ _ => True
  | .arrows _ _ _ => True
  | .path _ => True
  | .gameObject vertices indices => IndicesBelow indices vertices.length

/-- The index invariant of a buffer: every index is a position of its own
vertex sequence. -/
def GeometryBuffer.IndexInvariant (b : GeometryBuffer F) : Prop :=
  ∀ i ∈ b.indices, i < b.vertices.length

/-- The index invariant for every buffer of every category. -/
def Renderer.IndexInvariant (r : Renderer F) : Prop :=
  ∀ type : Geometry, ∀ b ∈ r.m_buffers type, b.IndexInvariant

end RendererCode

/-! ## Camera (`Camera.hpp`, `Camera.cpp`) -/

/-- The data members of `Camera`. -/
structure Camera (F : Type) where
  m_position : Vec3 F
  m_forward : Vec3 F
  m_up : Vec3 F
  m_right : Vec3 F
  m_viewMatrix : Mat4 F
  m_projMatrix : Mat4 F
  m_mousePanning : Bool
  m_mousePanX : Int
  m_mousePanY : Int
  m_viewportX : F
  m_viewportY : F
  m_viewportWidth : F
  m_viewportHeight : F
  m_nearPlane : F
  m_farPlane : F

namespace Camera

section CameraMotion

variable {F : Type} [LinearOrderedField F] [MathFns F]

def UpdateViewMatrix (c : Camera F) : Camera F :=
  { c with m_viewMatrix := glm.lookAt c.m_position (glm.add c.m_position c.m_forward) c.m_up }

def UpdateProjection (c : Camera F) (width height : F) : Camera F :=
  let c := { c with m_viewportWidth := width, m_viewportHeight := height }
  let aspect := width / height
  let fov := glm.radians (45 : F)
  { c with m_projMatrix := glm.perspective fov aspect c.m_nearPlane c.m_farPlane }

/-- The constructor `Camera::Camera()`: the member initialisers, then
`UpdateViewMatrix` and `UpdateProjection`.  Both matrices are assigned by
these two calls. -/
def new : Camera F :=
  let c : Camera F :=
    { m_position := ⟨0, 0, 0⟩, m_forward := ⟨0, 0, -1⟩, m_up := ⟨0, 1, 0⟩,
      m_right := ⟨1, 0, 0⟩, m_viewMatrix := glm.mat4One, m_projMatrix := glm.mat4One,
      m_mousePanning := false, m_mousePanX := 0, m_mousePanY := 0,
      m_viewportX := 0, m_viewportY := 0, m_viewportWidth := 800,
      m_viewportHeight := 600, m_nearPlane := 1 / 10, m_farPlane := 100000 }
  let c := c.UpdateViewMatrix
  c.UpdateProjection c.m_viewportWidth c.m_viewportHeight

def Move (c : Camera F) (position : Vec3 F) : Camera F :=
  UpdateViewMatrix { c with m_position := position }

def LookAt (c : Camera F) (target : Vec3 F) : Camera F :=
  let c := { c with m_forward := glm.normalize (glm.sub target c.m_position) }
  let c := { c with m_right := glm.normalize (glm.cross c.m_forward ⟨0, 0, 1⟩) }
  let c := { c with m_up := glm.normalize (glm.cross c.m_right c.m_forward) }
  c.UpdateViewMatrix

def MoveUp (c : Camera F) (delta : F) : Camera F :=
  UpdateViewMatrix { c with m_position := { c.m_position with z := c.m_position.z + delta } }

def MoveIn (c : Camera F) (delta : F) : Camera F :=
  UpdateViewMatrix { c with m_position := glm.add c.m_position (glm.scale c.m_forward delta) }

def MoveRight (c : Camera F) (delta : F) : Camera F :=
  UpdateViewMatrix { c with m_position := glm.add c.m_position (glm.scale c.m_right delta) }

def MoveVertical (c : Camera F) (delta : F) : Camera F :=
  UpdateViewMatrix { c with m_position := glm.add c.m_position (glm.scale c.m_up delta) }

def Yaw (c : Camera F) (delta : F) : Camera F :=
  let zAxis : Vec3 F := ⟨0, 0, 1⟩
  let c := { c with m_forward := glm.rotate c.m_forward delta zAxis }
  let c := { c with m_right := glm.rotate c.m_right delta zAxis }
  let c := { c with m_up := glm.rotate c.m_up delta zAxis }
  c.UpdateViewMatrix

def Pitch (c : Camera F) (delta : F) : Camera F :=
  let c := { c with m_forward := glm.rotate c.m_forward delta c.m_right }
  let c := { c with m_up := glm.rotate c.m_up delta c.m_right }
  c.UpdateViewMatrix

def BeginMousePan (c : Camera F) (screenX screenY : Int) : Camera F :=
  { c with m_mousePanning := true, m_mousePanX := screenX, m_mousePanY := screenY }

def EndMousePan (c : Camera F) : Camera F :=
  { c with m_mousePanning := false }

def UpdateMousePan (c : Camera F) (newX newY : Int) : Camera F :=
  if !c.m_mousePanning then c
  else
    let deltaX : F := ((newX - c.m_mousePanX : Int) : F)
    let deltaY : F := ((newY - c.m_mousePanY : Int) : F)
    let yawSensitivity : F := 5 / 1000
    let pitchSensitivity : F := 5 / 1000
    let c := c.Yaw (-deltaX * yawSensitivity)
    let c := c.Pitch (-deltaY * pitchSensitivity)
    { c with m_mousePanX := newX, m_mousePanY := newY }

def ProjectPoint (c : Camera F) (worldPos : Vec3 F) : Vec3 F :=
  let clipPos := glm.mulVec (glm.mulMat c.m_projMatrix c.m_viewMatrix) (glm.vec4 worldPos 1)
  if clipPos.w = 0 then ⟨0, 0, 0⟩
  else
    let ndcPos := glm.divs (glm.vec3 clipPos) clipPos.w
    ⟨(ndcPos.x + 1) * (1 / 2) * c.m_viewportWidth + c.m_viewportX,
     (1 - ndcPos.y) * (1 / 2) * c.m_viewportHeight + c.m_viewportY,
     (ndcPos.z + 1) * (1 / 2)⟩

end CameraMotion

section CameraPickRay

variable {F : Type} [Add F] [Sub F] [Mul F] [Div F] [Neg F] [IntCast F] [OfNat F 0]
  [OfNat F 1] [OfNat F 2] [MathFns F]

def UnprojectPoint (c : Camera F) (screenX screenY : Int) (depth : F) : Vec3 F :=
  let ndcPos : Vec3 F :=
    ⟨((screenX : F) - c.m_viewportX) / c.m_viewportWidth * 2 - 1,
     1 - ((screenY : F) - c.m_viewportY) / c.m_viewportHeight * 2,
     depth * 2 - 1⟩
  let clipPos := glm.vec4 ndcPos 1
  let invProj := glm.inverse c.m_projMatrix
  let viewPos := glm.mulVec invProj clipPos
  let invView := glm.inverse c.m_viewMatrix
  let worldPos := glm.mulVec invView viewPos
  glm.divs (glm.vec3 worldPos) worldPos.w

/-- `Camera::GetPickRay`: the pair `(rayOrigin, rayDir)`. -/
def GetPickRay (c : Camera F) (screenX screenY : Int) : Vec3 F × Vec3 F :=
  let rayOrigin := c.m_position
  let nearPoint := c.UnprojectPoint screenX screenY 0
  (rayOrigin, glm.normalize (glm.sub nearPoint rayOrigin))

end CameraPickRay

section CameraRelations

variable {F : Type} [LinearOrderedField F] [MathFns F]

/-- The clip-space position `projection * view * (worldPos, 1)`. -/
def clipPos (c : Camera F) (worldPos : Vec3 F) : Vec4 F :=
  glm.mulVec (glm.mulMat c.m_projMatrix c.m_viewMatrix) (glm.vec4 worldPos 1)

/-- One call of `Yaw` or `Pitch` with its angle. -/
inductive RotOp (F : Type) where
  | yaw (delta : F)
  | pitch (delta : F)

def applyRot (c : Camera F) : RotOp F → Camera F
  | .yaw delta => c.Yaw delta
  | .pitch delta => c.Pitch delta

/-- A finite sequence of `Yaw` and `Pitch` calls, applied left to right. -/
def applyRots (c : Camera F) (ops : List (RotOp F)) : Camera F :=
  ops.foldl applyRot c

/-- The forward, up and right vectors have squared length 1 and are pairwise
orthogonal. -/
def Orthonormal (c : Camera F) : Prop :=
  glm.dot c.m_forward c.m_forward = 1 ∧ glm.dot c.m_up c.m_up = 1 ∧
  glm.dot c.m_right c.m_right = 1 ∧ glm.dot c.m_forward c.m_up = 0 ∧
  glm.dot c.m_forward c.m_right = 0 ∧ glm.dot c.m_up c.m_right = 0

/-- The implicit conversion of a `float` to `int`: truncation toward zero. -/
def floatToInt [FloorRing F] (x : F) : Int :=
  if 0 ≤ x then Int.floor x else Int.ceil x

/-- The round trip of the spec: `UnprojectPoint` applied to the x and y of
`ProjectPoint(worldPos)`, converted to the `int` parameters of
`UnprojectPoint`, and to the depth of `ProjectPoint(worldPos)`. -/
def roundTrip [FloorRing F] (c : Camera F) (worldPos : Vec3 F) : Vec3 F :=
  let screenPos := c.ProjectPoint worldPos
  c.UnprojectPoint (floatToInt screenPos.x) (floatToInt screenPos.y) screenPos.z

/-- One call of a state-changing public member function of `Camera`, with its
arguments. -/
inductive CameraOp (F : Type) where
  | move (position : Vec3 F)
  | lookAt (target : Vec3 F)
  | moveUp (delta : F)
  | moveIn (delta : F)
  | moveRight (delta : F)
  | moveVertical (delta : F)
  | yaw (delta : F)
  | pitch (delta : F)
  | beginMousePan (screenX screenY : Int)
  | endMousePan
  | updateMousePan (newX newY : Int)
  | updateProjection (width height : F)

/-- The camera after one call. -/
def applyOp (c : Camera F) : CameraOp F → Camera F
  | .move position => c.Move position
  | .lookAt target => c.LookAt target
  | .moveUp delta => c.MoveUp delta
  | .moveIn delta => c.MoveIn delta
  | .moveRight delta => c.MoveRight delta
  | .moveVertical delta => c.MoveVertical delta
  | .yaw delta => c.Yaw delta
  | .pitch delta => c.Pitch delta
  | .beginMousePan screenX screenY => c.BeginMousePan screenX screenY
  | .endMousePan => c.EndMousePan
  | .updateMousePan newX newY => c.UpdateMousePan newX newY
  | .updateProjection width height => c.UpdateProjection width height

/-- A finite sequence of calls, applied left to right. -/
def applyOps (c : Camera F) (ops : List (CameraOp F)) : Camera F :=
  ops.foldl applyOp c

/-- The stored view matrix is the one computed from the current position,
forward and up vectors. -/
def ViewCurrent (c : Camera F) : Prop :=
  c.m_viewMatrix = glm.lookAt c.m_position (glm.add c.m_position c.m_forward) c.m_up

end CameraRelations

end Camera

/-! ## Hit testing (`Renderer::HitTest`) -/

section HitTestCode

variable {F : Type} [Add F] [Sub F] [Mul F] [Div F] [Neg F] [LT F]
  [DecidableRel (fun a b : F => a < b)] [IntCast F] [OfNat F 0] [OfNat F 1] [OfNat F 2]
  [OfNat F 100000] [OfNat F 340282346638528859811704183484516925440] [MathFns F]

/-- `std::numeric_limits<float>::max()`. -/
def FLT_MAX : F := 340282346638528859811704183484516925440

/-- The variables `closestDist`, `found` and the two out-parameters of `HitTest`. -/
structure HitState (F : Type) where
  closestDist : F
  found : Bool
  out : Vertex F
  param : Nat
deriving DecidableEq

/-- The body of the triangle loop of `HitTest` from `edge1` to `t` (lines
508-529): `none` when one of the three `continue`s is taken, otherwise `t`. -/
def rayTriangle (rayOrigin rayDir v0 v1 v2 : Vec3 F) : Option F :=
  let edge1 := glm.sub v1 v0
  let edge2 := glm.sub v2 v0
  let h := glm.cross rayDir edge2
  let a := glm.dot edge1 h
  if a > -(1 / 100000) ∧ a < 1 / 100000 then none
  else
    let f := 1 / a
    let s := glm.sub rayOrigin v0
    let u := f * glm.dot s h
    if u < 0 ∨ u > 1 then none
    else
      let q := glm.cross s edge1
      let v := f * glm.dot rayDir q
      if v < 0 ∨ u + v > 1 then none
      else some (f * glm.dot edge2 q)

/-- The last statement of the triangle loop (lines 531-538). -/
def recordHit (rayOrigin rayDir : Vec3 F) (buffer : GeometryBuffer F) (t : F)
    (st : HitState F) : HitState F :=
  if t > 1 / 100000 ∧ t < st.closestDist then
    let hitPoint := glm.add rayOrigin (glm.scale rayDir t)
    { closestDist := t, found := true, out := ⟨hitPoint.x, hitPoint.y, hitPoint.z⟩,
      param := buffer.UserParameter }
  else st

/-- The triangle loop of `HitTest` over the remaining indices of `buffer`
(`for (i = 0; i + 2 < size; i += 3)`); `none` when a vertex lookup is out of
range. -/
def hitTriangles (rayOrigin rayDir : Vec3 F) (buffer : GeometryBuffer F) :
    List Nat → HitState F → Option (HitState F)
  | i0 :: i1 :: i2 :: rest, st => do
    let c0 ← buffer.vertices[i0]?
    let c1 ← buffer.vertices[i1]?
    let c2 ← buffer.vertices[i2]?
    match rayTriangle rayOrigin rayDir c0.position c1.position c2.position with
    | none => hitTriangles rayOrigin rayDir buffer rest st
    | some t => hitTriangles rayOrigin rayDir buffer rest (recordHit rayOrigin rayDir buffer t st)
  | _, st => some st

/-- The loop over the buffers of one category. -/
def hitBuffers (rayOrigin rayDir : Vec3 F) :
    List (GeometryBuffer F) → HitState F → Option (HitState F)
  | [], st => some st
  | buffer :: rest, st => do
    let st ← hitTriangles rayOrigin rayDir buffer buffer.indices st
    hitBuffers rayOrigin rayDir rest st

/-- The test `geometryFlags & (1 << geomType)`. -/
def flagSet (geometryFlags : Nat) (geomType : Geometry) : Bool :=
  geometryFlags &&& (1 <<< geomType.toNat) != 0

/-- The loop over the geometry types, from the head of `types` on. -/
def hitCategories (m_buffers : Geometry → List (GeometryBuffer F)) (rayOrigin rayDir : Vec3 F)
    (geometryFlags : Nat) : List Geometry → HitState F → Option (HitState F)
  | [], st => some st
  | geomType :: rest, st =>
    if !flagSet geometryFlags geomType then
      hitCategories m_buffers rayOrigin rayDir geometryFlags rest st
    else do
      let st ← hitBuffers rayOrigin rayDir (m_buffers geomType) st
      hitCategories m_buffers rayOrigin rayDir geometryFlags rest st

/-- `Renderer::HitTest` for a given pick ray: everything after the call of
`GetPickRay`.  `out` and `param` are the values the caller's variables hold
before the call. -/
def Renderer.HitTestRay (r : Renderer F) (rayOrigin rayDir : Vec3 F) (geometryFlags : Nat)
    (out : Vertex F) (param : Nat) : Option (HitState F) :=
  hitCategories r.m_buffers rayOrigin rayDir geometryFlags allGeometry
    { closestDist := FLT_MAX, found := false, out := out, param := param }

/-- `Renderer::HitTest`.  The result carries the returned flag `found` and the
final values of the out-parameters; `none` stands for an out-of-range vertex
lookup. -/
def Renderer.HitTest (r : Renderer F) (camera : Camera F) (x y : Int) (geometryFlags : Nat)
    (out : Vertex F) (param : Nat) : Option (HitState F) :=
  let ray := camera.GetPickRay x y
  r.HitTestRay ray.1 ray.2 geometryFlags out param

/-- The complete index triples `(indices[i], indices[i+1], indices[i+2])`,
`i = 0, 3, 6, ...`, of an index sequence, in order. -/
def triangles : List Nat → List (Nat × Nat × Nat)
  | i0 :: i1 :: i2 :: rest => (i0, i1, i2) :: triangles rest
  | _ => []

/-- The triangle test of `HitTest` accepts a triangle of `buffer` at ray
parameter `t`: some complete index triple of `buffer.indices` names three
vertices of `buffer` for which none of the three `continue`s of the loop body
is taken, the parameter computed for them is `t`, and the test `t > 1e-5` of
the last statement holds.  Every comparison is the one the source evaluates. -/
def BufferQualifies (rayOrigin rayDir : Vec3 F) (buffer : GeometryBuffer F) (t : F) : Prop :=
  ∃ tri ∈ triangles buffer.indices, ∃ c0 c1 c2,
    buffer.vertices[tri.1]? = some c0 ∧ buffer.vertices[tri.2.1]? = some c1 ∧
    buffer.vertices[tri.2.2]? = some c2 ∧
    rayTriangle rayOrigin rayDir c0.position c1.position c2.position = some t ∧
    t > 1 / 100000

/-- The buffer `buffer` belongs to a category selected by `geometryFlags` and
the triangle test of `HitTest` accepts one of its triangles at parameter `t`. -/
def Renderer.Qualifies (r : Renderer F) (rayOrigin rayDir : Vec3 F) (geometryFlags : Nat)
    (buffer : GeometryBuffer F) (t : F) : Prop :=
  ∃ geomType, flagSet geometryFlags geomType = true ∧ buffer ∈ r.m_buffers geomType ∧
    BufferQualifies rayOrigin rayDir buffer t

/-- The index invariant for the buffers of the categories selected by
`geometryFlags`. -/
def Renderer.SelectedInvariant (r : Renderer F) (geometryFlags : Nat) : Prop :=
  ∀ geomType, flagSet geometryFlags geomType = true →
    ∀ b ∈ r.m_buffers geomType, b.IndexInvariant

/-- What the triangle loop of `HitTest` makes of one complete index triple of
`buffer`: the pair of the buffer and the ray parameter `t` when the three
vertex lookups succeed, none of the three `continue`s is taken and
`t > 1e-5`; nothing otherwise. -/
def triangleHit (rayOrigin rayDir : Vec3 F) (buffer : GeometryBuffer F)
    (tri : Nat × Nat × Nat) : Option (GeometryBuffer F × F) := do
  let c0 ← buffer.vertices[tri.1]?
  let c1 ← buffer.vertices[tri.2.1]?
  let c2 ← buffer.vertices[tri.2.2]?
  let t ← rayTriangle rayOrigin rayDir c0.position c1.position c2.position
  if t > 1 / 100000 then some (buffer, t) else none

/-- The qualifying triangles of one buffer with their ray parameters, by
increasing triangle position. -/
def bufferHits (rayOrigin rayDir : Vec3 F) (buffer : GeometryBuffer F) :
    List (GeometryBuffer F × F) :=
  (triangles buffer.indices).filterMap (triangleHit rayOrigin rayDir buffer)

/-- The qualifying triangles of the selected categories in the iteration order
of `HitTest`: categories by increasing enumerator value, within a category the
buffers in list order (the order of insertion), within a buffer the triangles
by increasing position. -/
def Renderer.hitSequence (r : Renderer F) (rayOrigin rayDir : Vec3 F) (geometryFlags : Nat) :
    List (GeometryBuffer F × F) :=
  (allGeometry.filter (flagSet geometryFlags)).flatMap
    (fun geomType => (r.m_buffers geomType).flatMap (bufferHits rayOrigin rayDir))

end HitTestCode

section HitTestRelations

variable {F : Type} [LinearOrderedField F] [MathFns F]

/-- The Moller-Trumbore conditions in the spec's words: the determinant `a`
has absolute value at least `1e-5`, the barycentric coordinates satisfy
`0 ≤ u ≤ 1`, `0 ≤ v` and `u + v ≤ 1`, and `t` is the ray parameter of the
intersection. -/
def PassesMollerTrumbore (rayOrigin rayDir v0 v1 v2 : Vec3 F) (t : F) : Prop :=
  let edge1 := glm.sub v1 v0
  let edge2 := glm.sub v2 v0
  let h := glm.cross rayDir edge2
  let a := glm.dot edge1 h
  let s := glm.sub rayOrigin v0
  let q := glm.cross s edge1
  let u := (1 / a) * glm.dot s h
  let v := (1 / a) * glm.dot rayDir q
  1 / 100000 ≤ |a| ∧ 0 ≤ u ∧ u ≤ 1 ∧ 0 ≤ v ∧ u + v ≤ 1 ∧ t = (1 / a) * glm.dot edge2 q

/-- Some complete triple of `indices` names three vertices of `vertices` whose
triangle passes the Moller-Trumbore test for the ray with parameter `t`, and
`t > 1e-5`. -/
def TrianglesHit (rayOrigin rayDir : Vec3 F) (vertices : List (ColoredVertex F))
    (indices : List Nat) (t : F) : Prop :=
  ∃ tri ∈ triangles indices, ∃ c0 c1 c2,
    vertices[tri.1]? = some c0 ∧ vertices[tri.2.1]? = some c1 ∧
    vertices[tri.2.2]? = some c2 ∧
    PassesMollerTrumbore rayOrigin rayDir c0.position c1.position c2.position t ∧
    1 / 100000 < t

/-- Some triangle of `buffer` is hit by the ray at parameter `t`. -/
def BufferHit (rayOrigin rayDir : Vec3 F) (buffer : GeometryBuffer F) (t : F) : Prop :=
  TrianglesHit rayOrigin rayDir buffer.vertices buffer.indices t

/-- How a stretch of the scan changes the hit state, where `P b t` says that
the stretch visits a triangle of buffer `b` hit at parameter `t`: the closest
distance does not grow and bounds every visited hit from below, and either
nothing was recorded or the state records a visited hit. -/
def ScanStep (rayOrigin rayDir : Vec3 F) (P : GeometryBuffer F → F → Prop)
    (st st2 : HitState F) : Prop :=
  st2.closestDist ≤ st.closestDist ∧ (∀ b t, P b t → st2.closestDist ≤ t) ∧
  (st2 = st ∨ (st2.found = true ∧ ∃ b, P b st2.closestDist ∧
    st2.param = b.UserParameter ∧
    st2.out = ⟨rayOrigin.x + rayDir.x * st2.closestDist,
      rayOrigin.y + rayDir.y * st2.closestDist, rayOrigin.z + rayDir.z * st2.closestDist⟩))

/-- The buffer `buffer` belongs to a category selected by `geometryFlags` and
one of its triangles is hit by the ray at parameter `t`. -/
def Renderer.Hit (r : Renderer F) (rayOrigin rayDir : Vec3 F) (geometryFlags : Nat)
    (buffer : GeometryBuffer F) (t : F) : Prop :=
  ∃ geomType, flagSet geometryFlags geomType = true ∧ buffer ∈ r.m_buffers geomType ∧
    BufferHit rayOrigin rayDir buffer t

/-- One call of a pool operation other than the full clear: an `Add*` call, a
per-category clear, `ClearSprites`, `ClearGameObjects`, or `HitTest`. -/
inductive PoolOp (F : Type) where
  | add (op : AddOp F)
  | clear (type : Geometry)
  | clearSprites
  | clearGameObjects
  | hitTest (camera : Camera F) (x y : Int) (geometryFlags : Nat) (out : Vertex F)
      (param : Nat)

/-- The pool after one operation.  `HitTest` is a `const` member: when it
completes, the pool is the one it was called on. -/
def Renderer.applyOp (r : Renderer F) : PoolOp F → Option (Renderer F)
  | .add op => r.applyAdd op
  | .clear type => some (r.ClearBuffers type)
  | .clearSprites => some r.ClearSprites
  | .clearGameObjects => some r.ClearGameObjects
  | .hitTest camera x y geometryFlags out param =>
    (r.HitTest camera x y geometryFlags out param).map (fun _ => r)

/-- A triangle around the z axis in the plane `z = -FLT_MAX`; every coordinate
is a finite `float`. -/
def boundaryTriangle : List (Vertex F) :=
  [⟨-(1 / 4), -(1 / 4), -FLT_MAX⟩, ⟨1 / 4, -(1 / 4), -FLT_MAX⟩, ⟨0, 1 / 4, -FLT_MAX⟩]

/-- A triangle in the plane `z = -10`, around the z axis. -/
def nearTriangle : List (Vertex ℝ) :=
  [⟨-1, -1, -10⟩, ⟨1, -1, -10⟩, ⟨0, 1, -10⟩]

end HitTestRelations

/-! ## A float-like arithmetic with infinities and NaN

`XFloat` is a type with the operations of the hit test that is not an ordered
field: its values are the rationals within the range of `float`, the two
infinities and NaN.  An operation on finite values returns the exact result
when it lies within `[-FLT_MAX, FLT_MAX]` and the infinity of its sign
otherwise; the undefined forms (`inf - inf`, `0 * inf`, `0 / 0`, `inf / inf`)
and every operation on a NaN return NaN; every comparison with a NaN is false.
There is no rounding and zero carries no sign, so `XFloat` computes what
binary32 computes whenever every intermediate result of binary32 is exact and
no division by zero occurs.  It serves to evaluate the hit test on inputs
where an intermediate product overflows. -/

/-- A finite value, an infinity or NaN. -/
inductive XFloat where
  | finite (q : ℚ)
  | pinf
  | ninf
  | nan
deriving DecidableEq

namespace XFloat

/-- The result of an operation whose exact value is `q`: overflow to the
infinity of the sign beyond `FLT_MAX`. -/
def round (q : ℚ) : XFloat :=
  if q > 340282346638528859811704183484516925440 then pinf
  else if q < -340282346638528859811704183484516925440 then ninf
  else finite q

def neg : XFloat → XFloat
  | finite a => finite (-a)
  | pinf => ninf
  | ninf => pinf
  | nan => nan

def add : XFloat → XFloat → XFloat
  | finite a, finite b => round (a + b)
  | nan, _ => nan
  | _, nan => nan
  | pinf, ninf => nan
  | ninf, pinf => nan
  | pinf, _ => pinf
  | _, pinf => pinf
  | ninf, _ => ninf
  | _, ninf => ninf

/-- The product or quotient of an infinity `inf` with a finite `a`: NaN for
`a = 0`, otherwise `inf` with the sign of `a` applied. -/
def signed (a : ℚ) (inf : XFloat) : XFloat :=
  if a = 0 then nan else if a > 0 then inf else inf.neg

def mul : XFloat → XFloat → XFloat
  | finite a, finite b => round (a * b)
  | nan, _ => nan
  | _, nan => nan
  | finite a, pinf => signed a pinf
  | finite a, ninf => signed a ninf
  | pinf, finite b => signed b pinf
  | ninf, finite b => signed b ninf
  | pinf, pinf => pinf
  | ninf, ninf => pinf
  | pinf, ninf => ninf
  | ninf, pinf => ninf

def div : XFloat → XFloat → XFloat
  | finite a, finite b => if b = 0 then signed a pinf else round (a / b)
  | nan, _ => nan
  | _, nan => nan
  | finite _, pinf => finite 0
  | finite _, ninf => finite 0
  | pinf, finite b => if b < 0 then ninf else pinf
  | ninf, finite b => if b < 0 then pinf else ninf
  | pinf, pinf => nan
  | pinf, ninf => nan
  | ninf, pinf => nan
  | ninf, ninf => nan

/-- The comparison `a < b`; false when either side is NaN. -/
def lt : XFloat → XFloat → Bool
  | finite a, finite b => decide (a < b)
  | ninf, finite _ => true
  | ninf, pinf => true
  | finite _, pinf => true
  | _, _ => false

instance : Add XFloat := ⟨add⟩
instance : Neg XFloat := ⟨neg⟩
instance : Sub XFloat := ⟨fun a b => add a (neg b)⟩
instance : Mul XFloat := ⟨mul⟩
instance : Div XFloat := ⟨div⟩
instance : LT XFloat := ⟨fun a b => lt a b = true⟩
instance : DecidableRel (fun a b : XFloat => a < b) := fun a b =>
  inferInstanceAs (Decidable (lt a b = true))
instance (n : Nat) : OfNat XFloat n := ⟨round n⟩

end XFloat

/-! ## Triangles used in the examples -/

section ExampleTriangles

variable {F : Type} [Neg F] [OfNat F 0] [OfNat F 1] [OfNat F 10]
  [OfNat F 255211775190703847597530955573826158592] [OfNat F 1180591620717411303424]
  [OfNat F 1180591479979922948096] [OfNat F 1179438699212804456448]

/-- A triangle around the z axis in the plane `z = -3 * 2^126`; every
coordinate is a finite `float`, and the plane is nearer than `FLT_MAX`. -/
def farTriangle : List (Vertex F) :=
  [⟨-1, -1, -255211775190703847597530955573826158592⟩,
   ⟨1, -1, -255211775190703847597530955573826158592⟩,
   ⟨0, 1, -255211775190703847597530955573826158592⟩]

/-- A triangle in the plane `z = -10` with the vertices `(-2^70, -2^70)`,
`(-2^70 + 2^47, -2^70)` and `(-2^70 + 2^60, -2^70 + 2^60)`, far away from the
z axis; every coordinate is a finite `float`. -/
def nanTriangle : List (Vertex F) :=
  [⟨-1180591620717411303424, -1180591620717411303424, -10⟩,
   ⟨-1180591479979922948096, -1180591620717411303424, -10⟩,
   ⟨-1179438699212804456448, -1179438699212804456448, -10⟩]

end ExampleTriangles

/-! ## Upload and render (`Renderer::UploadBuffer`, `RenderBuffer`, `Render`)

The OpenGL context is external to the program.  The model keeps the part of it
that the buffer pool interacts with: the object names handed out by `glGen*`
(a counter; every name is fresh and non-zero) and the sequence of data uploads
and draw calls issued, each recorded with the buffer it was issued for, as the
buffer was at that moment.  Calls that neither touch the pool nor draw
(`glClear`, `glViewport`, `glUseProgram`, `glPolygonMode`, `glDepthMask`, the
attribute set-up) are not recorded. -/

/-- An upload or a draw call in the OpenGL command stream.

* `upload buffer`: the `glGen*` and `glBufferData` calls of `UploadBuffer`;
  `buffer` is the buffer as `UploadBuffer` leaves it.
* `drawElements buffer mvp count`: the call
  `glDrawElements(GL_TRIANGLES, count, GL_UNSIGNED_INT, 0)` with the vertex
  array of `buffer` bound and the uniform matrix set to `mvp`.
* `drawArrays buffer mvp count`: the call `glDrawArrays(GL_TRIANGLES, 0, count)`
  with the vertex array of `buffer` bound and the uniform matrix set to `mvp`. -/
inductive GLCall (F : Type) where
  | upload (buffer : GeometryBuffer F)
  | drawElements (buffer : GeometryBuffer F) (mvp : Mat4 F) (count : Nat)
  | drawArrays (buffer : GeometryBuffer F) (mvp : Mat4 F) (count : Nat)

/-- The buffer a call was issued for. -/
def GLCall.buffer {F : Type} : GLCall F → GeometryBuffer F
  | .upload buffer => buffer
  | .drawElements buffer _ _ => buffer
  | .drawArrays buffer _ _ => buffer

/-- Whether a call is a draw call. -/
def GLCall.isDraw {F : Type} : GLCall F → Bool
  | .upload _ => false
  | .drawElements _ _ _ => true
  | .drawArrays _ _ _ => true

/-- The OpenGL context as far as the pool is concerned: `generated` counts the
object names returned by `glGen*` so far (the next name is `generated + 1`),
`calls` is the sequence of uploads and draw calls issued. -/
structure GLContext (F : Type) where
  generated : Nat := 0
  calls : List (GLCall F) := []

section RenderCode

variable {F : Type} [LinearOrderedField F] [MathFns F]

/-- `Renderer::UploadBuffer`. -/
def UploadBuffer (gl : GLContext F) (buffer : GeometryBuffer F) :
    GLContext F × GeometryBuffer F :=
  if buffer.uploaded || buffer.vertices.isEmpty then (gl, buffer)
  else
    -- glGenVertexArrays(1, &buffer.vao)
    let gl := { gl with generated := gl.generated + 1 }
    let buffer := { buffer with vao := gl.generated }
    -- glGenBuffers(1, &buffer.vbo)
    let gl := { gl with generated := gl.generated + 1 }
    let buffer := { buffer with vbo := gl.generated }
    -- glGenBuffers(1, &buffer.ebo), only when there are indices
    let st : GLContext F × GeometryBuffer F :=
      if !buffer.indices.isEmpty then
        let gl := { gl with generated := gl.generated + 1 }
        (gl, { buffer with ebo := gl.generated })
      else (gl, buffer)
    let gl := st.1
    let buffer := { st.2 with uploaded := true }
    ({ gl with calls := gl.calls ++ [GLCall.upload buffer] }, buffer)

/-- The draw call of `RenderBuffer`: indexed when the buffer has indices. -/
def drawCall (buffer : GeometryBuffer F) (mvp : Mat4 F) : GLCall F :=
  if !buffer.indices.isEmpty then GLCall.drawElements buffer mvp buffer.indices.length
  else GLCall.drawArrays buffer mvp buffer.vertices.length

/-- `Renderer::RenderBuffer`. -/
def RenderBuffer (gl : GLContext F) (buffer : GeometryBuffer F) (mvp : Mat4 F) :
    GLContext F :=
  if !buffer.uploaded || buffer.vertices.isEmpty then gl
  else { gl with calls := gl.calls ++ [drawCall buffer mvp] }

/-- The loop `for (auto& buffer : m_buffers[type])` of the lambda
`renderGeometry`, over the remaining buffers; it returns the buffers as the
loop leaves them. -/
def renderBuffers (mvp : Mat4 F) :
    GLContext F → List (GeometryBuffer F) → GLContext F × List (GeometryBuffer F)
  | gl, [] => (gl, [])
  | gl, buffer :: rest =>
    let st := if !buffer.uploaded then UploadBuffer gl buffer else (gl, buffer)
    let gl := RenderBuffer st.1 st.2 mvp
    let res := renderBuffers mvp gl rest
    (res.1, st.2 :: res.2)

/-- The lambda `renderGeometry` of `Renderer::Render`. -/
def Renderer.renderGeometry (r : Renderer F) (gl : GLContext F) (mvp : Mat4 F)
    (type : Geometry) (enabled : Bool) : GLContext F × Renderer F :=
  if !enabled then (gl, r)
  else
    let res := renderBuffers mvp gl (r.m_buffers type)
    (res.1, r.setBuffers type res.2)

/-- `Renderer::Render`: the context and the pool after the call. -/
def Renderer.Render (r : Renderer F) (gl : GLContext F) (camera : Camera F)
    (_width _height : Int) : GLContext F × Renderer F :=
  let mvp := glm.mulMat camera.m_projMatrix camera.m_viewMatrix
  -- solid geometry
  let st := r.renderGeometry gl mvp TerrainGeometry r.m_renderADT
  let st := st.2.renderGeometry st.1 mvp WmoGeometry st.2.m_renderWMO
  let st := st.2.renderGeometry st.1 mvp DoodadGeometry st.2.m_renderDoodad
  let st := st.2.renderGeometry st.1 mvp GameObjectGeometry true
  -- transparent geometry
  let st := st.2.renderGeometry st.1 mvp LiquidGeometry st.2.m_renderLiquid
  let st := st.2.renderGeometry st.1 mvp NavMeshGeometry st.2.m_renderMesh
  -- debug visualization
  let st := st.2.renderGeometry st.1 mvp SphereGeometry true
  let st := st.2.renderGeometry st.1 mvp LineGeometry true
  st.2.renderGeometry st.1 mvp ArrowGeometry true

/-- The order in which `Render` visits the categories. -/
def renderOrder : List Geometry :=
  [TerrainGeometry, WmoGeometry, DoodadGeometry, GameObjectGeometry, LiquidGeometry,
   NavMeshGeometry, SphereGeometry, LineGeometry, ArrowGeometry]

/-- Whether `Render` draws a category: terrain, liquid, WMO, doodad and
navigation mesh follow their flags, the other four are always on. -/
def Renderer.enabled (r : Renderer F) : Geometry → Bool
  | TerrainGeometry => r.m_renderADT
  | LiquidGeometry => r.m_renderLiquid
  | WmoGeometry => r.m_renderWMO
  | DoodadGeometry => r.m_renderDoodad
  | NavMeshGeometry => r.m_renderMesh
  | SphereGeometry => true
  | LineGeometry => true
  | ArrowGeometry => true
  | GameObjectGeometry => true

/-- The calls of `renderGeometry(type, enabled(type))` for the categories of a
list, in order. -/
def renderTypes (mvp : Mat4 F) :
    List Geometry → GLContext F × Renderer F → GLContext F × Renderer F
  | [], st => st
  | type :: rest, st =>
    renderTypes mvp rest (st.2.renderGeometry st.1 mvp type (st.2.enabled type))

/-- The uploads and draw calls that one pass of the loop of `renderGeometry`
issues for a buffer `b` which the pass leaves as `b2`: nothing for an empty
vertex sequence; otherwise the draw call, preceded by the upload when `b` was
not uploaded. -/
def bufferCalls (mvp : Mat4 F) (p : GeometryBuffer F × GeometryBuffer F) : List (GLCall F) :=
  if p.1.vertices.isEmpty then []
  else (if p.1.uploaded then [] else [GLCall.upload p.2]) ++ [drawCall p.2 mvp]

/-- How one pass of the loop of `renderGeometry` changes a buffer: the data is
kept; an uploaded or empty buffer is left as it is; a non-empty buffer ends up
uploaded. -/
def Rendered (b b2 : GeometryBuffer F) : Prop :=
  b2.vertices = b.vertices ∧ b2.indices = b.indices ∧ b2.UserParameter = b.UserParameter ∧
  (b.uploaded = true ∨ b.vertices = [] → b2 = b) ∧
  (b.vertices ≠ [] → b2.uploaded = true)

end RenderCode

/-! ## Debug-draw adapter (`DetourDebugDraw.cpp`) -/

/-- `duDebugDrawPrimitives` of the Recast debug-draw interface. -/
inductive duDebugDrawPrimitives where
  | DU_DRAW_POINTS
  | DU_DRAW_LINES
  | DU_DRAW_TRIS
  | DU_DRAW_QUADS
deriving DecidableEq, Repr

open duDebugDrawPrimitives

/-- The data members of `DetourDebugDraw` (the renderer it points to is passed
to `end_` explicitly).  `m_uniqueVertices` is the map from vertex to index, kept
as an association list in which the first entry for a key is the current one. -/
structure DetourDebugDraw (F : Type) where
  m_type : duDebugDrawPrimitives := DU_DRAW_POINTS
  m_size : F
  m_steep : Bool := false
  m_uniqueVertices : List (Vertex F × Int) := []
  m_vertices : List (Vertex F) := []
  m_indices : List Int := []
  m_colors : List Nat := []

namespace DetourDebugDraw

variable {F : Type} [LinearOrderedField F] [MathFns F]

/-- The constructor `DetourDebugDraw::DetourDebugDraw`. -/
def new : DetourDebugDraw F :=
  { m_type := DU_DRAW_POINTS, m_size := 1, m_steep := false }

/-- `m_uniqueVertices.find(v)`: the index stored for `v`, if any. -/
def find (m : List (Vertex F × Int)) (v : Vertex F) : Option Int :=
  match m with
  | [] => none
  | (k, idx) :: rest => if k = v then some idx else find rest v

def begin (dd : DetourDebugDraw F) (prim : duDebugDrawPrimitives) (size : F) :
    DetourDebugDraw F :=
  { dd with m_type := prim, m_size := size, m_uniqueVertices := [], m_vertices := [],
            m_indices := [], m_colors := [] }

def vertex (dd : DetourDebugDraw F) (x y z : F) (color : Nat) : DetourDebugDraw F :=
  let v : Vertex F := ⟨x, y, z⟩
  match find dd.m_uniqueVertices v with
  | some idx => { dd with m_indices := dd.m_indices ++ [idx] }
  | none =>
    let idx : Int := dd.m_vertices.length
    { dd with m_vertices := dd.m_vertices ++ [v], m_indices := dd.m_indices ++ [idx],
              m_uniqueVertices := (v, idx) :: dd.m_uniqueVertices,
              m_colors := dd.m_colors ++ [color] }

/-- The loop `for (const auto& v : m_vertices) AddSphere(v, m_size * 0.5f, 0)`. -/
def addPointSpheres (size : F) (r : Renderer F) : List (Vertex F) → Option (Renderer F)
  | [] => some r
  | v :: rest => do
    let r ← r.AddSphere v (size * (1 / 2)) 0
    addPointSpheres size r rest

/-- The quad-splitting loop (`for (i = 0; i + 3 < size; i += 4)`): the
triangle indices pushed for the remaining indices. -/
def quadsToTris : List Int → List Int
  | a :: b :: c :: d :: rest => a :: b :: c :: a :: c :: d :: quadsToTris rest
  | _ => []

/-- `DetourDebugDraw::end`, acting on the renderer `r` the adapter points to.
`IgnoreLineSize` is the constant of `DetourDebugDraw.hpp`. -/
def end_ (IgnoreLineSize : F) (dd : DetourDebugDraw F) (r : Renderer F) :
    Option (Renderer F) :=
  if dd.m_type = DU_DRAW_LINES ∧ |dd.m_size - IgnoreLineSize| < 1 / 1000 then some r
  else if dd.m_vertices.isEmpty then some r
  else
    match dd.m_type with
    | DU_DRAW_POINTS => addPointSpheres dd.m_size r dd.m_vertices
    | DU_DRAW_LINES => some (r.AddLines dd.m_vertices dd.m_indices)
    | DU_DRAW_TRIS => some (r.AddMesh dd.m_vertices dd.m_indices dd.m_steep)
    | DU_DRAW_QUADS =>
      if dd.m_indices.length % 4 = 0 then
        let triIndices := quadsToTris dd.m_indices
        some (r.AddMesh dd.m_vertices triIndices dd.m_steep)
      else some r

/-- A batch: `begin(prim, size)` followed by the given `vertex` calls
(position and colour), in order. -/
def batch (dd : DetourDebugDraw F) (prim : duDebugDrawPrimitives) (size : F)
    (calls : List (Vertex F × Nat)) : DetourDebugDraw F :=
  calls.foldl (fun dd c => dd.vertex c.1.X c.1.Y c.1.Z c.2) (dd.begin prim size)

end DetourDebugDraw

/-! ## Theorems -/

section
variable {F : Type} [LinearOrderedField F] [MathFns F]

theorem lookupInt_isSome {α : Type} (l : List α) (v : Int) (h0 : 0 ≤ v) (h1 : v < (l.length : Int)) :
    ∃ a, lookupInt l v = some a := by
  unfold lookupInt
  rw [if_pos h0]
  have : v.toNat < l.length := by omega
  exact ⟨l[v.toNat], List.getElem?_eq_getElem this⟩

theorem subdivide_spec (center : Vertex F) (radius : F) :
    ∀ (is : List Int) (vs : List (Vertex F)) (nis : List Int),
      IndicesBelow is vs.length → IndicesBelow nis vs.length →
      ∃ vs2 nis2, subdivide center radius is vs nis = some (vs2, nis2) ∧
        vs2.length = vs.length + 3 * (is.length / 3) ∧
        nis2.length = nis.length + 12 * (is.length / 3) ∧
        IndicesBelow nis2 vs2.length
  | [], vs, nis, _, h2 => ⟨vs, nis, by simp [subdivide], by simp, by simp, h2⟩
  | [_], vs, nis, _, h2 => ⟨vs, nis, by simp [subdivide], by simp, by simp, h2⟩
  | [_, _], vs, nis, _, h2 => ⟨vs, nis, by simp [subdivide], by simp, by simp, h2⟩
  | v0 :: v1 :: v2 :: rest, vs, nis, h1, h2 => by
    have hv0 := h1 v0 (by simp)
    have hv1 := h1 v1 (by simp)
    have hv2 := h1 v2 (by simp)
    obtain ⟨p0, e0⟩ := lookupInt_isSome vs v0 hv0.1 hv0.2
    obtain ⟨p1, e1⟩ := lookupInt_isSome vs v1 hv1.1 hv1.2
    obtain ⟨p2, e2⟩ := lookupInt_isSome vs v2 hv2.1 hv2.2
    have hrest : IndicesBelow rest (vs.length + 3) := by
      intro i hi
      have := h1 i (by simp [hi])
      omega
    simp only [subdivide, e0, e1, e2, Option.bind_eq_bind, Option.some_bind]
    have key := subdivide_spec center radius rest
      (vs ++ [sphereNormalize center radius ⟨(p0.X + p1.X) / 2, (p0.Y + p1.Y) / 2, (p0.Z + p1.Z) / 2⟩] ++
        [sphereNormalize center radius ⟨(p1.X + p2.X) / 2, (p1.Y + p2.Y) / 2, (p1.Z + p2.Z) / 2⟩] ++
        [sphereNormalize center radius ⟨(p2.X + p0.X) / 2, (p2.Y + p0.Y) / 2, (p2.Z + p0.Z) / 2⟩])
      (nis ++ [v0, (vs.length : Int), ((vs.length + 1 + 1 : Nat) : Int), v1, ((vs.length + 1 : Nat) : Int),
        (vs.length : Int), v2, ((vs.length + 1 + 1 : Nat) : Int), ((vs.length + 1 : Nat) : Int),
        (vs.length : Int), ((vs.length + 1 : Nat) : Int), ((vs.length + 1 + 1 : Nat) : Int)])
      (by simpa using hrest)
      (by
        intro i hi
        simp only [List.length_append, List.length_singleton]
        rcases List.mem_append.1 hi with h | h
        · have := h2 i h; omega
        · simp at h
          omega)
    obtain ⟨vs2, nis2, e, l1, l2, hb⟩ := key
    refine ⟨vs2, nis2, ?_, ?_, ?_, hb⟩
    · simpa using e
    · simp at l1 ⊢; omega
    · simp at l2 ⊢; omega

theorem subdivideLevels_spec (center : Vertex F) (radius : F) :
    ∀ (n : Nat) (vs : List (Vertex F)) (is : List Int),
      is.length % 3 = 0 → IndicesBelow is vs.length →
      ∃ vs2 is2, subdivideLevels center radius n vs is = some (vs2, is2) ∧
        is2.length = is.length * 4 ^ n ∧
        vs2.length + is.length / 3 = vs.length + is.length / 3 * 4 ^ n ∧
        IndicesBelow is2 vs2.length
  | 0, vs, is, _, h => ⟨vs, is, by simp [subdivideLevels], by simp, by simp, h⟩
  | n + 1, vs, is, h3, h => by
    obtain ⟨vs1, is1, e, l1, l2, hb⟩ :=
      subdivide_spec center radius is vs [] h (by intro i hi; simp at hi)
    have hl2 : is1.length = 12 * (is.length / 3) := by simpa using l2
    obtain ⟨vs2, is2, e2, m1, m2, hb2⟩ :=
      subdivideLevels_spec center radius n vs1 is1 (by omega) hb
    refine ⟨vs2, is2, ?_, ?_, ?_, hb2⟩
    · simp [subdivideLevels, e, e2]
    · rw [m1, hl2, pow_succ]
      have : is.length = 3 * (is.length / 3) := by omega
      generalize is.length / 3 = T at *
      rw [this]; ring
    · have h12 : is1.length / 3 = 4 * (is.length / 3) := by omega
      rw [h12, l1] at m2
      rw [pow_succ]
      generalize is.length / 3 = T at *
      generalize vs2.length = A at *
      generalize vs.length = B at *
      have e4 : 4 * T * 4 ^ n = T * (4 ^ n * 4) := by ring
      omega

theorem initialVertices_length (center : Vertex F) (radius : F) :
    (initialVertices center radius).length = 12 := by
  simp [initialVertices]

theorem initialIndices_below : IndicesBelow initialIndices 12 := by
  intro i hi
  simp [initialIndices] at hi
  omega

theorem GenerateSphereMesh_spec (center : Vertex F) (radius : F) (recursionLevel : Int) :
    ∃ vs is, GenerateSphereMesh center radius recursionLevel = some (vs, is) ∧
      is.length = 60 * 4 ^ recursionLevel.toNat ∧
      vs.length + 8 = 20 * 4 ^ recursionLevel.toNat ∧
      IndicesBelow is vs.length := by
  obtain ⟨vs, is, e, l1, l2, hb⟩ :=
    subdivideLevels_spec center radius recursionLevel.toNat (initialVertices center radius)
      initialIndices (by simp [initialIndices])
      (by rw [initialVertices_length]; exact initialIndices_below)
  refine ⟨vs, is, e, ?_, ?_, hb⟩
  · simpa [initialIndices] using l1
  · rw [initialVertices_length] at l2
    have : initialIndices.length / 3 = 20 := by simp [initialIndices]
    rw [this] at l2
    omega

/-- C8: `GenerateSphereMesh` at subdivision level 0 returns exactly 12 vertices
and 60 indices (20 triangles), and for every level `L ≥ 0`, centre and radius
it returns an index list of length `3 * 20 * 4 ^ L`. -/
theorem GenerateSphereMesh_counts (center : Vertex F) (radius : F) :
    (∃ vs is, GenerateSphereMesh center radius 0 = some (vs, is) ∧
      vs.length = 12 ∧ is.length = 60) ∧
    ∀ L : Nat, ∃ vs is, GenerateSphereMesh center radius (L : Int) = some (vs, is) ∧
      is.length = 3 * 20 * 4 ^ L := by
  constructor
  · obtain ⟨vs, is, e, l1, l2, _⟩ := GenerateSphereMesh_spec center radius 0
    refine ⟨vs, is, e, ?_, ?_⟩
    · simp at l2; omega
    · simpa using l1
  · intro L
    obtain ⟨vs, is, e, l1, _, _⟩ := GenerateSphereMesh_spec center radius (L : Int)
    exact ⟨vs, is, e, by simpa using l1⟩

end

section
variable {F : Type} [LinearOrderedField F] [MathFns F]

theorem generateNormals_length :
    ∀ (is : List Nat) (vs : List (ColoredVertex F)), (generateNormals is vs).length = vs.length
  | [], vs => by simp [generateNormals]
  | [_], vs => by simp [generateNormals]
  | [_, _], vs => by simp [generateNormals]
  | i0 :: i1 :: i2 :: rest, vs => by
    rw [generateNormals]
    split
    · simp only []
      rw [generateNormals_length rest]
      simp
    · exact generateNormals_length rest vs

theorem makeBuffer_vertices_length (color : Vec4 F) (vertices : List (Vertex F))
    (indices : List Int) (userParam : Nat) (genNormals : Bool) :
    (makeBuffer color vertices indices userParam genNormals).vertices.length = vertices.length := by
  unfold makeBuffer
  simp only []
  split
  · rw [generateNormals_length]; simp
  · simp

theorem makeBuffer_indices (color : Vec4 F) (vertices : List (Vertex F))
    (indices : List Int) (userParam : Nat) (genNormals : Bool) :
    (makeBuffer color vertices indices userParam genNormals).indices = indices.map toUnsigned := by
  simp [makeBuffer]

theorem toUnsigned_le (i : Int) (h : 0 ≤ i) : (toUnsigned i : Int) ≤ i := by
  unfold toUnsigned
  omega

theorem makeBuffer_invariant (color : Vec4 F) (vertices : List (Vertex F))
    (indices : List Int) (userParam : Nat) (genNormals : Bool)
    (h : IndicesBelow indices vertices.length) :
    (makeBuffer color vertices indices userParam genNormals).IndexInvariant := by
  intro i hi
  rw [makeBuffer_vertices_length]
  rw [makeBuffer_indices] at hi
  obtain ⟨j, hj, rfl⟩ := List.mem_map.1 hi
  have := h j hj
  have := toUnsigned_le j this.1
  omega

theorem insert_invariant (r : Renderer F) (type : Geometry) (color : Vec4 F)
    (vertices : List (Vertex F)) (indices : List Int) (userParam : Nat) (genNormals : Bool)
    (hr : r.IndexInvariant) (h : IndicesBelow indices vertices.length) :
    (r.setBuffers type
      (InsertBuffer (r.m_buffers type) color vertices indices userParam genNormals)).IndexInvariant := by
  intro g b hb
  by_cases hg : g = type
  · subst hg
    simp only [Renderer.setBuffers, Function.update_same, InsertBuffer] at hb
    rcases List.mem_append.1 hb with hb | hb
    · exact hr g b hb
    · rw [List.mem_singleton] at hb
      subst hb
      exact makeBuffer_invariant _ _ _ _ _ h
  · simp only [Renderer.setBuffers, Function.update_noteq hg] at hb
    exact hr g b hb

theorem AddSphere_invariant (r : Renderer F) (position : Vertex F) (size : F) (level : Int)
    (hr : r.IndexInvariant) :
    ∃ r2, r.AddSphere position size level = some r2 ∧ r2.IndexInvariant := by
  obtain ⟨vs, is, e, _, _, hb⟩ := GenerateSphereMesh_spec position size level
  refine ⟨_, ?_, insert_invariant r SphereGeometry SphereColor vs is 0 true hr hb⟩
  simp [Renderer.AddSphere, e]

theorem addPathSpheres_invariant :
    ∀ (path : List (Vertex F)) (r : Renderer F), r.IndexInvariant →
      ∃ r2, addPathSpheres r path = some r2 ∧ r2.IndexInvariant
  | [], r, hr => ⟨r, by simp [addPathSpheres], hr⟩
  | p :: rest, r, hr => by
    obtain ⟨r1, e1, h1⟩ := AddSphere_invariant r p (3 / 2) 1 hr
    obtain ⟨r2, e2, h2⟩ := addPathSpheres_invariant rest r1 h1
    exact ⟨r2, by simp [addPathSpheres, e1, e2], h2⟩

omit [LinearOrderedField F] [MathFns F] in
theorem pathLines_spec :
    ∀ (path : List (Vertex F)) (i : Nat),
      (pathLines path i).1.length = 2 * (path.length - 1) ∧
      (pathLines path i).2.length = 2 * (path.length - 1) ∧
      ∀ j ∈ (pathLines path i).2, (2 * i : Int) ≤ j ∧ j < 2 * i + 2 * (path.length - 1 : Nat)
  | [], i => by simp [pathLines]
  | [_], i => by simp [pathLines]
  | a :: b :: rest, i => by
    obtain ⟨h1, h2, h3⟩ := pathLines_spec (b :: rest) (i + 1)
    simp only [pathLines, List.length_cons] at h1 h2 h3 ⊢
    refine ⟨by omega, by omega, ?_⟩
    intro j hj
    simp only [List.mem_cons] at hj
    rcases hj with rfl | rfl | hj
    · push_cast; omega
    · push_cast; omega
    · have := h3 j hj
      push_cast at this ⊢
      omega

theorem AddPath_invariant (r : Renderer F) (path : List (Vertex F)) (hr : r.IndexInvariant) :
    ∃ r2, r.AddPath path = some r2 ∧ r2.IndexInvariant := by
  unfold Renderer.AddPath
  split
  · exact ⟨r, rfl, hr⟩
  · obtain ⟨r1, e1, h1⟩ := addPathSpheres_invariant path r hr
    refine ⟨_, by simp [e1]; rfl, ?_⟩
    apply insert_invariant _ _ _ _ _ _ _ h1
    obtain ⟨l1, _, l3⟩ := pathLines_spec path 0
    intro j hj
    have := l3 j hj
    rw [l1]
    push_cast at this ⊢
    omega

theorem applyAdd_invariant (r : Renderer F) (op : AddOp F) (hr : r.IndexInvariant)
    (h : op.IndicesInRange) :
    ∃ r2, r.applyAdd op = some r2 ∧ r2.IndexInvariant := by
  cases op with
  | terrain vs is a => exact ⟨_, rfl, insert_invariant _ _ _ _ _ _ _ hr h⟩
  | liquid vs is => exact ⟨_, rfl, insert_invariant _ _ _ _ _ _ _ hr h⟩
  | wmo id vs is =>
    refine ⟨_, rfl, ?_⟩
    exact insert_invariant { r with m_wmos := insert id r.m_wmos } _ _ _ _ _ _ hr h
  | doodad id vs is =>
    refine ⟨_, rfl, ?_⟩
    exact insert_invariant { r with m_doodads := insert id r.m_doodads } _ _ _ _ _ _ hr h
  | mesh vs is steep => exact ⟨_, rfl, insert_invariant _ _ _ _ _ _ _ hr h⟩
  | lines vs is => exact ⟨_, rfl, insert_invariant _ _ _ _ _ _ _ hr h⟩
  | sphere p s l => exact AddSphere_invariant r p s l hr
  | arrows s e st =>
    refine ⟨_, rfl, insert_invariant _ _ _ _ _ _ _ hr ?_⟩
    intro i hi
    simp at hi ⊢
    omega
  | path p => exact AddPath_invariant r p hr
  | gameObject vs is => exact ⟨_, rfl, insert_invariant _ _ _ _ _ _ _ hr h⟩

omit [LinearOrderedField F] [MathFns F] in
theorem new_invariant : (Renderer.new : Renderer F).IndexInvariant := by
  intro g b hb
  simp [Renderer.new] at hb

/-- C1 (amended): for every sequence of `Add*` calls in which each
caller-supplied index array holds only values in `[0, vertices.size())`, the
calls run to completion and every buffer stored in the pool satisfies the
index invariant. -/
theorem insert_index_invariant (ops : List (AddOp F))
    (h : ∀ op ∈ ops, op.IndicesInRange) :
    ∃ r, (Renderer.new : Renderer F).applyAdds ops = some r ∧ r.IndexInvariant := by
  suffices H : ∀ (ops : List (AddOp F)) (r0 : Renderer F), r0.IndexInvariant →
      (∀ op ∈ ops, op.IndicesInRange) →
      ∃ r, r0.applyAdds ops = some r ∧ r.IndexInvariant from H ops _ new_invariant h
  intro ops
  induction ops with
  | nil => intro r0 h0 _; exact ⟨r0, rfl, h0⟩
  | cons op rest ih =>
    intro r0 h0 hops
    obtain ⟨r1, e1, h1⟩ := applyAdd_invariant r0 op h0 (hops op (by simp))
    obtain ⟨r2, e2, h2⟩ := ih r1 h1 (fun o ho => hops o (by simp [ho]))
    exact ⟨r2, by simp [Renderer.applyAdds, e1, e2], h2⟩

/-- C1 (counterexample): `AddTerrain` with no vertices and the index array `{0}`
stores a buffer whose index 0 is not below its vertex count 0, so the index
invariant does not hold after every sequence of insert calls. -/
theorem insert_index_invariant_fails :
    ¬ ∀ (ops : List (AddOp ℝ)) (r : Renderer ℝ),
        (Renderer.new : Renderer ℝ).applyAdds ops = some r → r.IndexInvariant := by
  intro h
  have h1 := h [AddOp.terrain [] [0] 0] _ rfl TerrainGeometry
    (makeBuffer TerrainColor [] [0] 0 true)
    (by simp [Renderer.AddTerrain, Renderer.setBuffers, InsertBuffer, Renderer.new])
    0 (by simp [makeBuffer, toUnsigned])
  simp [makeBuffer] at h1

/-- C1 (witness): a terrain triangle followed by a two-point path. -/
theorem insert_index_invariant_witness :
    (∀ op ∈ [AddOp.terrain [⟨0, 0, 0⟩, ⟨1, 0, 0⟩, ⟨0, 1, 0⟩] [0, 1, 2] 7,
        AddOp.path [(⟨0, 0, 0⟩ : Vertex ℝ), ⟨1, 0, 0⟩]], op.IndicesInRange) ∧
    ∃ r, (Renderer.new : Renderer ℝ).applyAdds
        [AddOp.terrain [⟨0, 0, 0⟩, ⟨1, 0, 0⟩, ⟨0, 1, 0⟩] [0, 1, 2] 7,
         AddOp.path [⟨0, 0, 0⟩, ⟨1, 0, 0⟩]] = some r ∧ r.IndexInvariant :=
  ⟨by simp [AddOp.IndicesInRange, IndicesBelow],
   insert_index_invariant _ (by simp [AddOp.IndicesInRange, IndicesBelow])⟩

end

/-! ### The scan of `HitTest`, with no law of arithmetic assumed

The lemmas of this part hold for every type that carries the operations of
the hit test; where the order matters, irreflexivity and transitivity of `<`
are explicit hypotheses. -/

theorem mem_allGeometry (g : Geometry) : g ∈ allGeometry := by
  cases g <;> simp [allGeometry]

theorem flagSet_zero (g : Geometry) : flagSet 0 g = false := by
  cases g <;> decide

theorem flagSet_one (g : Geometry) : flagSet 1 g = decide (g = TerrainGeometry) := by
  cases g <;> decide

section
variable {F : Type} [Add F] [Mul F] [Div F] [LT F] [DecidableRel (fun a b : F => a < b)]
  [OfNat F 1] [OfNat F 100000]

theorem recordHit_of_not_gt (o d : Vec3 F) (b : GeometryBuffer F) (t : F) (st : HitState F)
    (h : ¬ t > 1 / 100000) : recordHit o d b t st = st := by
  unfold recordHit
  rw [if_neg (fun hc => h hc.1)]

theorem recordHit_of_not_lt (o d : Vec3 F) (b : GeometryBuffer F) (t : F) (st : HitState F)
    (h : ¬ t < st.closestDist) : recordHit o d b t st = st := by
  unfold recordHit
  rw [if_neg (fun hc => h hc.2)]

theorem recordHit_of_lt (o d : Vec3 F) (b : GeometryBuffer F) (t : F) (st : HitState F)
    (h1 : t > 1 / 100000) (h2 : t < st.closestDist) :
    recordHit o d b t st =
      { closestDist := t, found := true,
        out := ⟨o.x + d.x * t, o.y + d.y * t, o.z + d.z * t⟩, param := b.UserParameter } := by
  unfold recordHit
  rw [if_pos ⟨h1, h2⟩]
  simp [glm.add, glm.scale]

/-- Entries that are not below the current closest distance leave the state
as it is. -/
theorem recordHits_skip (o d : Vec3 F) :
    ∀ (hits : List (GeometryBuffer F × F)) (st : HitState F),
      (∀ h ∈ hits, ¬ h.2 < st.closestDist) →
      hits.foldl (fun s h => recordHit o d h.1 h.2 s) st = st
  | [], st, _ => rfl
  | h :: rest, st, hle => by
    rw [List.foldl_cons, recordHit_of_not_lt o d h.1 h.2 st (hle h (by simp))]
    exact recordHits_skip o d rest st (fun x hx => hle x (by simp [hx]))

theorem recordHits_gt (o d : Vec3 F) (t : F) :
    ∀ (hits : List (GeometryBuffer F × F)) (st : HitState F),
      (∀ h ∈ hits, t < h.2) → t < st.closestDist →
      t < (hits.foldl (fun s h => recordHit o d h.1 h.2 s) st).closestDist
  | [], st, _, hst => hst
  | h :: rest, st, hgt, hst => by
    rw [List.foldl_cons]
    refine recordHits_gt o d t rest _ (fun x hx => hgt x (by simp [hx])) ?_
    unfold recordHit
    split
    · exact hgt h (by simp)
    · exact hst

/-- The fold records the first entry of minimal distance: an entry that is
below the initial closest distance, strictly below every earlier entry and not
above any later one. -/
theorem recordHits_first_min (o d : Vec3 F) (pre post : List (GeometryBuffer F × F))
    (b : GeometryBuffer F) (t : F) (st : HitState F)
    (hpre : ∀ h ∈ pre, t < h.2) (hpost : ∀ h ∈ post, ¬ h.2 < t)
    (ht : t > 1 / 100000) (hst : t < st.closestDist) :
    (pre ++ (b, t) :: post).foldl (fun s h => recordHit o d h.1 h.2 s) st =
      { closestDist := t, found := true,
        out := ⟨o.x + d.x * t, o.y + d.y * t, o.z + d.z * t⟩, param := b.UserParameter } := by
  rw [List.foldl_append, List.foldl_cons,
    recordHit_of_lt o d b t _ ht (recordHits_gt o d t pre st hpre hst)]
  exact recordHits_skip o d post _ hpost

end

section
variable {F : Type} [Add F] [Sub F] [Mul F] [Div F] [Neg F] [LT F]
  [DecidableRel (fun a b : F => a < b)] [OfNat F 0] [OfNat F 1] [OfNat F 100000]

/-! ### The scan completes when the indices are in range -/

theorem hitTriangles_isSome (o d : Vec3 F) (b : GeometryBuffer F) :
    ∀ (is : List Nat) (st : HitState F), (∀ i ∈ is, i < b.vertices.length) →
      ∃ st2, hitTriangles o d b is st = some st2
  | [], st, _ => ⟨st, by simp [hitTriangles]⟩
  | [_], st, _ => ⟨st, by simp [hitTriangles]⟩
  | [_, _], st, _ => ⟨st, by simp [hitTriangles]⟩
  | i0 :: i1 :: i2 :: rest, st, h => by
    have h0 := h i0 (by simp)
    have h1 := h i1 (by simp)
    have h2 := h i2 (by simp)
    have hrest : ∀ i ∈ rest, i < b.vertices.length := fun i hi => h i (by simp [hi])
    have e0 : b.vertices[i0]? = some b.vertices[i0] := List.getElem?_eq_getElem h0
    have e1 : b.vertices[i1]? = some b.vertices[i1] := List.getElem?_eq_getElem h1
    have e2 : b.vertices[i2]? = some b.vertices[i2] := List.getElem?_eq_getElem h2
    simp only [hitTriangles, e0, e1, e2, Option.bind_eq_bind, Option.some_bind]
    cases rayTriangle o d b.vertices[i0].position b.vertices[i1].position
        b.vertices[i2].position with
    | none => exact hitTriangles_isSome o d b rest st hrest
    | some t => exact hitTriangles_isSome o d b rest _ hrest

theorem hitBuffers_isSome (o d : Vec3 F) :
    ∀ (bs : List (GeometryBuffer F)) (st : HitState F), (∀ b ∈ bs, b.IndexInvariant) →
      ∃ st2, hitBuffers o d bs st = some st2
  | [], st, _ => ⟨st, by simp [hitBuffers]⟩
  | b :: rest, st, h => by
    obtain ⟨st1, e1⟩ := hitTriangles_isSome o d b b.indices st (h b (by simp))
    obtain ⟨st2, e2⟩ := hitBuffers_isSome o d rest st1 (fun b2 hb => h b2 (by simp [hb]))
    exact ⟨st2, by simp [hitBuffers, e1, e2]⟩

theorem hitCategories_isSome (m : Geometry → List (GeometryBuffer F)) (o d : Vec3 F)
    (flags : Nat)
    (hwf : ∀ g, flagSet flags g = true → ∀ b ∈ m g, b.IndexInvariant) :
    ∀ (types : List Geometry) (st : HitState F),
      ∃ st2, hitCategories m o d flags types st = some st2
  | [], st => ⟨st, by simp [hitCategories]⟩
  | g :: rest, st => by
    by_cases hg : flagSet flags g = true
    · obtain ⟨st1, e1⟩ := hitBuffers_isSome o d (m g) st (hwf g hg)
      obtain ⟨st2, e2⟩ := hitCategories_isSome m o d flags hwf rest st1
      exact ⟨st2, by simp [hitCategories, hg, e1, e2]⟩
    · obtain ⟨st2, e2⟩ := hitCategories_isSome m o d flags hwf rest st
      exact ⟨st2, by simp [hitCategories, hg, e2]⟩

/-! ### The scan depends on the selected categories only -/

theorem hitCategories_congr (m1 m2 : Geometry → List (GeometryBuffer F)) (o d : Vec3 F)
    (flags : Nat) (h : ∀ g, flagSet flags g = true → m1 g = m2 g) :
    ∀ (types : List Geometry) (st : HitState F),
      hitCategories m1 o d flags types st = hitCategories m2 o d flags types st
  | [], st => by simp [hitCategories]
  | g :: rest, st => by
    by_cases hg : flagSet flags g = true
    · simp only [hitCategories, hg, Bool.not_true, Bool.false_eq_true, if_false, h g hg]
      cases hitBuffers o d (m2 g) st with
      | none => rfl
      | some st1 => exact hitCategories_congr m1 m2 o d flags h rest st1
    · simp only [hitCategories, hg, Bool.not_false, if_true]
      exact hitCategories_congr m1 m2 o d flags h rest st

theorem hitCategories_unselected (m : Geometry → List (GeometryBuffer F)) (o d : Vec3 F)
    (flags : Nat) :
    ∀ (types : List Geometry) (st : HitState F), (∀ g ∈ types, flagSet flags g = false) →
      hitCategories m o d flags types st = some st
  | [], st, _ => by simp [hitCategories]
  | g :: rest, st, h => by
    have hg := h g (by simp)
    simp only [hitCategories, hg, Bool.not_false, if_true]
    exact hitCategories_unselected m o d flags rest st (fun g2 h2 => h g2 (by simp [h2]))

theorem hitCategories_empty (m : Geometry → List (GeometryBuffer F)) (o d : Vec3 F)
    (flags : Nat) (hm : ∀ g, m g = []) :
    ∀ (types : List Geometry) (st : HitState F),
      hitCategories m o d flags types st = some st
  | [], st => by simp [hitCategories]
  | g :: rest, st => by
    by_cases hg : flagSet flags g = true
    · simp only [hitCategories, hg, Bool.not_true, Bool.false_eq_true, if_false, hm g,
        hitBuffers, Option.bind_eq_bind, Option.some_bind]
      exact hitCategories_empty m o d flags hm rest st
    · simp only [hitCategories, hg, Bool.not_false, if_true]
      exact hitCategories_empty m o d flags hm rest st

/-! ### The scan as a fold over the hit sequence -/

theorem hitTriangles_fold (o d : Vec3 F) (b : GeometryBuffer F) :
    ∀ (is : List Nat) (st st2 : HitState F), hitTriangles o d b is st = some st2 →
      st2 = (((triangles is).filterMap (triangleHit o d b)).foldl
        (fun s h => recordHit o d h.1 h.2 s) st)
  | [], st, st2, h => by
    simp only [hitTriangles, Option.some.injEq] at h
    simp [triangles, h]
  | [_], st, st2, h => by
    simp only [hitTriangles, Option.some.injEq] at h
    simp [triangles, h]
  | [_, _], st, st2, h => by
    simp only [hitTriangles, Option.some.injEq] at h
    simp [triangles, h]
  | i0 :: i1 :: i2 :: rest, st, st2, h => by
    cases e0 : b.vertices[i0]? with
    | none => simp [hitTriangles, e0] at h
    | some c0 =>
    cases e1 : b.vertices[i1]? with
    | none => simp [hitTriangles, e0, e1] at h
    | some c1 =>
    cases e2 : b.vertices[i2]? with
    | none => simp [hitTriangles, e0, e1, e2] at h
    | some c2 =>
    simp only [hitTriangles, e0, e1, e2, Option.bind_eq_bind, Option.some_bind] at h
    cases hrt : rayTriangle o d c0.position c1.position c2.position with
    | none =>
      rw [hrt] at h
      have hs := hitTriangles_fold o d b rest st st2 h
      have e : triangleHit o d b (i0, i1, i2) = none := by
        simp [triangleHit, e0, e1, e2, hrt]
      rw [hs, triangles, List.filterMap_cons, e]
    | some t =>
      rw [hrt] at h
      have hs := hitTriangles_fold o d b rest _ st2 h
      by_cases ht : t > 1 / 100000
      · have e : triangleHit o d b (i0, i1, i2) = some (b, t) := by
          simp only [triangleHit, e0, e1, e2, hrt, Option.bind_eq_bind, Option.some_bind, if_pos ht]
        rw [hs, triangles, List.filterMap_cons, e, List.foldl_cons]
      · have e : triangleHit o d b (i0, i1, i2) = none := by
          simp only [triangleHit, e0, e1, e2, hrt, Option.bind_eq_bind, Option.some_bind, if_neg ht]
        rw [hs, triangles, List.filterMap_cons, e, recordHit_of_not_gt o d b t st ht]

theorem hitBuffers_fold (o d : Vec3 F) :
    ∀ (bs : List (GeometryBuffer F)) (st st2 : HitState F), hitBuffers o d bs st = some st2 →
      st2 = ((bs.flatMap (bufferHits o d)).foldl (fun s h => recordHit o d h.1 h.2 s) st)
  | [], st, st2, h => by
    simp only [hitBuffers, Option.some.injEq] at h
    simp [h]
  | b :: rest, st, st2, h => by
    cases e : hitTriangles o d b b.indices st with
    | none => simp [hitBuffers, e] at h
    | some st1 =>
      simp only [hitBuffers, e, Option.bind_eq_bind, Option.some_bind] at h
      have h1 := hitTriangles_fold o d b b.indices st st1 e
      have h2 := hitBuffers_fold o d rest st1 st2 h
      rw [h2, h1, List.flatMap_cons, List.foldl_append, bufferHits]

theorem hitCategories_fold (m : Geometry → List (GeometryBuffer F)) (o d : Vec3 F)
    (flags : Nat) :
    ∀ (types : List Geometry) (st st2 : HitState F),
      hitCategories m o d flags types st = some st2 →
      st2 = (((types.filter (flagSet flags)).flatMap
        (fun g => (m g).flatMap (bufferHits o d))).foldl
          (fun s h => recordHit o d h.1 h.2 s) st)
  | [], st, st2, h => by
    simp only [hitCategories, Option.some.injEq] at h
    simp [h]
  | g :: rest, st, st2, h => by
    by_cases hg : flagSet flags g = true
    · simp only [hitCategories, hg, Bool.not_true, Bool.false_eq_true, if_false] at h
      cases e : hitBuffers o d (m g) st with
      | none => simp [e] at h
      | some st1 =>
        simp only [e, Option.bind_eq_bind, Option.some_bind] at h
        have h1 := hitBuffers_fold o d (m g) st st1 e
        have h2 := hitCategories_fold m o d flags rest st1 st2 h
        rw [h2, h1, List.filter_cons_of_pos hg, List.flatMap_cons, List.foldl_append]
    · have hg2 : flagSet flags g = false := by simpa using hg
      simp only [hitCategories, hg2, Bool.not_false, if_true] at h
      have h2 := hitCategories_fold m o d flags rest st st2 h
      rw [h2, List.filter_cons_of_neg hg]

/-! ### The hit sequence lists the triangles the test accepts -/

theorem mem_bufferHits_iff (o d : Vec3 F) (b b2 : GeometryBuffer F) (t : F) :
    (b2, t) ∈ bufferHits o d b ↔ b2 = b ∧ BufferQualifies o d b t := by
  simp only [bufferHits, List.mem_filterMap, BufferQualifies]
  constructor
  · rintro ⟨tri, htri, h⟩
    cases e0 : b.vertices[tri.1]? with
    | none => simp [triangleHit, e0] at h
    | some c0 =>
    cases e1 : b.vertices[tri.2.1]? with
    | none => simp [triangleHit, e0, e1] at h
    | some c1 =>
    cases e2 : b.vertices[tri.2.2]? with
    | none => simp [triangleHit, e0, e1, e2] at h
    | some c2 =>
    cases hrt : rayTriangle o d c0.position c1.position c2.position with
    | none => simp [triangleHit, e0, e1, e2, hrt] at h
    | some t0 =>
      simp only [triangleHit, e0, e1, e2, hrt, Option.bind_eq_bind, Option.some_bind] at h
      by_cases ht : t0 > 1 / 100000
      · rw [if_pos ht] at h
        have h2 := Option.some.inj h
        have hb : b = b2 := congrArg Prod.fst h2
        have htt : t0 = t := congrArg Prod.snd h2
        subst htt
        exact ⟨hb.symm, tri, htri, c0, c1, c2, e0, e1, e2, hrt, ht⟩
      · rw [if_neg ht] at h
        exact absurd h (by simp)
  · rintro ⟨rfl, tri, htri, c0, c1, c2, e0, e1, e2, hrt, ht⟩
    refine ⟨tri, htri, ?_⟩
    simp only [triangleHit, e0, e1, e2, hrt, Option.bind_eq_bind, Option.some_bind, if_pos ht]

theorem mem_hitSequence_iff (r : Renderer F) (o d : Vec3 F) (flags : Nat)
    (b : GeometryBuffer F) (t : F) :
    (b, t) ∈ r.hitSequence o d flags ↔ r.Qualifies o d flags b t := by
  simp only [Renderer.hitSequence, List.mem_flatMap, List.mem_filter, Renderer.Qualifies]
  constructor
  · rintro ⟨g, ⟨_, hg⟩, b1, hb1, hm⟩
    obtain ⟨rfl, hh⟩ := (mem_bufferHits_iff o d b1 b t).1 hm
    exact ⟨g, hg, hb1, hh⟩
  · rintro ⟨g, hg, hb, hh⟩
    exact ⟨g, ⟨mem_allGeometry g, hg⟩, b, hb, (mem_bufferHits_iff o d b b t).2 ⟨rfl, hh⟩⟩

theorem hitSequence_gt (r : Renderer F) (o d : Vec3 F) (flags : Nat) (h : GeometryBuffer F × F)
    (hm : h ∈ r.hitSequence o d flags) : h.2 > 1 / 100000 := by
  obtain ⟨_, _, _, _, _, _, _, _, _, _, _, _, ht⟩ :=
    (mem_hitSequence_iff r o d flags h.1 h.2).1 hm
  exact ht

theorem bufferHits_triangle (o d : Vec3 F) (b : GeometryBuffer F) (p0 p1 p2 : Vec3 F) (t : F)
    (hv : b.vertices.map (fun x => x.position) = [p0, p1, p2]) (hi : b.indices = [0, 1, 2])
    (hrt : rayTriangle o d p0 p1 p2 = some t) (ht : t > 1 / 100000) :
    bufferHits o d b = [(b, t)] := by
  rcases hb : b.vertices with _ | ⟨c0, _ | ⟨c1, _ | ⟨c2, _ | ⟨c3, l⟩⟩⟩⟩ <;>
    rw [hb] at hv <;> simp at hv
  obtain ⟨h0, h1, h2⟩ := hv
  subst h0 h1 h2
  simp only [bufferHits, hi, triangles, List.filterMap_cons, List.filterMap_nil, triangleHit,
    hb, List.getElem?_cons_zero, List.getElem?_cons_succ, Option.bind_eq_bind,
    Option.some_bind, hrt, if_pos ht]

end

section
variable {F : Type} [Add F] [Sub F] [Mul F] [Div F] [Neg F] [LT F]
  [DecidableRel (fun a b : F => a < b)] [OfNat F 0] [OfNat F 1] [OfNat F 100000]
  [OfNat F 340282346638528859811704183484516925440]

theorem HitTestRay_isSome (r : Renderer F) (o d : Vec3 F) (flags : Nat) (out : Vertex F)
    (param : Nat) (hwf : r.SelectedInvariant flags) :
    ∃ st, r.HitTestRay o d flags out param = some st :=
  hitCategories_isSome r.m_buffers o d flags hwf allGeometry _

theorem HitTestRay_fold (r : Renderer F) (o d : Vec3 F) (flags : Nat) (out : Vertex F)
    (param : Nat) (st : HitState F) (h : r.HitTestRay o d flags out param = some st) :
    st = (r.hitSequence o d flags).foldl (fun s h => recordHit o d h.1 h.2 s)
      { closestDist := FLT_MAX, found := false, out := out, param := param } :=
  hitCategories_fold r.m_buffers o d flags allGeometry _ st h

end

section
variable {F : Type} [LinearOrderedField F]

theorem rayTriangle_eq_some_iff (o d v0 v1 v2 : Vec3 F) (t : F) :
    rayTriangle o d v0 v1 v2 = some t ↔ PassesMollerTrumbore o d v0 v1 v2 t := by
  unfold rayTriangle PassesMollerTrumbore
  simp only []
  generalize glm.dot (glm.sub v1 v0) (glm.cross d (glm.sub v2 v0)) = a
  generalize (1 / a) * glm.dot (glm.sub o v0) (glm.cross d (glm.sub v2 v0)) = u
  generalize (1 / a) * glm.dot d (glm.cross (glm.sub o v0) (glm.sub v1 v0)) = v
  generalize (1 / a) * glm.dot (glm.sub v2 v0) (glm.cross (glm.sub o v0) (glm.sub v1 v0)) = t0
  have habs : (1 / 100000 ≤ |a|) ↔ ¬ (a > -(1 / 100000) ∧ a < 1 / 100000) := by
    rw [le_abs]
    constructor
    · rintro (h | h) ⟨h1, h2⟩
      · exact absurd h2 (not_lt.2 h)
      · have : a ≤ -(1/100000) := by linarith
        exact absurd h1 (not_lt.2 this)
    · intro h
      by_cases h1 : a < 1 / 100000
      · right
        have : ¬ a > -(1/100000) := fun h2 => h ⟨h2, h1⟩
        have := not_lt.1 this
        linarith
      · left; exact not_lt.1 h1
  by_cases ha : a > -(1 / 100000) ∧ a < 1 / 100000
  · rw [if_pos ha]
    simp only [habs, ha, not_true_eq_false, false_and]
    simp
  · rw [if_neg ha]
    by_cases hu : u < 0 ∨ u > 1
    · rw [if_pos hu]
      constructor
      · intro h; exact absurd h (by simp)
      · rintro ⟨_, h1, h2, _⟩
        rcases hu with hu | hu
        · exact absurd hu (not_lt.2 h1)
        · exact absurd hu (not_lt.2 h2)
    · rw [if_neg hu]
      by_cases hv : v < 0 ∨ u + v > 1
      · rw [if_pos hv]
        constructor
        · intro h; exact absurd h (by simp)
        · rintro ⟨_, _, _, h1, h2, _⟩
          rcases hv with hv | hv
          · exact absurd hv (not_lt.2 h1)
          · exact absurd hv (not_lt.2 h2)
      · rw [if_neg hv]
        push_neg at hu hv
        constructor
        · intro h
          have := Option.some.inj h
          exact ⟨habs.2 ha, hu.1, hu.2, hv.1, hv.2, this.symm⟩
        · rintro ⟨_, _, _, _, _, h⟩
          rw [h]

theorem ScanStep.refl (o d : Vec3 F) (P : GeometryBuffer F → F → Prop) (st : HitState F)
    (h : ∀ b t, P b t → st.closestDist ≤ t) : ScanStep o d P st st :=
  ⟨le_refl _, h, Or.inl rfl⟩

theorem ScanStep.trans {o d : Vec3 F} {P Q R : GeometryBuffer F → F → Prop}
    {st st1 st2 : HitState F} (h1 : ScanStep o d P st st1) (h2 : ScanStep o d Q st1 st2)
    (hR : ∀ b t, R b t ↔ (P b t ∨ Q b t)) : ScanStep o d R st st2 := by
  obtain ⟨a1, b1, c1⟩ := h1
  obtain ⟨a2, b2, c2⟩ := h2
  refine ⟨le_trans a2 a1, ?_, ?_⟩
  · intro b t hb
    rcases (hR b t).1 hb with hb | hb
    · exact le_trans a2 (b1 b t hb)
    · exact b2 b t hb
  · rcases c2 with c2 | ⟨f2, b, hb, hp, ho⟩
    · rcases c1 with c1 | ⟨f1, b, hb, hp, ho⟩
      · left; rw [c2, c1]
      · right
        rw [c2]
        exact ⟨f1, b, (hR _ _).2 (Or.inl hb), hp, ho⟩
    · right
      exact ⟨f2, b, (hR _ _).2 (Or.inr hb), hp, ho⟩

theorem ScanStep.congr {o d : Vec3 F} {P R : GeometryBuffer F → F → Prop}
    {st st1 : HitState F} (h1 : ScanStep o d P st st1)
    (hR : ∀ b t, R b t ↔ P b t) : ScanStep o d R st st1 := by
  have : R = P := by funext b t; exact propext (hR b t)
  rw [this]; exact h1

theorem recordHit_step (o d : Vec3 F) (b : GeometryBuffer F) (t : F) (st : HitState F) :
    ScanStep o d (fun b2 t2 => b2 = b ∧ t2 = t ∧ 1 / 100000 < t) st (recordHit o d b t st) := by
  unfold recordHit
  split
  · rename_i h
    refine ⟨le_of_lt h.2, ?_, Or.inr ⟨rfl, b, ⟨rfl, rfl, h.1⟩, rfl, ?_⟩⟩
    · rintro b2 t2 ⟨_, rfl, _⟩
      exact le_refl _
    · simp [glm.add, glm.scale]
  · rename_i h
    refine ⟨le_refl _, ?_, Or.inl rfl⟩
    rintro b2 t2 ⟨_, rfl, ht⟩
    by_contra hc
    exact h ⟨ht, not_le.1 hc⟩

theorem hitTriangles_step (o d : Vec3 F) (b : GeometryBuffer F) :
    ∀ (is : List Nat) (st st2 : HitState F), hitTriangles o d b is st = some st2 →
        ScanStep o d (fun b2 t => b2 = b ∧ TrianglesHit o d b.vertices is t) st st2
  | [], st, st2, h => by
    simp only [hitTriangles, Option.some.injEq] at h
    subst h
    exact ⟨le_refl _, by rintro b2 t ⟨_, tri, htri, _⟩; simp [triangles] at htri, Or.inl rfl⟩
  | [_], st, st2, h => by
    simp only [hitTriangles, Option.some.injEq] at h
    subst h
    exact ⟨le_refl _, by rintro b2 t ⟨_, tri, htri, _⟩; simp [triangles] at htri, Or.inl rfl⟩
  | [_, _], st, st2, h => by
    simp only [hitTriangles, Option.some.injEq] at h
    subst h
    exact ⟨le_refl _, by rintro b2 t ⟨_, tri, htri, _⟩; simp [triangles] at htri, Or.inl rfl⟩
  | i0 :: i1 :: i2 :: rest, st, st2, h => by
    cases e0 : b.vertices[i0]? with
    | none => simp [hitTriangles, e0] at h
    | some c0 =>
    cases e1 : b.vertices[i1]? with
    | none => simp [hitTriangles, e0, e1] at h
    | some c1 =>
    cases e2 : b.vertices[i2]? with
    | none => simp [hitTriangles, e0, e1, e2] at h
    | some c2 =>
    simp only [hitTriangles, e0, e1, e2, Option.bind_eq_bind, Option.some_bind] at h
    cases hrt : rayTriangle o d c0.position c1.position c2.position with
    | none =>
      rw [hrt] at h
      have hs := hitTriangles_step o d b rest st st2 h
      refine hs.congr ?_
      intro b2 t
      constructor
      · rintro ⟨hb, tri, htri, d0, d1, d2, l0, l1, l2, hp, ht⟩
        refine ⟨hb, ?_⟩
        simp only [triangles, List.mem_cons] at htri
        rcases htri with rfl | htri
        · simp only [e0, e1, e2, Option.some.injEq] at l0 l1 l2
          subst l0 l1 l2
          rw [← rayTriangle_eq_some_iff, hrt] at hp
          exact absurd hp (by simp)
        · exact ⟨tri, htri, d0, d1, d2, l0, l1, l2, hp, ht⟩
      · rintro ⟨hb, tri, htri, rest2⟩
        exact ⟨hb, tri, by simp [triangles, htri], rest2⟩
    | some t =>
      rw [hrt] at h
      have hs := hitTriangles_step o d b rest (recordHit o d b t st) st2 h
      refine (recordHit_step o d b t st).trans hs ?_
      intro b2 t2
      constructor
      · rintro ⟨hb, tri, htri, d0, d1, d2, l0, l1, l2, hp, ht⟩
        simp only [triangles, List.mem_cons] at htri
        rcases htri with rfl | htri
        · left
          simp only [e0, e1, e2, Option.some.injEq] at l0 l1 l2
          subst l0 l1 l2
          rw [← rayTriangle_eq_some_iff, hrt] at hp
          have := Option.some.inj hp
          subst this
          exact ⟨hb, rfl, ht⟩
        · right
          exact ⟨hb, tri, htri, d0, d1, d2, l0, l1, l2, hp, ht⟩
      · rintro (⟨hb, rfl, ht⟩ | ⟨hb, tri, htri, rest2⟩)
        · refine ⟨hb, (i0, i1, i2), by simp [triangles], _, _, _, e0, e1, e2, ?_, ht⟩
          rw [← rayTriangle_eq_some_iff, hrt]
        · exact ⟨hb, tri, by simp [triangles, htri], rest2⟩

theorem hitBuffers_step (o d : Vec3 F) :
    ∀ (bs : List (GeometryBuffer F)) (st st2 : HitState F), hitBuffers o d bs st = some st2 →
        ScanStep o d (fun b t => b ∈ bs ∧ BufferHit o d b t) st st2
  | [], st, st2, h => by
    simp only [hitBuffers, Option.some.injEq] at h
    subst h
    exact ⟨le_refl _, by simp, Or.inl rfl⟩
  | b :: rest, st, st2, h => by
    cases e1 : hitTriangles o d b b.indices st with
    | none => simp [hitBuffers, e1] at h
    | some st1 =>
    simp only [hitBuffers, e1, Option.bind_eq_bind, Option.some_bind] at h
    have s1 := hitTriangles_step o d b b.indices st st1 e1
    have s2 := hitBuffers_step o d rest st1 st2 h
    refine s1.trans s2 ?_
    intro b2 t
    simp only [List.mem_cons, BufferHit]
    constructor
    · rintro ⟨rfl | hb, ht⟩
      · exact Or.inl ⟨rfl, ht⟩
      · exact Or.inr ⟨hb, ht⟩
    · rintro (⟨rfl, ht⟩ | ⟨hb, ht⟩)
      · exact ⟨Or.inl rfl, ht⟩
      · exact ⟨Or.inr hb, ht⟩

theorem hitCategories_step (m : Geometry → List (GeometryBuffer F)) (o d : Vec3 F)
    (flags : Nat) :
    ∀ (types : List Geometry) (st st2 : HitState F),
      hitCategories m o d flags types st = some st2 →
        ScanStep o d (fun b t => ∃ g ∈ types, flagSet flags g = true ∧ b ∈ m g ∧
          BufferHit o d b t) st st2
  | [], st, st2, h => by
    simp only [hitCategories, Option.some.injEq] at h
    subst h
    exact ⟨le_refl _, by simp, Or.inl rfl⟩
  | g :: rest, st, st2, h => by
    by_cases hg : flagSet flags g = true
    · cases e1 : hitBuffers o d (m g) st with
      | none => simp [hitCategories, hg, e1] at h
      | some st1 =>
      simp only [hitCategories, hg, e1, Bool.not_true, Bool.false_eq_true, if_false,
        Option.bind_eq_bind, Option.some_bind] at h
      have s1 := hitBuffers_step o d (m g) st st1 e1
      have s2 := hitCategories_step m o d flags rest st1 st2 h
      refine s1.trans s2 ?_
      intro b t
      simp only [List.mem_cons]
      constructor
      · rintro ⟨g2, rfl | hg2, hf, hb, ht⟩
        · exact Or.inl ⟨hb, ht⟩
        · exact Or.inr ⟨g2, hg2, hf, hb, ht⟩
      · rintro (⟨hb, ht⟩ | ⟨g2, hg2, hf, hb, ht⟩)
        · exact ⟨g, Or.inl rfl, hg, hb, ht⟩
        · exact ⟨g2, Or.inr hg2, hf, hb, ht⟩
    · simp only [hitCategories, hg, Bool.not_false, if_true] at h
      have s2 := hitCategories_step m o d flags rest st st2 h
      refine s2.congr ?_
      intro b t
      simp only [List.mem_cons]
      constructor
      · rintro ⟨g2, rfl | hg2, hf, hb, ht⟩
        · exact absurd hf hg
        · exact ⟨g2, hg2, hf, hb, ht⟩
      · rintro ⟨g2, hg2, hf, hb, ht⟩
        exact ⟨g2, Or.inr hg2, hf, hb, ht⟩

theorem HitTestRay_step (r : Renderer F) (o d : Vec3 F) (flags : Nat) (out : Vertex F)
    (param : Nat) (st : HitState F) (h : r.HitTestRay o d flags out param = some st) :
      ScanStep o d (fun b t => r.Hit o d flags b t)
        { closestDist := FLT_MAX, found := false, out := out, param := param } st := by
  have s := hitCategories_step r.m_buffers o d flags allGeometry _ st h
  refine s.congr ?_
  intro b t
  simp only [Renderer.Hit]
  constructor
  · rintro ⟨g, h⟩; exact ⟨g, mem_allGeometry g, h⟩
  · rintro ⟨g, _, h⟩; exact ⟨g, h⟩

theorem bufferQualifies_iff_hit (o d : Vec3 F) (b : GeometryBuffer F) (t : F) :
    BufferQualifies o d b t ↔ BufferHit o d b t := by
  simp only [BufferQualifies, BufferHit, TrianglesHit, rayTriangle_eq_some_iff, gt_iff_lt]

/-- In exact arithmetic the triangles accepted by the test of `HitTest` are
those that satisfy the Moller-Trumbore conditions `|a| ≥ 1e-5`, `0 ≤ u ≤ 1`,
`0 ≤ v`, `u + v ≤ 1`, with `t > 1e-5`. -/
theorem qualifies_iff_hit (r : Renderer F) (o d : Vec3 F) (flags : Nat) (b : GeometryBuffer F)
    (t : F) : r.Qualifies o d flags b t ↔ r.Hit o d flags b t := by
  simp only [Renderer.Qualifies, Renderer.Hit, bufferQualifies_iff_hit]

end

section
variable {F : Type}

theorem SelectedInvariant_of_IndexInvariant (r : Renderer F) (flags : Nat)
    (h : r.IndexInvariant) : r.SelectedInvariant flags :=
  fun g _ b hb => h g b hb

theorem ClearAllBuffers_buffers (r : Renderer F) (g : Geometry) :
    r.ClearAllBuffers.m_buffers g = [] := by
  cases g <;>
    simp [Renderer.ClearAllBuffers, allGeometry, Renderer.ClearBuffers, Renderer.setBuffers,
      Function.update]

end

section
variable {F : Type} [Add F] [Sub F] [Mul F] [Div F] [Neg F] [LT F]
  [DecidableRel (fun a b : F => a < b)] [IntCast F] [OfNat F 0] [OfNat F 1] [OfNat F 2]
  [OfNat F 100000] [OfNat F 340282346638528859811704183484516925440] [MathFns F]

/-- C3 (amended): `F` is any type with the operations of the hit test, no law
assumed.
Two pools that agree on every category selected by the mask give the same
`HitTest` result for the same camera and screen point.  If the test of
`HitTest` accepts no triangle of a selected category (none intersects the pick
ray), `HitTest` never reports a hit, and it reports "no hit" with the outputs
untouched when the selected buffers satisfy the index invariant.  For mask 0
it always reports "no hit". -/
theorem hitTest_depends_on_selected (camera : Camera F) (x y : Int) (geometryFlags : Nat)
    (out : Vertex F) (param : Nat) (r1 r2 : Renderer F)
    (hagree : ∀ g, flagSet geometryFlags g = true → r1.m_buffers g = r2.m_buffers g) :
    r1.HitTest camera x y geometryFlags out param =
      r2.HitTest camera x y geometryFlags out param ∧
    ((∀ b t, ¬ r1.Qualifies (camera.GetPickRay x y).1 (camera.GetPickRay x y).2
        geometryFlags b t) →
      (∀ st, r1.HitTest camera x y geometryFlags out param = some st →
        st = { closestDist := FLT_MAX, found := false, out := out, param := param }) ∧
      (r1.SelectedInvariant geometryFlags →
        r1.HitTest camera x y geometryFlags out param =
          some { closestDist := FLT_MAX, found := false, out := out, param := param })) ∧
    r1.HitTest camera x y 0 out param =
      some { closestDist := FLT_MAX, found := false, out := out, param := param } := by
  refine ⟨hitCategories_congr _ _ _ _ _ hagree _ _, ?_, ?_⟩
  · intro hno
    have hnil : r1.hitSequence (camera.GetPickRay x y).1 (camera.GetPickRay x y).2
        geometryFlags = [] := by
      rw [List.eq_nil_iff_forall_not_mem]
      intro h hm
      exact hno h.1 h.2 ((mem_hitSequence_iff r1 _ _ geometryFlags h.1 h.2).1 hm)
    have key : ∀ st, r1.HitTest camera x y geometryFlags out param = some st →
        st = { closestDist := FLT_MAX, found := false, out := out, param := param } := by
      intro st hst
      have hfold := HitTestRay_fold r1 _ _ geometryFlags out param st hst
      rw [hnil] at hfold
      exact hfold
    refine ⟨key, fun hwf => ?_⟩
    obtain ⟨st, hst⟩ := HitTestRay_isSome r1 (camera.GetPickRay x y).1 (camera.GetPickRay x y).2
      geometryFlags out param hwf
    have hst2 : r1.HitTest camera x y geometryFlags out param = some st := hst
    rw [hst2, key st hst2]
  · exact hitCategories_unselected _ _ _ _ _ _ (fun g _ => flagSet_zero g)

end

section
variable {F : Type} [LinearOrderedField F] [MathFns F]

/-- C4: after `ClearBuffers()` on any pool state, `HitTest` reports "no hit"
for every camera, screen point and mask, and `HasWmo(id)` and `HasDoodad(id)`
are false for every id. -/
theorem clearAll_then_nothing (r : Renderer F) :
    (∀ (camera : Camera F) (x y : Int) (geometryFlags : Nat) (out : Vertex F) (param : Nat),
      r.ClearAllBuffers.HitTest camera x y geometryFlags out param =
        some { closestDist := FLT_MAX, found := false, out := out, param := param }) ∧
    (∀ id, r.ClearAllBuffers.HasWmo id = false ∧ r.ClearAllBuffers.HasDoodad id = false) := by
  constructor
  · intro camera x y flags out param
    exact hitCategories_empty _ _ _ _ (ClearAllBuffers_buffers r) _ _
  · intro id
    simp [Renderer.HasWmo, Renderer.HasDoodad, Renderer.ClearAllBuffers]

end

namespace DetourDebugDraw

section
variable {F : Type} [LinearOrderedField F]

theorem batch_snoc (dd : DetourDebugDraw F) (prim : duDebugDrawPrimitives) (size : F)
    (cs : List (Vertex F × Nat)) (c : Vertex F × Nat) :
    batch dd prim size (cs ++ [c]) = (batch dd prim size cs).vertex c.1.X c.1.Y c.1.Z c.2 := by
  simp [batch, List.foldl_append]

theorem vertex_header (dd : DetourDebugDraw F) (x y z : F) (color : Nat) :
    (dd.vertex x y z color).m_type = dd.m_type ∧ (dd.vertex x y z color).m_size = dd.m_size ∧
    (dd.vertex x y z color).m_steep = dd.m_steep := by
  simp only [vertex]
  cases find dd.m_uniqueVertices ⟨x, y, z⟩ <;> simp

theorem batch_header (dd : DetourDebugDraw F) (prim : duDebugDrawPrimitives) (size : F)
    (cs : List (Vertex F × Nat)) :
    (batch dd prim size cs).m_type = prim ∧ (batch dd prim size cs).m_size = size ∧
    (batch dd prim size cs).m_steep = dd.m_steep := by
  induction cs using List.reverseRecOn with
  | nil => simp [batch, begin]
  | append_singleton cs c ih =>
    rw [batch_snoc]
    obtain ⟨h1, h2, h3⟩ := vertex_header (batch dd prim size cs) c.1.X c.1.Y c.1.Z c.2
    rw [h1, h2, h3]
    exact ih

/-- The state of the adapter after `begin` and the calls `cs`: the vertex list
has no repetition, the map sends each stored vertex to its position and
nothing else, every call has appended the position of its vertex, and every
stored vertex has a colour. -/
theorem batch_invariant (dd0 : DetourDebugDraw F) (prim : duDebugDrawPrimitives) (size : F)
    (cs : List (Vertex F × Nat)) :
    (batch dd0 prim size cs).m_vertices.Nodup ∧
    (∀ v idx, find (batch dd0 prim size cs).m_uniqueVertices v = some idx ↔
      ∃ k : Nat, idx = (k : Int) ∧ (batch dd0 prim size cs).m_vertices[k]? = some v) ∧
    (batch dd0 prim size cs).m_indices.length = cs.length ∧
    (∀ (n : Nat) (c : Vertex F × Nat), cs[n]? = some c → ∃ k : Nat,
      (batch dd0 prim size cs).m_indices[n]? = some (k : Int) ∧
      (batch dd0 prim size cs).m_vertices[k]? = some c.1) ∧
    (batch dd0 prim size cs).m_colors.length = (batch dd0 prim size cs).m_vertices.length := by
  induction cs using List.reverseRecOn with
  | nil =>
    simp [batch, begin, find]
  | append_singleton cs c ih =>
    obtain ⟨hnd, hmap, hlen, hidx, hcol⟩ := ih
    rw [batch_snoc]
    generalize batch dd0 prim size cs = dd at *
    have hc : (⟨c.1.X, c.1.Y, c.1.Z⟩ : Vertex F) = c.1 := by cases c.1; rfl
    unfold vertex
    simp only [hc]
    cases hf : find dd.m_uniqueVertices c.1 with
    | some idx =>
      simp only
      obtain ⟨k, hk, hkv⟩ := (hmap c.1 idx).1 hf
      refine ⟨hnd, hmap, by simp [hlen], ?_, hcol⟩
      intro n c2 hn
      by_cases hlt : n < cs.length
      · rw [List.getElem?_append_left hlt] at hn
        obtain ⟨k2, h1, h2⟩ := hidx n c2 hn
        exact ⟨k2, by rw [List.getElem?_append_left (by omega)]; exact h1, h2⟩
      · have hn2 : n = cs.length := by
          have := (List.getElem?_eq_some.1 hn).1
          simp at this; omega
        subst hn2
        simp at hn
        subst hn
        refine ⟨k, ?_, hkv⟩
        rw [List.getElem?_append_right (by omega)]
        simp [hlen, hk]
    | none =>
      simp only
      have hnotin : c.1 ∉ dd.m_vertices := by
        intro hmem
        obtain ⟨k, hk, hkv⟩ := List.getElem_of_mem hmem
        have := (hmap c.1 (k : Int)).2 ⟨k, rfl, by rw [List.getElem?_eq_getElem hk, hkv]⟩
        rw [hf] at this
        exact absurd this (by simp)
      refine ⟨?_, ?_, by simp [hlen], ?_, by simp [hcol]⟩
      · rw [List.nodup_append]
        refine ⟨hnd, by simp, ?_⟩
        intro a ha hb
        simp at hb
        subst hb
        exact hnotin ha
      · intro v idx
        simp only [find]
        by_cases hv : c.1 = v
        · subst hv
          simp only [if_true, Option.some.injEq]
          constructor
          · intro h
            exact ⟨dd.m_vertices.length, h.symm, by simp⟩
          · rintro ⟨k, hk, hkv⟩
            by_cases hlt : k < dd.m_vertices.length
            · rw [List.getElem?_append_left hlt] at hkv
              exact absurd (List.getElem?_mem hkv) hnotin
            · have := (List.getElem?_eq_some.1 hkv).1
              simp at this
              have : k = dd.m_vertices.length := by omega
              rw [hk, this]
        · simp only [hv, if_false]
          rw [hmap v idx]
          constructor
          · rintro ⟨k, hk, hkv⟩
            refine ⟨k, hk, ?_⟩
            rw [List.getElem?_append_left (List.getElem?_eq_some.1 hkv).1]
            exact hkv
          · rintro ⟨k, hk, hkv⟩
            by_cases hlt : k < dd.m_vertices.length
            · rw [List.getElem?_append_left hlt] at hkv
              exact ⟨k, hk, hkv⟩
            · have h1 := (List.getElem?_eq_some.1 hkv).1
              simp at h1
              have h2 : k = dd.m_vertices.length := by omega
              subst h2
              simp at hkv
              exact absurd hkv hv
      · intro n c2 hn
        by_cases hlt : n < cs.length
        · rw [List.getElem?_append_left hlt] at hn
          obtain ⟨k2, h1, h2⟩ := hidx n c2 hn
          refine ⟨k2, by rw [List.getElem?_append_left (by omega)]; exact h1, ?_⟩
          rw [List.getElem?_append_left (List.getElem?_eq_some.1 h2).1]
          exact h2
        · have hn2 : n = cs.length := by
            have := (List.getElem?_eq_some.1 hn).1
            simp at this; omega
          subst hn2
          simp at hn
          subst hn
          refine ⟨dd.m_vertices.length, ?_, by simp⟩
          rw [List.getElem?_append_right (by omega)]
          simp [hlen]

/-- C5: within one batch, if `vertex` is called with the same position `p` at
call positions `i < j` (any colours, any calls in between), the vertex list
contains `p` exactly once and both calls append the same index `k`, the
position of `p` in the vertex list. -/
theorem vertex_dedup (dd0 : DetourDebugDraw F) (prim : duDebugDrawPrimitives) (size : F)
    (calls : List (Vertex F × Nat)) (p : Vertex F) (i j : Nat) (ci cj : Nat)
    (_hij : i < j) (hi : calls[i]? = some (p, ci)) (hj : calls[j]? = some (p, cj)) :
    (batch dd0 prim size calls).m_vertices.count p = 1 ∧
    ∃ k : Nat, (batch dd0 prim size calls).m_indices[i]? = some (k : Int) ∧
      (batch dd0 prim size calls).m_indices[j]? = some (k : Int) ∧
      (batch dd0 prim size calls).m_vertices[k]? = some p := by
  obtain ⟨hnd, _, _, hidx, _⟩ := batch_invariant dd0 prim size calls
  obtain ⟨k1, a1, b1⟩ := hidx i _ hi
  obtain ⟨k2, a2, b2⟩ := hidx j _ hj
  have hk : k1 = k2 := by
    obtain ⟨h1, e1⟩ := List.getElem?_eq_some.1 b1
    obtain ⟨h2, e2⟩ := List.getElem?_eq_some.1 b2
    exact (List.Nodup.getElem_inj_iff hnd).1 (e1.trans e2.symm)
  subst hk
  refine ⟨?_, k1, a1, a2, b1⟩
  exact List.count_eq_one_of_mem hnd (List.getElem?_mem b1)

/-- C5 (witness): three calls, the first and the third at the same position. -/
theorem vertex_dedup_witness :
    (0 : Nat) < 2 ∧
    [((⟨1, 2, 3⟩ : Vertex ℝ), 10), (⟨4, 5, 6⟩, 20), (⟨1, 2, 3⟩, 30)][0]? =
      some (⟨1, 2, 3⟩, 10) ∧
    [((⟨1, 2, 3⟩ : Vertex ℝ), 10), (⟨4, 5, 6⟩, 20), (⟨1, 2, 3⟩, 30)][2]? =
      some (⟨1, 2, 3⟩, 30) ∧
    ((batch (DetourDebugDraw.new : DetourDebugDraw ℝ) DU_DRAW_TRIS 1
        [(⟨1, 2, 3⟩, 10), (⟨4, 5, 6⟩, 20), (⟨1, 2, 3⟩, 30)]).m_vertices.count ⟨1, 2, 3⟩ = 1 ∧
      ∃ k : Nat,
        (batch (DetourDebugDraw.new : DetourDebugDraw ℝ) DU_DRAW_TRIS 1
          [(⟨1, 2, 3⟩, 10), (⟨4, 5, 6⟩, 20), (⟨1, 2, 3⟩, 30)]).m_indices[0]? = some (k : Int) ∧
        (batch (DetourDebugDraw.new : DetourDebugDraw ℝ) DU_DRAW_TRIS 1
          [(⟨1, 2, 3⟩, 10), (⟨4, 5, 6⟩, 20), (⟨1, 2, 3⟩, 30)]).m_indices[2]? = some (k : Int) ∧
        (batch (DetourDebugDraw.new : DetourDebugDraw ℝ) DU_DRAW_TRIS 1
          [(⟨1, 2, 3⟩, 10), (⟨4, 5, 6⟩, 20), (⟨1, 2, 3⟩, 30)]).m_vertices[k]? =
          some ⟨1, 2, 3⟩) :=
  ⟨by decide, by simp, by simp,
   vertex_dedup _ DU_DRAW_TRIS 1 _ ⟨1, 2, 3⟩ 0 2 10 30 (by decide) (by simp) (by simp)⟩

theorem quadsToTris_spec :
    ∀ (k : Nat) (l : List Int), l.length = 4 * k →
      (quadsToTris l).length = 6 * k ∧
      ∀ j, j < k → ∃ q0 q1 q2 q3 : Int,
        l[4 * j]? = some q0 ∧ l[4 * j + 1]? = some q1 ∧ l[4 * j + 2]? = some q2 ∧
        l[4 * j + 3]? = some q3 ∧
        (quadsToTris l)[6 * j]? = some q0 ∧ (quadsToTris l)[6 * j + 1]? = some q1 ∧
        (quadsToTris l)[6 * j + 2]? = some q2 ∧ (quadsToTris l)[6 * j + 3]? = some q0 ∧
        (quadsToTris l)[6 * j + 4]? = some q2 ∧ (quadsToTris l)[6 * j + 5]? = some q3
  | 0, l, h => by
    have : l = [] := List.length_eq_zero.1 (by omega)
    subst this
    exact ⟨by simp [quadsToTris], fun j hj => absurd hj (by omega)⟩
  | k + 1, l, h => by
    match l, h with
    | a :: b :: c :: d :: rest, h =>
      have hrest : rest.length = 4 * k := by simp at h; omega
      obtain ⟨h1, h2⟩ := quadsToTris_spec k rest hrest
      refine ⟨by simp [quadsToTris, h1]; omega, ?_⟩
      intro j hj
      cases j with
      | zero => exact ⟨a, b, c, d, by simp [quadsToTris]⟩
      | succ j =>
        obtain ⟨q0, q1, q2, q3, e⟩ := h2 j (by omega)
        refine ⟨q0, q1, q2, q3, ?_⟩
        obtain ⟨e0, e1, e2, e3, f0, f1, f2, f3, f4, f5⟩ := e
        have c4 : ∀ n, (a :: b :: c :: d :: rest)[n + 4]? = rest[n]? := fun n => by
          simp [show n + 4 = n + 1 + 1 + 1 + 1 from rfl, List.getElem?_cons_succ]
        have c6 : ∀ n, (quadsToTris (a :: b :: c :: d :: rest))[n + 6]? =
            (quadsToTris rest)[n]? := fun n => by
          simp [quadsToTris, show n + 6 = n + 1 + 1 + 1 + 1 + 1 + 1 from rfl,
            List.getElem?_cons_succ]
        refine ⟨?_, ?_, ?_, ?_, ?_, ?_, ?_, ?_, ?_, ?_⟩
        · rw [show 4 * (j + 1) = 4 * j + 4 by omega, c4]; exact e0
        · rw [show 4 * (j + 1) + 1 = 4 * j + 1 + 4 by omega, c4]; exact e1
        · rw [show 4 * (j + 1) + 2 = 4 * j + 2 + 4 by omega, c4]; exact e2
        · rw [show 4 * (j + 1) + 3 = 4 * j + 3 + 4 by omega, c4]; exact e3
        · rw [show 6 * (j + 1) = 6 * j + 6 by omega, c6]; exact f0
        · rw [show 6 * (j + 1) + 1 = 6 * j + 1 + 6 by omega, c6]; exact f1
        · rw [show 6 * (j + 1) + 2 = 6 * j + 2 + 6 by omega, c6]; exact f2
        · rw [show 6 * (j + 1) + 3 = 6 * j + 3 + 6 by omega, c6]; exact f3
        · rw [show 6 * (j + 1) + 4 = 6 * j + 4 + 6 by omega, c6]; exact f4
        · rw [show 6 * (j + 1) + 5 = 6 * j + 5 + 6 by omega, c6]; exact f5
    | [], h => simp at h
    | [_], h => simp at h; omega
    | [_, _], h => simp at h; omega
    | [_, _, _], h => simp at h; omega

theorem batch_vertices_ne_nil (dd0 : DetourDebugDraw F) (prim : duDebugDrawPrimitives)
    (size : F) (calls : List (Vertex F × Nat)) (h : 0 < calls.length) :
    (batch dd0 prim size calls).m_vertices.isEmpty = false := by
  obtain ⟨_, _, _, hidx, _⟩ := batch_invariant dd0 prim size calls
  obtain ⟨k, _, hk⟩ := hidx 0 calls[0] (List.getElem?_eq_getElem h)
  cases hv : (batch dd0 prim size calls).m_vertices with
  | nil => rw [hv] at hk; simp at hk
  | cons a l => rfl

theorem batch_vertices_length_le (dd0 : DetourDebugDraw F) (prim : duDebugDrawPrimitives)
    (size : F) (calls : List (Vertex F × Nat)) :
    (batch dd0 prim size calls).m_vertices.length ≤ calls.length := by
  induction calls using List.reverseRecOn with
  | nil => simp [batch, begin]
  | append_singleton cs c ih =>
    rw [batch_snoc]
    generalize batch dd0 prim size cs = dd at *
    simp only [vertex]
    cases find dd.m_uniqueVertices ⟨c.1.X, c.1.Y, c.1.Z⟩ with
    | some idx => simp; omega
    | none => simp; omega

theorem batch_indices_range (dd0 : DetourDebugDraw F) (prim : duDebugDrawPrimitives)
    (size : F) (calls : List (Vertex F × Nat)) :
    IndicesBelow (batch dd0 prim size calls).m_indices
      (batch dd0 prim size calls).m_vertices.length := by
  obtain ⟨_, _, hlen, hidx, _⟩ := batch_invariant dd0 prim size calls
  intro q hq
  obtain ⟨n, hn⟩ := List.getElem?_of_mem hq
  have hn2 : n < calls.length := by
    have := (List.getElem?_eq_some.1 hn).1
    omega
  obtain ⟨k, h1, h2⟩ := hidx n calls[n] (List.getElem?_eq_getElem hn2)
  rw [hn] at h1
  have := Option.some.inj h1
  have := (List.getElem?_eq_some.1 h2).1
  omega

end

section
variable {F : Type} [LinearOrderedField F] [MathFns F]

theorem toUnsigned_of_lt (q : Int) (h0 : 0 ≤ q) (h1 : q < 4294967296) :
    ((toUnsigned q : Nat) : Int) = q := by
  unfold toUnsigned
  omega

/-- C6: for a quads batch with `4k` vertex calls, `k ≥ 1`, `end` appends exactly
one buffer to the navigation-mesh category and changes nothing else; its
index list has length `6k` and its `j`-th group of six is the conversion to
`unsigned int` of `(q0, q1, q2, q0, q2, q3)`, where `(q0, q1, q2, q3)` is the
`j`-th group of four accumulated indices; the conversion preserves the value
of every accumulated index. -/
theorem quads_split (IgnoreLineSize : F) (dd0 : DetourDebugDraw F) (size : F)
    (calls : List (Vertex F × Nat)) (r : Renderer F) (k : Nat)
    (hlen : calls.length = 4 * k) (hk : 1 ≤ k) :
    ∃ b : GeometryBuffer F,
      end_ IgnoreLineSize (batch dd0 DU_DRAW_QUADS size calls) r =
        some (r.setBuffers NavMeshGeometry (r.m_buffers NavMeshGeometry ++ [b])) ∧
      b.indices.length = 6 * k ∧
      (∀ j, j < k → ∃ q0 q1 q2 q3 : Int,
        (batch dd0 DU_DRAW_QUADS size calls).m_indices[4 * j]? = some q0 ∧
        (batch dd0 DU_DRAW_QUADS size calls).m_indices[4 * j + 1]? = some q1 ∧
        (batch dd0 DU_DRAW_QUADS size calls).m_indices[4 * j + 2]? = some q2 ∧
        (batch dd0 DU_DRAW_QUADS size calls).m_indices[4 * j + 3]? = some q3 ∧
        b.indices[6 * j]? = some (toUnsigned q0) ∧
        b.indices[6 * j + 1]? = some (toUnsigned q1) ∧
        b.indices[6 * j + 2]? = some (toUnsigned q2) ∧
        b.indices[6 * j + 3]? = some (toUnsigned q0) ∧
        b.indices[6 * j + 4]? = some (toUnsigned q2) ∧
        b.indices[6 * j + 5]? = some (toUnsigned q3)) ∧
      (4 * k ≤ 4294967296 →
        ∀ q ∈ (batch dd0 DU_DRAW_QUADS size calls).m_indices,
          ((toUnsigned q : Nat) : Int) = q) := by
  obtain ⟨ht, hs, hst⟩ := batch_header dd0 DU_DRAW_QUADS size calls
  obtain ⟨_, _, hil, _, _⟩ := batch_invariant dd0 DU_DRAW_QUADS size calls
  have hne := batch_vertices_ne_nil dd0 DU_DRAW_QUADS size calls (by omega)
  have hrange := batch_indices_range dd0 DU_DRAW_QUADS size calls
  have hvl := batch_vertices_length_le dd0 DU_DRAW_QUADS size calls
  generalize batch dd0 DU_DRAW_QUADS size calls = dd at *
  obtain ⟨q1, q2⟩ := quadsToTris_spec k dd.m_indices (by omega)
  refine ⟨makeBuffer (if dd.m_steep then MeshSteepColor else MeshColor) dd.m_vertices
    (quadsToTris dd.m_indices) 0 true, ?_, ?_, ?_, ?_⟩
  · have h4 : dd.m_indices.length % 4 = 0 := by omega
    simp [end_, ht, hne, h4, Renderer.AddMesh, InsertBuffer]
  · rw [makeBuffer_indices]; simpa using q1
  · intro j hj
    obtain ⟨a0, a1, a2, a3, e0, e1, e2, e3, f0, f1, f2, f3, f4, f5⟩ := q2 j hj
    refine ⟨a0, a1, a2, a3, e0, e1, e2, e3, ?_⟩
    rw [makeBuffer_indices]
    simp [List.getElem?_map, f0, f1, f2, f3, f4, f5]
  · intro hk2 q hq
    have := hrange q hq
    exact toUnsigned_of_lt q this.1 (by omega)

/-- C6 (witness): eight vertex calls describing two quads give one buffer with
twelve indices. -/
theorem quads_split_witness :
    ([((⟨0, 0, 0⟩ : Vertex ℝ), 1), (⟨1, 0, 0⟩, 1), (⟨1, 1, 0⟩, 1), (⟨0, 1, 0⟩, 1),
      (⟨1, 0, 0⟩, 1), (⟨2, 0, 0⟩, 1), (⟨2, 1, 0⟩, 1), (⟨1, 1, 0⟩, 1)].length = 4 * 2 ∧
      1 ≤ 2) ∧
    ∃ b : GeometryBuffer ℝ,
      end_ (3 / 2) (batch (DetourDebugDraw.new : DetourDebugDraw ℝ) DU_DRAW_QUADS 1
          [(⟨0, 0, 0⟩, 1), (⟨1, 0, 0⟩, 1), (⟨1, 1, 0⟩, 1), (⟨0, 1, 0⟩, 1),
           (⟨1, 0, 0⟩, 1), (⟨2, 0, 0⟩, 1), (⟨2, 1, 0⟩, 1), (⟨1, 1, 0⟩, 1)]) Renderer.new =
        some ((Renderer.new : Renderer ℝ).setBuffers NavMeshGeometry
          ((Renderer.new : Renderer ℝ).m_buffers NavMeshGeometry ++ [b])) ∧
      b.indices.length = 12 := by
  refine ⟨⟨by simp, by decide⟩, ?_⟩
  obtain ⟨b, h1, h2, _⟩ := quads_split (3 / 2 : ℝ) (DetourDebugDraw.new : DetourDebugDraw ℝ) 1
    [(⟨0, 0, 0⟩, 1), (⟨1, 0, 0⟩, 1), (⟨1, 1, 0⟩, 1), (⟨0, 1, 0⟩, 1),
     (⟨1, 0, 0⟩, 1), (⟨2, 0, 0⟩, 1), (⟨2, 1, 0⟩, 1), (⟨1, 1, 0⟩, 1)] Renderer.new 2
    (by simp) (by decide)
  exact ⟨b, h1, h2⟩

/-- C7: for a lines batch whose size is within `0.001` of `IgnoreLineSize`,
`end` leaves the pool unchanged, whatever vertex calls the batch holds. -/
theorem lines_sentinel_discarded (IgnoreLineSize : F) (dd0 : DetourDebugDraw F) (size : F)
    (calls : List (Vertex F × Nat)) (r : Renderer F)
    (hsize : |size - IgnoreLineSize| < 1 / 1000) :
    end_ IgnoreLineSize (batch dd0 DU_DRAW_LINES size calls) r = some r := by
  obtain ⟨ht, hs, _⟩ := batch_header dd0 DU_DRAW_LINES size calls
  unfold end_
  rw [if_pos ⟨ht, by rw [hs]; exact hsize⟩]

/-- C7 (witness): size equal to the sentinel, two vertex calls. -/
theorem lines_sentinel_discarded_witness :
    |(3 / 2 : ℝ) - 3 / 2| < 1 / 1000 ∧
    end_ (3 / 2 : ℝ) (batch (DetourDebugDraw.new : DetourDebugDraw ℝ) DU_DRAW_LINES (3 / 2)
      [(⟨0, 0, 0⟩, 1), (⟨1, 0, 0⟩, 1)]) Renderer.new = some Renderer.new :=
  ⟨by norm_num, lines_sentinel_discarded _ _ _ _ _ (by norm_num)⟩

end
end DetourDebugDraw

namespace Camera

theorem normalize_unit (v : Vec3 ℝ) (h : glm.dot v v = 1) : glm.normalize v = v := by
  simp [glm.normalize, glm.inversesqrt, h, MathFns.sqrt, glm.scale]

theorem rotate_dot (v w n : Vec3 ℝ) (a : ℝ) (hn : glm.dot n n = 1) :
    glm.dot (glm.rotate v a n) (glm.rotate w a n) = glm.dot v w := by
  have hcs : Real.cos a ^ 2 + Real.sin a ^ 2 = 1 := Real.cos_sq_add_sin_sq a
  unfold glm.rotate
  rw [normalize_unit n hn]
  simp only [glm.dot, glm.add, glm.scale, MathFns.cos, MathFns.sin] at hn ⊢
  linear_combination
    ((v.x * w.x + v.y * w.y + v.z * w.z) -
      (n.x * v.x + n.y * v.y + n.z * v.z) * (n.x * w.x + n.y * w.y + n.z * w.z)) * hcs +
    (Real.sin a ^ 2 * (v.x * w.x + v.y * w.y + v.z * w.z) +
      (1 - Real.cos a) ^ 2 * (n.x * v.x + n.y * v.y + n.z * v.z) *
        (n.x * w.x + n.y * w.y + n.z * w.z)) * hn

theorem rotate_axis (n : Vec3 ℝ) (a : ℝ) (hn : glm.dot n n = 1) :
    glm.rotate n a n = n := by
  unfold glm.rotate
  rw [normalize_unit n hn]
  simp only [glm.dot, glm.add, glm.scale, MathFns.cos, MathFns.sin] at hn ⊢
  cases n with
  | mk x y z =>
    simp only [Vec3.mk.injEq] at hn ⊢
    refine ⟨?_, ?_, ?_⟩
    · linear_combination (x * (1 - Real.cos a)) * hn
    · linear_combination (y * (1 - Real.cos a)) * hn
    · linear_combination (z * (1 - Real.cos a)) * hn

theorem Yaw_orthonormal (c : Camera ℝ) (delta : ℝ) (h : c.Orthonormal) :
    (c.Yaw delta).Orthonormal := by
  obtain ⟨h1, h2, h3, h4, h5, h6⟩ := h
  have hz : glm.dot (⟨0, 0, 1⟩ : Vec3 ℝ) ⟨0, 0, 1⟩ = 1 := by simp [glm.dot]
  simp only [Orthonormal, Yaw, UpdateViewMatrix, rotate_dot _ _ _ _ hz]
  exact ⟨h1, h2, h3, h4, h5, h6⟩

theorem Pitch_orthonormal (c : Camera ℝ) (delta : ℝ) (h : c.Orthonormal) :
    (c.Pitch delta).Orthonormal := by
  obtain ⟨h1, h2, h3, h4, h5, h6⟩ := h
  have e5 : glm.dot (glm.rotate c.m_forward delta c.m_right) c.m_right = 0 := by
    have := rotate_dot c.m_forward c.m_right c.m_right delta h3
    rw [rotate_axis _ _ h3] at this
    rw [this]; exact h5
  have e6 : glm.dot (glm.rotate c.m_up delta c.m_right) c.m_right = 0 := by
    have := rotate_dot c.m_up c.m_right c.m_right delta h3
    rw [rotate_axis _ _ h3] at this
    rw [this]; exact h6
  simp only [Orthonormal, Pitch, UpdateViewMatrix, rotate_dot _ _ _ _ h3]
  exact ⟨h1, h2, h3, h4, e5, e6⟩

theorem new_orthonormal : (Camera.new : Camera ℝ).Orthonormal := by
  simp [Orthonormal, Camera.new, UpdateViewMatrix, UpdateProjection, glm.dot]

theorem applyRots_orthonormal (ops : List (RotOp ℝ)) :
    ∀ c : Camera ℝ, c.Orthonormal → (c.applyRots ops).Orthonormal := by
  induction ops with
  | nil => intro c h; exact h
  | cons op rest ih =>
    intro c h
    simp only [applyRots, List.foldl_cons]
    apply ih
    cases op with
    | yaw delta => exact Yaw_orthonormal c delta h
    | pitch delta => exact Pitch_orthonormal c delta h

/-- Exact arithmetic: for a freshly constructed camera and every finite sequence of
`Yaw` and `Pitch` calls with arbitrary angles, over the reals the forward, up and
right vectors afterwards each have length 1 and all three pairwise dot
products are 0. -/
theorem yaw_pitch_orthonormal (ops : List (RotOp ℝ)) :
    glm.length ((Camera.new : Camera ℝ).applyRots ops).m_forward = 1 ∧
    glm.length ((Camera.new : Camera ℝ).applyRots ops).m_up = 1 ∧
    glm.length ((Camera.new : Camera ℝ).applyRots ops).m_right = 1 ∧
    glm.dot ((Camera.new : Camera ℝ).applyRots ops).m_forward
      ((Camera.new : Camera ℝ).applyRots ops).m_up = 0 ∧
    glm.dot ((Camera.new : Camera ℝ).applyRots ops).m_forward
      ((Camera.new : Camera ℝ).applyRots ops).m_right = 0 ∧
    glm.dot ((Camera.new : Camera ℝ).applyRots ops).m_up
      ((Camera.new : Camera ℝ).applyRots ops).m_right = 0 := by
  obtain ⟨h1, h2, h3, h4, h5, h6⟩ := applyRots_orthonormal ops _ new_orthonormal
  refine ⟨?_, ?_, ?_, h4, h5, h6⟩
  · simp [glm.length, h1, MathFns.sqrt]
  · simp [glm.length, h2, MathFns.sqrt]
  · simp [glm.length, h3, MathFns.sqrt]

end Camera

namespace Camera

theorem tanHalfFov_pos : 0 < Real.tan (Real.pi / 8) :=
  Real.tan_pos_of_pos_of_lt_pi_div_two (by positivity) (by linarith [Real.pi_pos])

theorem tanHalfFov_gt : 3 / 8 < Real.tan (Real.pi / 8) := by
  have h1 : Real.pi / 8 < Real.tan (Real.pi / 8) :=
    Real.lt_tan (by positivity) (by linarith [Real.pi_pos])
  linarith [Real.pi_gt_three]

theorem lookAt_default :
    glm.lookAt (⟨0, 0, 0⟩ : Vec3 ℝ) (glm.add ⟨0, 0, 0⟩ ⟨0, 0, -1⟩) ⟨0, 1, 0⟩ = glm.mat4One := by
  simp [glm.lookAt, glm.add, glm.sub, glm.normalize, glm.inversesqrt, glm.dot, glm.cross,
    glm.scale, glm.mat4One, MathFns.sqrt]

theorem inverse_mat4One : glm.inverse (glm.mat4One : Mat4 ℝ) = glm.mat4One := by
  simp [glm.inverse, glm.mat4One, glm.add4, glm.sub4, glm.mul4, glm.scale4]

theorem inverse_perspective (a b c e : ℝ) (ha : a ≠ 0) (hb : b ≠ 0) (he : e ≠ 0) :
    glm.inverse (⟨⟨a, 0, 0, 0⟩, ⟨0, b, 0, 0⟩, ⟨0, 0, c, -1⟩, ⟨0, 0, e, 0⟩⟩ : Mat4 ℝ) =
      ⟨⟨1 / a, 0, 0, 0⟩, ⟨0, 1 / b, 0, 0⟩, ⟨0, 0, 0, 1 / e⟩, ⟨0, 0, -1, c / e⟩⟩ := by
  simp only [glm.inverse, glm.add4, glm.sub4, glm.mul4, glm.scale4]
  simp only [Mat4.mk.injEq, Vec4.mk.injEq]
  refine ⟨⟨?_, ?_, ?_, ?_⟩, ⟨?_, ?_, ?_, ?_⟩, ⟨?_, ?_, ?_, ?_⟩, ⟨?_, ?_, ?_, ?_⟩⟩ <;>
    field_simp <;> ring

theorem halfFov : glm.radians (45 : ℝ) / 2 = Real.pi / 8 := by
  simp only [glm.radians, MathFns.pi]
  ring

theorem ProjectPoint_default (w h : ℝ) (p : Vec3 ℝ) (hz : p.z ≠ 0) :
    ((Camera.new : Camera ℝ).UpdateProjection w h).ProjectPoint p =
      ⟨(1 / (w / h * Real.tan (Real.pi / 8)) * p.x / (-p.z) + 1) * (1 / 2) * w,
       (1 - 1 / Real.tan (Real.pi / 8) * p.y / (-p.z)) * (1 / 2) * h,
       ((-(100000 + 1 / 10) / (100000 - 1 / 10) * p.z +
          -(2 * 100000 * (1 / 10)) / (100000 - 1 / 10)) / (-p.z) + 1) * (1 / 2)⟩ := by
  have hw : (glm.mulVec (glm.mulMat
      ((Camera.new : Camera ℝ).UpdateProjection w h).m_projMatrix
      ((Camera.new : Camera ℝ).UpdateProjection w h).m_viewMatrix) (glm.vec4 p 1)).w = -p.z := by
    simp [Camera.new, UpdateProjection, UpdateViewMatrix, lookAt_default, glm.perspective,
      glm.mulVec, glm.mulMat, glm.vec4, glm.add4, glm.scale4, glm.mat4One]
  unfold ProjectPoint
  simp only [hw]
  rw [if_neg (by simpa using hz)]
  simp [Camera.new, UpdateProjection, UpdateViewMatrix, lookAt_default, glm.perspective,
    glm.mulVec, glm.mulMat, glm.vec4, glm.vec3, glm.divs, glm.add4, glm.scale4, glm.mat4One,
    halfFov, MathFns.tan]

theorem UnprojectPoint_default (w h : ℝ) (hw : w ≠ 0) (hh : h ≠ 0) (sx sy : Int) (depth : ℝ) :
    ((Camera.new : Camera ℝ).UpdateProjection w h).UnprojectPoint sx sy depth =
      glm.divs
        ⟨((sx : ℝ) / w * 2 - 1) * (w / h * Real.tan (Real.pi / 8)),
         (1 - (sy : ℝ) / h * 2) * Real.tan (Real.pi / 8), -1⟩
        (((depth * 2 - 1) + -(100000 + 1 / 10) / (100000 - 1 / 10)) /
          (-(2 * 100000 * (1 / 10)) / (100000 - 1 / 10))) := by
  have hT := tanHalfFov_pos
  have hP : ((Camera.new : Camera ℝ).UpdateProjection w h).m_projMatrix =
      ⟨⟨1 / (w / h * Real.tan (Real.pi / 8)), 0, 0, 0⟩, ⟨0, 1 / Real.tan (Real.pi / 8), 0, 0⟩,
       ⟨0, 0, -(100000 + 1 / 10) / (100000 - 1 / 10), -1⟩,
       ⟨0, 0, -(2 * 100000 * (1 / 10)) / (100000 - 1 / 10), 0⟩⟩ := by
    simp [Camera.new, UpdateProjection, UpdateViewMatrix, glm.perspective, halfFov, MathFns.tan]
  have hV : ((Camera.new : Camera ℝ).UpdateProjection w h).m_viewMatrix = glm.mat4One := by
    simp [Camera.new, UpdateProjection, UpdateViewMatrix, lookAt_default]
  have hvp : ((Camera.new : Camera ℝ).UpdateProjection w h).m_viewportX = 0 ∧
      ((Camera.new : Camera ℝ).UpdateProjection w h).m_viewportY = 0 ∧
      ((Camera.new : Camera ℝ).UpdateProjection w h).m_viewportWidth = w ∧
      ((Camera.new : Camera ℝ).UpdateProjection w h).m_viewportHeight = h := by
    simp [Camera.new, UpdateProjection, UpdateViewMatrix]
  unfold UnprojectPoint
  have ha : 1 / (w / h * Real.tan (Real.pi / 8)) ≠ 0 :=
    one_div_ne_zero (mul_ne_zero (div_ne_zero hw hh) hT.ne')
  have hb : 1 / Real.tan (Real.pi / 8) ≠ 0 := one_div_ne_zero hT.ne'
  have he : -(2 * 100000 * (1 / 10)) / (100000 - 1 / 10) ≠ (0 : ℝ) := by norm_num
  rw [hP, hV, inverse_mat4One, inverse_perspective _ _ _ _ ha hb he,
    hvp.1, hvp.2.1, hvp.2.2.1, hvp.2.2.2]
  generalize Real.tan (Real.pi / 8) = T at *
  simp only [glm.mulVec, glm.vec4, glm.vec3, glm.divs, glm.add4, glm.scale4, glm.mat4One]
  simp only [zero_mul, mul_zero, add_zero, zero_add, one_mul, mul_one, sub_zero, one_div,
    inv_inv, Vec3.mk.injEq]
  refine ⟨?_, ?_, ?_⟩ <;> ring

theorem floatToInt_intCast (n : Int) : floatToInt ((n : ℝ)) = n := by
  unfold floatToInt
  split <;> simp

theorem new_UpdateProjection :
    (Camera.new : Camera ℝ).UpdateProjection 800 600 = Camera.new := by
  simp [Camera.new, UpdateProjection, UpdateViewMatrix]

/-- Exact arithmetic: for the freshly constructed camera (position at the origin,
default basis) with any viewport `w × h`, and every world point with positive
view-space depth whose projected `x` and `y` are whole numbers, `UnprojectPoint`
applied to the `x` and `y` of `ProjectPoint(worldPoint)` and to its depth
recovers `worldPoint` exactly in real arithmetic. -/
theorem roundTrip_whole_pixels (w h : ℝ) (hw : 0 < w) (hh : 0 < h) (p : Vec3 ℝ)
    (hz : p.z < 0) (sx sy : Int)
    (hx : (((Camera.new : Camera ℝ).UpdateProjection w h).ProjectPoint p).x = sx)
    (hy : (((Camera.new : Camera ℝ).UpdateProjection w h).ProjectPoint p).y = sy) :
    ((Camera.new : Camera ℝ).UpdateProjection w h).roundTrip p = p := by
  have hT := tanHalfFov_pos
  unfold roundTrip
  simp only [hx, hy, floatToInt_intCast]
  rw [UnprojectPoint_default w h hw.ne' hh.ne', ← hx, ← hy,
    ProjectPoint_default w h p hz.ne]
  generalize Real.tan (Real.pi / 8) = T at *
  cases p with
  | mk x y z =>
    simp only [glm.divs, Vec3.mk.injEq] at hz ⊢
    have hz2 : z ≠ 0 := hz.ne
    have hw2 : w ≠ 0 := hw.ne'
    have hh2 : h ≠ 0 := hh.ne'
    have hT2 : T ≠ 0 := hT.ne'
    generalize hc : (-(100000 + 1 / 10) / (100000 - 1 / 10) : ℝ) = c
    generalize he : (-(2 * 100000 * (1 / 10)) / (100000 - 1 / 10) : ℝ) = e
    have he0 : e ≠ 0 := by rw [← he]; norm_num
    have hnz : -z ≠ 0 := neg_ne_zero.2 hz2
    have hD : (((c * z + e) / -z + 1) * (1 / 2) * 2 - 1 + c) / e = 1 / -z := by
      field_simp
      ring
    rw [hD]
    refine ⟨?_, ?_, ?_⟩
    · field_simp
      ring
    · field_simp
      ring
    · field_simp

theorem floatToInt_half : floatToInt (801 / 2 : ℝ) = 400 := by
  unfold floatToInt
  rw [if_pos (by norm_num)]
  rw [Int.floor_eq_iff]
  constructor <;> norm_num

theorem floatToInt_300 : floatToInt (300 : ℝ) = 300 := by
  have := floatToInt_intCast 300
  simpa using this

/-- Exact arithmetic, truncation of the pixel coordinates: for the freshly
constructed camera (800 x 600 viewport) the world point `(10000 * tan(pi/8) / 600, 0, -10000)` has positive view-space
depth and projects to pixel `(400.5, 300)`; passing these to the `int`
parameters of `UnprojectPoint` truncates `400.5` to `400`, and the round trip
returns `(0, 0, -10000)`, more than 6 world units away from the point. -/
theorem roundTrip_truncates :
    (⟨10000 * Real.tan (Real.pi / 8) / 600, 0, -10000⟩ : Vec3 ℝ).z < 0 ∧
    ((Camera.new : Camera ℝ).ProjectPoint
      ⟨10000 * Real.tan (Real.pi / 8) / 600, 0, -10000⟩).x = 801 / 2 ∧
    (Camera.new : Camera ℝ).roundTrip ⟨10000 * Real.tan (Real.pi / 8) / 600, 0, -10000⟩ =
      ⟨0, 0, -10000⟩ ∧
    6 < 10000 * Real.tan (Real.pi / 8) / 600 - 0 := by
  have hT := tanHalfFov_pos
  have hT2 : Real.tan (Real.pi / 8) ≠ 0 := hT.ne'
  have hP : (Camera.new : Camera ℝ).ProjectPoint
      ⟨10000 * Real.tan (Real.pi / 8) / 600, 0, -10000⟩ =
      ⟨801 / 2, 300, ((-(100000 + 1 / 10) / (100000 - 1 / 10) * (-10000) +
          -(2 * 100000 * (1 / 10)) / (100000 - 1 / 10)) / (-(-10000)) + 1) * (1 / 2)⟩ := by
    rw [← new_UpdateProjection, ProjectPoint_default 800 600 _ (by norm_num)]
    simp only [Vec3.mk.injEq]
    refine ⟨?_, ?_, ?_⟩
    · field_simp
      ring
    · norm_num
    · trivial
  refine ⟨by norm_num, by rw [hP], ?_, ?_⟩
  · unfold roundTrip
    simp only [hP, floatToInt_half, floatToInt_300]
    rw [← new_UpdateProjection, UnprojectPoint_default 800 600 (by norm_num) (by norm_num)]
    simp only [glm.divs, Vec3.mk.injEq]
    refine ⟨?_, ?_, ?_⟩ <;> norm_num
  · have := tanHalfFov_gt
    linarith

/-- Example: the point one unit in front of the camera projects to the
pixel `(400, 300)` of the 800 x 600 viewport. -/
theorem roundTrip_whole_pixels_witness :
    ((0 : ℝ) < 800 ∧ (0 : ℝ) < 600 ∧ (⟨0, 0, -1⟩ : Vec3 ℝ).z < 0 ∧
      (((Camera.new : Camera ℝ).UpdateProjection 800 600).ProjectPoint ⟨0, 0, -1⟩).x =
        ((400 : Int) : ℝ) ∧
      (((Camera.new : Camera ℝ).UpdateProjection 800 600).ProjectPoint ⟨0, 0, -1⟩).y =
        ((300 : Int) : ℝ)) ∧
    ((Camera.new : Camera ℝ).UpdateProjection 800 600).roundTrip ⟨0, 0, -1⟩ = ⟨0, 0, -1⟩ := by
  have hx : (((Camera.new : Camera ℝ).UpdateProjection 800 600).ProjectPoint ⟨0, 0, -1⟩).x =
      ((400 : Int) : ℝ) := by
    rw [ProjectPoint_default 800 600 _ (by norm_num)]
    norm_num
  have hy : (((Camera.new : Camera ℝ).UpdateProjection 800 600).ProjectPoint ⟨0, 0, -1⟩).y =
      ((300 : Int) : ℝ) := by
    rw [ProjectPoint_default 800 600 _ (by norm_num)]
    norm_num
  exact ⟨⟨by norm_num, by norm_num, by norm_num, hx, hy⟩,
    roundTrip_whole_pixels 800 600 (by norm_num) (by norm_num) ⟨0, 0, -1⟩ (by norm_num)
      400 300 hx hy⟩

/-- The pick ray of the freshly constructed camera through the centre of its
800 x 600 viewport: from the origin along `-z`. -/
theorem GetPickRay_center :
    (Camera.new : Camera ℝ).GetPickRay 400 300 = (⟨0, 0, 0⟩, ⟨0, 0, -1⟩) := by
  have hpos : (Camera.new : Camera ℝ).m_position = ⟨0, 0, 0⟩ := by
    simp [Camera.new, UpdateProjection, UpdateViewMatrix]
  have hnear : (Camera.new : Camera ℝ).UnprojectPoint 400 300 0 = ⟨0, 0, -(1 / 10)⟩ := by
    rw [← new_UpdateProjection, UnprojectPoint_default 800 600 (by norm_num) (by norm_num)]
    simp only [glm.divs, Vec3.mk.injEq]
    refine ⟨?_, ?_, ?_⟩ <;> norm_num
  have hsqrt : Real.sqrt (1 / 10 * (1 / 10)) = 1 / 10 :=
    Real.sqrt_mul_self (by norm_num)
  unfold GetPickRay
  simp only [hpos, hnear, glm.normalize, glm.inversesqrt, glm.sub, glm.dot, glm.scale,
    MathFns.sqrt, Prod.mk.injEq, Vec3.mk.injEq, true_and]
  have e : (0 - 0) * (0 - 0) + (0 - 0) * (0 - 0) + (-(1 / 10) - 0) * (-(1 / 10) - 0) =
      (1 / 10 * (1 / 10) : ℝ) := by norm_num
  rw [e, hsqrt]
  norm_num

end Camera

namespace Camera

end Camera

namespace Camera

section
variable {F : Type} [LinearOrderedField F] [MathFns F]

/-- C11: while panning with stored anchor `(ax, ay)`, `UpdateMousePan(x, y)`
applies `Yaw(-(x - ax) * 0.005)`, then `Pitch(-(y - ay) * 0.005)`, and stores
`(x, y)` as the new anchor; hence `BeginMousePan(10, 10)`,
`UpdateMousePan(20, 10)`, `UpdateMousePan(20, 20)` applies the rotations for
the deltas `(10, 0)` and then `(0, 10)`. -/
theorem updatePan_incremental (c : Camera F) (x y : Int) (h : c.m_mousePanning = true) :
    c.UpdateMousePan x y =
      { (c.Yaw (-((x - c.m_mousePanX : Int) : F) * (5 / 1000))).Pitch
          (-((y - c.m_mousePanY : Int) : F) * (5 / 1000)) with
        m_mousePanX := x, m_mousePanY := y } ∧
    ((c.BeginMousePan 10 10).UpdateMousePan 20 10).UpdateMousePan 20 20 =
      { ((((c.BeginMousePan 10 10).Yaw (-((10 : Int) : F) * (5 / 1000))).Pitch
            (-((0 : Int) : F) * (5 / 1000))).Yaw (-((0 : Int) : F) * (5 / 1000))).Pitch
            (-((10 : Int) : F) * (5 / 1000)) with
        m_mousePanX := 20, m_mousePanY := 20 } := by
  constructor
  · simp [UpdateMousePan, h]
  · simp [UpdateMousePan, BeginMousePan, Yaw, Pitch, UpdateViewMatrix]

end

/-- C11 (witness): the camera right after `BeginMousePan(10, 10)`. -/
theorem updatePan_incremental_witness :
    ((Camera.new : Camera ℝ).BeginMousePan 10 10).m_mousePanning = true ∧
    ((Camera.new : Camera ℝ).BeginMousePan 10 10).UpdateMousePan 20 10 =
      { (((Camera.new : Camera ℝ).BeginMousePan 10 10).Yaw
            (-((20 - ((Camera.new : Camera ℝ).BeginMousePan 10 10).m_mousePanX : Int) : ℝ) *
              (5 / 1000))).Pitch
          (-((10 - ((Camera.new : Camera ℝ).BeginMousePan 10 10).m_mousePanY : Int) : ℝ) *
              (5 / 1000)) with
        m_mousePanX := 20, m_mousePanY := 10 } :=
  ⟨rfl, (updatePan_incremental ((Camera.new : Camera ℝ).BeginMousePan 10 10) 20 10 rfl).1⟩

end Camera

section
variable {F : Type} [LinearOrderedField F]

theorem recordHit_same (o d : Vec3 F) (b : GeometryBuffer F) (t : F) (st st2 : HitState F)
    (h : st.closestDist = st2.closestDist ∧ st.found = st2.found ∧
      (st.found = true → st.out = st2.out ∧ st.param = st2.param)) :
    (recordHit o d b t st).closestDist = (recordHit o d b t st2).closestDist ∧
    (recordHit o d b t st).found = (recordHit o d b t st2).found ∧
    ((recordHit o d b t st).found = true →
      (recordHit o d b t st).out = (recordHit o d b t st2).out ∧
      (recordHit o d b t st).param = (recordHit o d b t st2).param) := by
  obtain ⟨h1, h2, h3⟩ := h
  unfold recordHit
  rw [← h1]
  split
  · simp
  · exact ⟨h1, h2, h3⟩

theorem hitTriangles_same (o d : Vec3 F) (b : GeometryBuffer F) :
    ∀ (is : List Nat) (st st2 : HitState F),
      (st.closestDist = st2.closestDist ∧ st.found = st2.found ∧
        (st.found = true → st.out = st2.out ∧ st.param = st2.param)) →
      ∀ s, hitTriangles o d b is st = some s →
        ∃ s2, hitTriangles o d b is st2 = some s2 ∧
          s.closestDist = s2.closestDist ∧ s.found = s2.found ∧
          (s.found = true → s.out = s2.out ∧ s.param = s2.param)
  | [], st, st2, h, s, hs => by
    simp only [hitTriangles, Option.some.injEq] at hs ⊢
    subst hs
    exact ⟨st2, rfl, h⟩
  | [_], st, st2, h, s, hs => by
    simp only [hitTriangles, Option.some.injEq] at hs ⊢
    subst hs
    exact ⟨st2, rfl, h⟩
  | [_, _], st, st2, h, s, hs => by
    simp only [hitTriangles, Option.some.injEq] at hs ⊢
    subst hs
    exact ⟨st2, rfl, h⟩
  | i0 :: i1 :: i2 :: rest, st, st2, h, s, hs => by
    cases e0 : b.vertices[i0]? with
    | none => simp [hitTriangles, e0] at hs
    | some c0 =>
    cases e1 : b.vertices[i1]? with
    | none => simp [hitTriangles, e0, e1] at hs
    | some c1 =>
    cases e2 : b.vertices[i2]? with
    | none => simp [hitTriangles, e0, e1, e2] at hs
    | some c2 =>
    simp only [hitTriangles, e0, e1, e2, Option.bind_eq_bind, Option.some_bind] at hs ⊢
    cases hrt : rayTriangle o d c0.position c1.position c2.position with
    | none =>
      rw [hrt] at hs
      exact hitTriangles_same o d b rest st st2 h s hs
    | some t =>
      rw [hrt] at hs
      exact hitTriangles_same o d b rest _ _ (recordHit_same o d b t st st2 h) s hs

theorem hitBuffers_same (o d : Vec3 F) :
    ∀ (bs : List (GeometryBuffer F)) (st st2 : HitState F),
      (st.closestDist = st2.closestDist ∧ st.found = st2.found ∧
        (st.found = true → st.out = st2.out ∧ st.param = st2.param)) →
      ∀ s, hitBuffers o d bs st = some s →
        ∃ s2, hitBuffers o d bs st2 = some s2 ∧
          s.closestDist = s2.closestDist ∧ s.found = s2.found ∧
          (s.found = true → s.out = s2.out ∧ s.param = s2.param)
  | [], st, st2, h, s, hs => by
    simp only [hitBuffers, Option.some.injEq] at hs ⊢
    subst hs
    exact ⟨st2, rfl, h⟩
  | b :: rest, st, st2, h, s, hs => by
    cases e1 : hitTriangles o d b b.indices st with
    | none => simp [hitBuffers, e1] at hs
    | some s1 =>
    simp only [hitBuffers, e1, Option.bind_eq_bind, Option.some_bind] at hs
    obtain ⟨s1b, e1b, h1⟩ := hitTriangles_same o d b b.indices st st2 h s1 e1
    obtain ⟨s2, e2, h2⟩ := hitBuffers_same o d rest s1 s1b h1 s hs
    exact ⟨s2, by simp [hitBuffers, e1b, e2], h2⟩

theorem hitCategories_same (m : Geometry → List (GeometryBuffer F)) (o d : Vec3 F)
    (flags : Nat) :
    ∀ (types : List Geometry) (st st2 : HitState F),
      (st.closestDist = st2.closestDist ∧ st.found = st2.found ∧
        (st.found = true → st.out = st2.out ∧ st.param = st2.param)) →
      ∀ s, hitCategories m o d flags types st = some s →
        ∃ s2, hitCategories m o d flags types st2 = some s2 ∧
          s.closestDist = s2.closestDist ∧ s.found = s2.found ∧
          (s.found = true → s.out = s2.out ∧ s.param = s2.param)
  | [], st, st2, h, s, hs => by
    simp only [hitCategories, Option.some.injEq] at hs ⊢
    subst hs
    exact ⟨st2, rfl, h⟩
  | g :: rest, st, st2, h, s, hs => by
    by_cases hg : flagSet flags g = true
    · cases e1 : hitBuffers o d (m g) st with
      | none => simp [hitCategories, hg, e1] at hs
      | some s1 =>
      simp only [hitCategories, hg, e1, Bool.not_true, Bool.false_eq_true, if_false,
        Option.bind_eq_bind, Option.some_bind] at hs
      obtain ⟨s1b, e1b, h1⟩ := hitBuffers_same o d (m g) st st2 h s1 e1
      obtain ⟨s2, e2, h2⟩ := hitCategories_same m o d flags rest s1 s1b h1 s hs
      exact ⟨s2, by simp [hitCategories, hg, e1b, e2], h2⟩
    · simp only [hitCategories, hg, Bool.not_false, if_true] at hs ⊢
      exact hitCategories_same m o d flags rest st st2 h s hs

/-- Calling the scan again, with the out-parameters as the first call left
them, returns the same state. -/
theorem HitTestRay_again (r : Renderer F) (o d : Vec3 F) (flags : Nat) (out : Vertex F)
    (param : Nat) (st : HitState F) (h : r.HitTestRay o d flags out param = some st) :
    r.HitTestRay o d flags st.out st.param = some st := by
  obtain ⟨s2, e2, h1, h2, h3⟩ := hitCategories_same r.m_buffers o d flags allGeometry
    { closestDist := FLT_MAX, found := false, out := out, param := param }
    { closestDist := FLT_MAX, found := false, out := st.out, param := st.param }
    ⟨rfl, rfl, by simp⟩ st h
  have hs2 : r.HitTestRay o d flags st.out st.param = some s2 := e2
  rw [hs2]
  congr 1
  obtain ⟨_, _, hcase⟩ := HitTestRay_step r o d flags st.out st.param s2 hs2
  cases hf : st.found with
  | true =>
    obtain ⟨h4, h5⟩ := h3 hf
    cases st; cases s2
    simp_all
  | false =>
    rcases hcase with hc | ⟨hc, _⟩
    · rw [hc]
      obtain ⟨_, _, hcase1⟩ := HitTestRay_step r o d flags out param st h
      rcases hcase1 with hc1 | ⟨hc1, _⟩
      · cases st
        simp_all
      · rw [hf] at hc1; simp at hc1
    · rw [← h2, hf] at hc; simp at hc

end

section
variable {F : Type} [LinearOrderedField F] [MathFns F]

/-- C12: `HitTest` is a function of the pool, the camera, the screen point and
the mask, and it returns no new pool state (it is a `const` member); a second
call with the caller's `out` and `param` variables as the first call left them
returns the identical result: same flag, same position, same parameter. -/
theorem hitTest_repeatable (r : Renderer F) (camera : Camera F) (x y : Int)
    (geometryFlags : Nat) (out : Vertex F) (param : Nat) (st : HitState F)
    (h : r.HitTest camera x y geometryFlags out param = some st) :
    r.HitTest camera x y geometryFlags st.out st.param = some st ∧
    (∀ out2 param2 st2, r.HitTest camera x y geometryFlags out2 param2 = some st2 →
      st2.found = st.found ∧ st2.closestDist = st.closestDist ∧
      (st.found = true → st2.out = st.out ∧ st2.param = st.param)) := by
  refine ⟨HitTestRay_again r _ _ geometryFlags out param st h, ?_⟩
  intro out2 param2 st2 h2
  obtain ⟨s, e, h1, h3, h4⟩ := hitCategories_same r.m_buffers (camera.GetPickRay x y).1
    (camera.GetPickRay x y).2 geometryFlags allGeometry
    { closestDist := FLT_MAX, found := false, out := out, param := param }
    { closestDist := FLT_MAX, found := false, out := out2, param := param2 }
    ⟨rfl, rfl, by simp⟩ st h
  have e2 : r.HitTest camera x y geometryFlags out2 param2 = some s := e
  rw [e2] at h2
  have := Option.some.inj h2
  subst this
  exact ⟨h3.symm, h1.symm, fun hf => ⟨(h4 hf).1.symm, (h4 hf).2.symm⟩⟩

/-- C13 (failing input): the pool left by `AddTerrain({}, {0, 1, 2}, 0)` is
reached by one `Add*` call, and `HitTest` with the terrain flag reads
`buffer.vertices[buffer.indices[0]]` of an empty vertex sequence, for every
camera and screen point. -/
theorem hitTest_out_of_range_lookup (camera : Camera F) (x y : Int) (out : Vertex F)
    (param : Nat) :
    (Renderer.new : Renderer F).applyAdds [AddOp.terrain [] [0, 1, 2] 0] =
      some (Renderer.new.AddTerrain [] [0, 1, 2] 0) ∧
    (Renderer.new.AddTerrain [] [0, 1, 2] 0 : Renderer F).HitTest camera x y 1 out param =
      none := by
  constructor
  · rfl
  · simp [Renderer.HitTest, Renderer.HitTestRay, hitCategories, allGeometry, flagSet_one,
      Renderer.AddTerrain, Renderer.setBuffers, InsertBuffer, Renderer.new, hitBuffers,
      makeBuffer, generateNormals, toUnsigned, hitTriangles]

end

theorem nearPool_hit :
    (Renderer.new.AddTerrain nearTriangle [0, 1, 2] 7).HitTest Camera.new 400 300 1
      ⟨0, 0, 0⟩ 0 =
      some { closestDist := 10, found := true, out := ⟨0, 0, -10⟩, param := 7 } := by
  unfold Renderer.HitTest
  rw [Camera.GetPickRay_center]
  simp [Renderer.HitTestRay, hitCategories, allGeometry, flagSet_one, Renderer.AddTerrain,
    Renderer.setBuffers, InsertBuffer, Renderer.new, hitBuffers, makeBuffer, nearTriangle,
    generateNormals, toUnsigned, ToGlm, List.modify, hitTriangles, rayTriangle, glm.sub,
    glm.cross, glm.dot, glm.add, glm.scale, recordHit, FLT_MAX]
  norm_num

/-- C12 (witness): the freshly constructed camera looks through the centre of
its viewport at a terrain triangle ten units away. -/
theorem hitTest_repeatable_witness :
    (Renderer.new.AddTerrain nearTriangle [0, 1, 2] 7).HitTest Camera.new 400 300 1
      ⟨0, 0, 0⟩ 0 =
      some { closestDist := 10, found := true, out := ⟨0, 0, -10⟩, param := 7 } ∧
    (Renderer.new.AddTerrain nearTriangle [0, 1, 2] 7).HitTest Camera.new 400 300 1
      ⟨0, 0, -10⟩ 7 =
      some { closestDist := 10, found := true, out := ⟨0, 0, -10⟩, param := 7 } :=
  ⟨nearPool_hit,
   (hitTest_repeatable (Renderer.new.AddTerrain nearTriangle [0, 1, 2] 7) Camera.new 400 300 1
     ⟨0, 0, 0⟩ 0 _ nearPool_hit).1⟩

section
variable {F : Type} [LinearOrderedField F] [MathFns F]

omit [LinearOrderedField F] [MathFns F] in
theorem map_modify_of_fixed {α β : Type} (g : α → β) (f : α → α) (hf : ∀ a, g (f a) = g a) :
    ∀ (l : List α) (n : Nat), (l.modify f n).map g = l.map g
  | [], n => by cases n <;> rfl
  | a :: l, 0 => by simp [List.modify, hf]
  | a :: l, n + 1 => by
    simp only [List.modify_succ_cons, List.map_cons]
    rw [map_modify_of_fixed g f hf l n]

omit [LinearOrderedField F] [MathFns F] in
theorem modify_normal_position (N : Vec3 F) (l : List (ColoredVertex F)) (n : Nat) :
    (List.modify (fun cv => { cv with normal := N }) n l).map (fun x => x.position) =
      l.map (fun x => x.position) :=
  map_modify_of_fixed (fun x : ColoredVertex F => x.position)
    (fun cv => { cv with normal := N }) (fun _ => rfl) l n

omit [LinearOrderedField F] [MathFns F] in
theorem modify_normal_color (N : Vec3 F) (l : List (ColoredVertex F)) (n : Nat) :
    (List.modify (fun cv => { cv with normal := N }) n l).map (fun x => x.color) =
      l.map (fun x => x.color) :=
  map_modify_of_fixed (fun x : ColoredVertex F => x.color)
    (fun cv => { cv with normal := N }) (fun _ => rfl) l n

theorem generateNormals_position :
    ∀ (is : List Nat) (vs : List (ColoredVertex F)),
      (generateNormals is vs).map (fun x => x.position) = vs.map (fun x => x.position) ∧
      (generateNormals is vs).map (fun x => x.color) = vs.map (fun x => x.color)
  | [], vs => by simp [generateNormals]
  | [_], vs => by simp [generateNormals]
  | [_, _], vs => by simp [generateNormals]
  | i0 :: i1 :: i2 :: rest, vs => by
    rw [generateNormals]
    split
    · simp only []
      obtain ⟨h1, h2⟩ := generateNormals_position rest
        (List.modify (fun cv => { cv with normal := _ }) i2
          (List.modify (fun cv => { cv with normal := _ }) i1
            (List.modify (fun cv => { cv with normal := _ }) i0 vs)))
      constructor
      · rw [h1, modify_normal_position, modify_normal_position, modify_normal_position]
      · rw [h2, modify_normal_color, modify_normal_color, modify_normal_color]
    · exact generateNormals_position rest vs

theorem makeBuffer_positions (color : Vec4 F) (vertices : List (Vertex F))
    (indices : List Int) (userParam : Nat) (genNormals : Bool) :
    (makeBuffer color vertices indices userParam genNormals).vertices.map
        (fun x => x.position) = vertices.map ToGlm ∧
    (∀ cv ∈ (makeBuffer color vertices indices userParam genNormals).vertices,
      cv.color = color) := by
  unfold makeBuffer
  simp only []
  split
  · obtain ⟨h1, h2⟩ := generateNormals_position (List.map toUnsigned indices)
      (List.map (fun v => ({ position := ToGlm v, normal := ⟨0, 0, 1⟩, color := color } :
        ColoredVertex F)) vertices)
    refine ⟨by rw [h1]; simp, ?_⟩
    intro cv hcv
    have : cv.color ∈ (generateNormals (List.map toUnsigned indices)
        (List.map (fun v => ({ position := ToGlm v, normal := ⟨0, 0, 1⟩, color := color } :
          ColoredVertex F)) vertices)).map (fun x => x.color) := List.mem_map_of_mem _ hcv
    rw [h2] at this
    simp at this
    exact this.2.symm
  · refine ⟨by simp, ?_⟩
    intro cv hcv
    simp at hcv
    obtain ⟨_, _, rfl⟩ := hcv
    rfl

theorem toUnsigned_cast_list (indices : List Int)
    (h : ∀ i ∈ indices, 0 ≤ i ∧ i < 4294967296) :
    (indices.map toUnsigned).map Nat.cast = indices := by
  induction indices with
  | nil => rfl
  | cons a l ih =>
    have ha := h a (by simp)
    simp only [List.map_cons]
    rw [ih (fun i hi => h i (by simp [hi]))]
    congr 1
    unfold toUnsigned
    omega

/-- C14: `insert` appends exactly one buffer to the end of the target category's
collection; its vertex sequence has the input positions in input order, each
with the given colour; its index sequence is the input index sequence
(converted to `unsigned int`, value-preserving for non-negative indices); its
`UserParameter` is `userParam`; every other category's collection, every
buffer that existed before, and both registries are unchanged. -/
theorem insert_appends (r : Renderer F) (type : Geometry) (color : Vec4 F)
    (vertices : List (Vertex F)) (indices : List Int) (userParam : Nat)
    (genNormals : Bool) :
    ∃ b : GeometryBuffer F,
      InsertBuffer (r.m_buffers type) color vertices indices userParam genNormals =
        r.m_buffers type ++ [b] ∧
      (r.insert type color vertices indices userParam genNormals).m_buffers type =
        r.m_buffers type ++ [b] ∧
      (∀ g, g ≠ type →
        (r.insert type color vertices indices userParam genNormals).m_buffers g =
          r.m_buffers g) ∧
      (r.insert type color vertices indices userParam genNormals).m_wmos = r.m_wmos ∧
      (r.insert type color vertices indices userParam genNormals).m_doodads = r.m_doodads ∧
      b.vertices.map (fun x => x.position) = vertices.map ToGlm ∧
      (∀ cv ∈ b.vertices, cv.color = color) ∧
      b.indices = indices.map toUnsigned ∧
      ((∀ i ∈ indices, 0 ≤ i ∧ i < 4294967296) → b.indices.map Nat.cast = indices) ∧
      b.UserParameter = userParam := by
  refine ⟨makeBuffer color vertices indices userParam genNormals, rfl, ?_, ?_, rfl, rfl,
    (makeBuffer_positions _ _ _ _ _).1, (makeBuffer_positions _ _ _ _ _).2,
    makeBuffer_indices _ _ _ _ _, ?_, ?_⟩
  · simp [Renderer.insert, Renderer.setBuffers, InsertBuffer]
  · intro g hg
    simp [Renderer.insert, Renderer.setBuffers, Function.update_noteq hg]
  · intro h
    rw [makeBuffer_indices]
    exact toUnsigned_cast_list indices h
  · simp [makeBuffer]

/-- C14 (witness): inserting a terrain triangle into the empty pool. -/
theorem insert_appends_witness :
    ∃ b : GeometryBuffer ℝ,
      ((Renderer.new : Renderer ℝ).insert TerrainGeometry TerrainColor nearTriangle
        [0, 1, 2] 7 true).m_buffers TerrainGeometry =
        (Renderer.new : Renderer ℝ).m_buffers TerrainGeometry ++ [b] ∧
      b.vertices.map (fun x => x.position) = nearTriangle.map ToGlm ∧
      b.indices.map Nat.cast = ([0, 1, 2] : List Int) ∧ b.UserParameter = 7 := by
  obtain ⟨b, _, h2, _, _, _, h6, _, _, h9, h10⟩ :=
    insert_appends (Renderer.new : Renderer ℝ) TerrainGeometry TerrainColor nearTriangle
      [0, 1, 2] 7 true
  exact ⟨b, h2, h6, h9 (by intro i hi; simp at hi; omega), h10⟩

/-- The `Add*` wrappers are `insert` with the category's colour. -/
theorem wrappers_are_insert (r : Renderer F) (vertices : List (Vertex F))
    (indices : List Int) (id : Nat) (steep : Bool) :
    r.AddTerrain vertices indices id =
      r.insert TerrainGeometry TerrainColor vertices indices id true ∧
    r.AddLiquid vertices indices =
      r.insert LiquidGeometry LiquidColor vertices indices 0 true ∧
    r.AddMesh vertices indices steep =
      r.insert NavMeshGeometry (if steep then MeshSteepColor else MeshColor)
        vertices indices 0 true ∧
    r.AddLines vertices indices = r.insert LineGeometry LineColor vertices indices 0 false ∧
    r.AddGameObject vertices indices =
      r.insert GameObjectGeometry GameObjectColor vertices indices 0 true :=
  ⟨rfl, rfl, rfl, rfl, rfl⟩

/-- C15: `AddWmo(id, ...)` makes `HasWmo(id)` true and appends one buffer with
`UserParameter = id` to the WMO category, also when `id` is already registered
(two calls with the same id append two buffers), and leaves `HasDoodad`
unchanged; symmetrically for `AddDoodad`. -/
theorem addWmo_addDoodad (r : Renderer F) (id : Nat) (vertices vertices2 : List (Vertex F))
    (indices indices2 : List Int) :
    ((r.AddWmo id vertices indices).HasWmo id = true ∧
      (∃ b : GeometryBuffer F, b.UserParameter = id ∧
        (r.AddWmo id vertices indices).m_buffers WmoGeometry =
          r.m_buffers WmoGeometry ++ [b]) ∧
      (∃ b b2 : GeometryBuffer F, b.UserParameter = id ∧ b2.UserParameter = id ∧
        ((r.AddWmo id vertices indices).AddWmo id vertices2 indices2).m_buffers WmoGeometry =
          r.m_buffers WmoGeometry ++ [b, b2]) ∧
      (∀ id2, (r.AddWmo id vertices indices).HasDoodad id2 = r.HasDoodad id2)) ∧
    ((r.AddDoodad id vertices indices).HasDoodad id = true ∧
      (∃ b : GeometryBuffer F, b.UserParameter = id ∧
        (r.AddDoodad id vertices indices).m_buffers DoodadGeometry =
          r.m_buffers DoodadGeometry ++ [b]) ∧
      (∃ b b2 : GeometryBuffer F, b.UserParameter = id ∧ b2.UserParameter = id ∧
        ((r.AddDoodad id vertices indices).AddDoodad id vertices2 indices2).m_buffers
            DoodadGeometry =
          r.m_buffers DoodadGeometry ++ [b, b2]) ∧
      (∀ id2, (r.AddDoodad id vertices indices).HasWmo id2 = r.HasWmo id2)) := by
  refine ⟨⟨?_, ?_, ?_, ?_⟩, ⟨?_, ?_, ?_, ?_⟩⟩
  · simp [Renderer.AddWmo, Renderer.HasWmo, Renderer.setBuffers]
  · exact ⟨makeBuffer WmoColor vertices indices id true, by simp [makeBuffer],
      by simp [Renderer.AddWmo, Renderer.setBuffers, InsertBuffer]⟩
  · exact ⟨makeBuffer WmoColor vertices indices id true,
      makeBuffer WmoColor vertices2 indices2 id true, by simp [makeBuffer],
      by simp [makeBuffer],
      by simp [Renderer.AddWmo, Renderer.setBuffers, InsertBuffer]⟩
  · intro id2
    simp [Renderer.AddWmo, Renderer.HasDoodad, Renderer.setBuffers]
  · simp [Renderer.AddDoodad, Renderer.HasDoodad, Renderer.setBuffers]
  · exact ⟨makeBuffer DoodadColor vertices indices id true, by simp [makeBuffer],
      by simp [Renderer.AddDoodad, Renderer.setBuffers, InsertBuffer]⟩
  · exact ⟨makeBuffer DoodadColor vertices indices id true,
      makeBuffer DoodadColor vertices2 indices2 id true, by simp [makeBuffer],
      by simp [makeBuffer],
      by simp [Renderer.AddDoodad, Renderer.setBuffers, InsertBuffer]⟩
  · intro id2
    simp [Renderer.AddDoodad, Renderer.HasWmo, Renderer.setBuffers]

theorem AddSphere_registries (r r2 : Renderer F) (position : Vertex F) (size : F)
    (level : Int) (h : r.AddSphere position size level = some r2) :
    r2.m_wmos = r.m_wmos ∧ r2.m_doodads = r.m_doodads := by
  unfold Renderer.AddSphere at h
  cases hg : GenerateSphereMesh position size level with
  | none => simp [hg] at h
  | some m =>
    simp only [hg, Option.bind_eq_bind, Option.some_bind, Option.pure_def,
      Option.some.injEq] at h
    subst h
    exact ⟨rfl, rfl⟩

theorem addPathSpheres_registries :
    ∀ (path : List (Vertex F)) (r r2 : Renderer F), addPathSpheres r path = some r2 →
      r2.m_wmos = r.m_wmos ∧ r2.m_doodads = r.m_doodads
  | [], r, r2, h => by
    simp only [addPathSpheres, Option.some.injEq] at h
    subst h
    exact ⟨rfl, rfl⟩
  | p :: rest, r, r2, h => by
    cases h1 : r.AddSphere p (3 / 2) 1 with
    | none => simp [addPathSpheres, h1] at h
    | some r1 =>
      simp only [addPathSpheres, h1, Option.bind_eq_bind, Option.some_bind] at h
      obtain ⟨a1, a2⟩ := AddSphere_registries r r1 p _ _ h1
      obtain ⟨b1, b2⟩ := addPathSpheres_registries rest r1 r2 h
      exact ⟨b1.trans a1, b2.trans a2⟩

theorem applyAdd_registries (r r2 : Renderer F) (op : AddOp F)
    (h : r.applyAdd op = some r2) :
    r.m_wmos ⊆ r2.m_wmos ∧ r.m_doodads ⊆ r2.m_doodads := by
  cases op with
  | terrain vs is a =>
    simp only [Renderer.applyAdd, Option.some.injEq] at h; subst h
    exact ⟨Finset.Subset.refl _, Finset.Subset.refl _⟩
  | liquid vs is =>
    simp only [Renderer.applyAdd, Option.some.injEq] at h; subst h
    exact ⟨Finset.Subset.refl _, Finset.Subset.refl _⟩
  | wmo id vs is =>
    simp only [Renderer.applyAdd, Option.some.injEq] at h; subst h
    exact ⟨Finset.subset_insert _ _, Finset.Subset.refl _⟩
  | doodad id vs is =>
    simp only [Renderer.applyAdd, Option.some.injEq] at h; subst h
    exact ⟨Finset.Subset.refl _, Finset.subset_insert _ _⟩
  | mesh vs is steep =>
    simp only [Renderer.applyAdd, Option.some.injEq] at h; subst h
    exact ⟨Finset.Subset.refl _, Finset.Subset.refl _⟩
  | lines vs is =>
    simp only [Renderer.applyAdd, Option.some.injEq] at h; subst h
    exact ⟨Finset.Subset.refl _, Finset.Subset.refl _⟩
  | sphere p s l =>
    obtain ⟨a1, a2⟩ := AddSphere_registries r r2 p s l h
    rw [a1, a2]
    exact ⟨Finset.Subset.refl _, Finset.Subset.refl _⟩
  | arrows s e st =>
    simp only [Renderer.applyAdd, Option.some.injEq] at h; subst h
    exact ⟨Finset.Subset.refl _, Finset.Subset.refl _⟩
  | path p =>
    simp only [Renderer.applyAdd, Renderer.AddPath] at h
    split at h
    · simp only [Option.some.injEq] at h; subst h
      exact ⟨Finset.Subset.refl _, Finset.Subset.refl _⟩
    · cases h1 : addPathSpheres r p with
      | none => simp [h1] at h
      | some r1 =>
        simp only [h1, Option.bind_eq_bind, Option.some_bind, Option.pure_def,
          Option.some.injEq] at h
        subst h
        obtain ⟨a1, a2⟩ := addPathSpheres_registries p r r1 h1
        simp only [Renderer.AddLines, Renderer.setBuffers, a1, a2]
        exact ⟨Finset.Subset.refl _, Finset.Subset.refl _⟩
  | gameObject vs is =>
    simp only [Renderer.applyAdd, Option.some.injEq] at h; subst h
    exact ⟨Finset.Subset.refl _, Finset.Subset.refl _⟩

/-- C16: every pool operation other than the full clear (each `Add*`,
`ClearBuffers(type)` for any single category, `ClearSprites`,
`ClearGameObjects`, `HitTest`) keeps every registered id: an id for which
`HasWmo` (resp. `HasDoodad`) was true before the operation is still true
after it. -/
theorem registries_only_grow (r r2 : Renderer F) (op : PoolOp F)
    (h : r.applyOp op = some r2) (id : Nat) :
    (r.HasWmo id = true → r2.HasWmo id = true) ∧
    (r.HasDoodad id = true → r2.HasDoodad id = true) := by
  have key : r.m_wmos ⊆ r2.m_wmos ∧ r.m_doodads ⊆ r2.m_doodads := by
    cases op with
    | add op => exact applyAdd_registries r r2 op h
    | clear type =>
      simp only [Renderer.applyOp, Option.some.injEq] at h; subst h
      exact ⟨Finset.Subset.refl _, Finset.Subset.refl _⟩
    | clearSprites =>
      simp only [Renderer.applyOp, Option.some.injEq] at h; subst h
      exact ⟨Finset.Subset.refl _, Finset.Subset.refl _⟩
    | clearGameObjects =>
      simp only [Renderer.applyOp, Option.some.injEq] at h; subst h
      exact ⟨Finset.Subset.refl _, Finset.Subset.refl _⟩
    | hitTest camera x y flags out param =>
      simp only [Renderer.applyOp, Option.map_eq_some'] at h
      obtain ⟨_, _, rfl⟩ := h
      exact ⟨Finset.Subset.refl _, Finset.Subset.refl _⟩
  simp only [Renderer.HasWmo, Renderer.HasDoodad, decide_eq_true_eq]
  exact ⟨fun hm => key.1 hm, fun hm => key.2 hm⟩

end

/-- C16 (witness): clearing the WMO category keeps the WMO id 5 registered. -/
theorem registries_only_grow_witness :
    ((Renderer.new.AddWmo 5 nearTriangle [0, 1, 2]).applyOp (PoolOp.clear WmoGeometry) =
      some ((Renderer.new.AddWmo 5 nearTriangle [0, 1, 2]).ClearBuffers WmoGeometry) ∧
     (Renderer.new.AddWmo 5 nearTriangle [0, 1, 2]).HasWmo 5 = true) ∧
    ((Renderer.new.AddWmo 5 nearTriangle [0, 1, 2]).ClearBuffers WmoGeometry).HasWmo 5 =
      true :=
  have h5 : (Renderer.new.AddWmo 5 nearTriangle [0, 1, 2]).HasWmo 5 = true := by
    simp [Renderer.AddWmo, Renderer.HasWmo, Renderer.setBuffers]
  ⟨⟨rfl, h5⟩, (registries_only_grow _ _ (PoolOp.clear WmoGeometry) rfl 5).1 h5⟩

/-! ### The vertices of the sphere mesh lie on the sphere

The lemmas of this part are statements of exact arithmetic: they assume that
`sqrt` is a square root on the non-negative elements. -/

section
variable {F : Type} [LinearOrderedField F] [MathFns F]

theorem sqrt_ne_zero (hsqrt : ∀ x : F, 0 ≤ x → MathFns.sqrt x * MathFns.sqrt x = x)
    (x : F) (hx : 0 < x) : MathFns.sqrt x ≠ 0 := by
  intro h
  have := hsqrt x (le_of_lt hx)
  rw [h] at this
  simp at this
  exact absurd this.symm (ne_of_gt hx)

theorem addVertex_distSq (hsqrt : ∀ x : F, 0 ≤ x → MathFns.sqrt x * MathFns.sqrt x = x)
    (center : Vertex F) (radius x y z : F) (hne : 0 < x * x + y * y + z * z) :
    distSq (addVertex center radius x y z) center = radius * radius := by
  have hL := hsqrt _ (le_of_lt hne)
  have hL0 := sqrt_ne_zero hsqrt _ hne
  simp only [distSq, addVertex]
  generalize MathFns.sqrt (x * x + y * y + z * z) = L at hL hL0
  field_simp
  linear_combination (-(radius * radius)) * hL

theorem sphereNormalize_distSq
    (hsqrt : ∀ x : F, 0 ≤ x → MathFns.sqrt x * MathFns.sqrt x = x)
    (center : Vertex F) (radius : F) (v : Vertex F) (hne : 0 < distSq v center) :
    distSq (sphereNormalize center radius v) center = radius * radius := by
  have hL := hsqrt _ (le_of_lt hne)
  have hL0 := sqrt_ne_zero hsqrt _ hne
  simp only [distSq, sphereNormalize] at hL hL0 ⊢
  generalize MathFns.sqrt ((v.X - center.X) * (v.X - center.X) +
    (v.Y - center.Y) * (v.Y - center.Y) + (v.Z - center.Z) * (v.Z - center.Z)) = L at hL hL0
  field_simp
  linear_combination (-(radius * radius)) * hL

theorem golden_sq (hsqrt : ∀ x : F, 0 ≤ x → MathFns.sqrt x * MathFns.sqrt x = x) :
    ((1 + MathFns.sqrt (5 : F)) / 2) * ((1 + MathFns.sqrt 5) / 2) =
      (1 + MathFns.sqrt 5) / 2 + 1 := by
  have h5 := hsqrt 5 (by norm_num)
  linear_combination (1 / 4) * h5

theorem initialVertices_distSq
    (hsqrt : ∀ x : F, 0 ≤ x → MathFns.sqrt x * MathFns.sqrt x = x)
    (center : Vertex F) (radius : F) :
    ∀ v ∈ initialVertices center radius, distSq v center = radius * radius := by
  intro v hv
  simp only [initialVertices, List.mem_cons, List.mem_singleton, List.not_mem_nil,
    or_false] at hv
  rcases hv with rfl | rfl | rfl | rfl | rfl | rfl | rfl | rfl | rfl | rfl | rfl | rfl <;>
    exact addVertex_distSq hsqrt _ _ _ _ _
      (by nlinarith [mul_self_nonneg ((1 + MathFns.sqrt (5 : F)) / 2)])

omit [MathFns F] in
theorem mid_sq_pos (L r : F) (hL0 : L ≠ 0) (hr : r ≠ 0) (cx cy cz x0 y0 z0 x1 y1 z1 : F)
    (hN : 0 < (x0 + x1) * (x0 + x1) + (y0 + y1) * (y0 + y1) + (z0 + z1) * (z0 + z1)) :
    0 < ((cx + x0 / L * r + (cx + x1 / L * r)) / 2 - cx) *
        ((cx + x0 / L * r + (cx + x1 / L * r)) / 2 - cx) +
      ((cy + y0 / L * r + (cy + y1 / L * r)) / 2 - cy) *
        ((cy + y0 / L * r + (cy + y1 / L * r)) / 2 - cy) +
      ((cz + z0 / L * r + (cz + z1 / L * r)) / 2 - cz) *
        ((cz + z0 / L * r + (cz + z1 / L * r)) / 2 - cz) := by
  have e1 : (cx + x0 / L * r + (cx + x1 / L * r)) / 2 - cx = r / (2 * L) * (x0 + x1) := by
    field_simp
    ring
  have e2 : (cy + y0 / L * r + (cy + y1 / L * r)) / 2 - cy = r / (2 * L) * (y0 + y1) := by
    field_simp
    ring
  have e3 : (cz + z0 / L * r + (cz + z1 / L * r)) / 2 - cz = r / (2 * L) * (z0 + z1) := by
    field_simp
    ring
  rw [e1, e2, e3]
  have h3 : r / (2 * L) ≠ 0 := div_ne_zero hr (mul_ne_zero two_ne_zero hL0)
  have h4 : 0 < r / (2 * L) * (r / (2 * L)) := mul_self_pos.2 h3
  have e : r / (2 * L) * (x0 + x1) * (r / (2 * L) * (x0 + x1)) +
      r / (2 * L) * (y0 + y1) * (r / (2 * L) * (y0 + y1)) +
      r / (2 * L) * (z0 + z1) * (r / (2 * L) * (z0 + z1)) =
      r / (2 * L) * (r / (2 * L)) *
        ((x0 + x1) * (x0 + x1) + (y0 + y1) * (y0 + y1) + (z0 + z1) * (z0 + z1)) := by ring
  rw [e]
  exact mul_pos h4 hN

/-- The midpoint of two icosahedron vertices whose directions have the scalar
product `t` is not the centre. -/
theorem mid_ico_pos (hsqrt : ∀ x : F, 0 ≤ x → MathFns.sqrt x * MathFns.sqrt x = x)
    (center : Vertex F) (radius : F) (hr : radius ≠ 0) (t x0 y0 z0 x1 y1 z1 : F)
    (h0 : x0 * x0 + y0 * y0 + z0 * z0 = 1 + t * t)
    (h1 : x1 * x1 + y1 * y1 + z1 * z1 = 1 + t * t)
    (hd : x0 * x1 + y0 * y1 + z0 * z1 = t) :
    0 < distSq
      ⟨((addVertex center radius x0 y0 z0).X + (addVertex center radius x1 y1 z1).X) / 2,
       ((addVertex center radius x0 y0 z0).Y + (addVertex center radius x1 y1 z1).Y) / 2,
       ((addVertex center radius x0 y0 z0).Z + (addVertex center radius x1 y1 z1).Z) / 2⟩
      center := by
  have hq : 0 < 1 + t * t := by nlinarith [mul_self_nonneg t]
  have hL0 := sqrt_ne_zero hsqrt _ hq
  have hN : 0 < (x0 + x1) * (x0 + x1) + (y0 + y1) * (y0 + y1) + (z0 + z1) * (z0 + z1) := by
    have e : (x0 + x1) * (x0 + x1) + (y0 + y1) * (y0 + y1) + (z0 + z1) * (z0 + z1) =
        2 * (1 + t * t) + 2 * t := by
      linear_combination h0 + h1 + 2 * hd
    rw [e]
    nlinarith [mul_self_nonneg (2 * t + 1)]
  simp only [distSq, addVertex, h0, h1]
  exact mid_sq_pos _ radius hL0 hr center.X center.Y center.Z x0 y0 z0 x1 y1 z1 hN

theorem initialVertices_lookup0 (center : Vertex F) (radius : F) :
    lookupInt (initialVertices center radius) 0 =
      some (addVertex center radius (-1) ((1 + MathFns.sqrt (5 : F)) / 2) 0) := by
  simp [lookupInt, initialVertices]

theorem initialVertices_lookup1 (center : Vertex F) (radius : F) :
    lookupInt (initialVertices center radius) 1 =
      some (addVertex center radius 1 ((1 + MathFns.sqrt (5 : F)) / 2) 0) := by
  simp [lookupInt, initialVertices]

theorem initialVertices_lookup2 (center : Vertex F) (radius : F) :
    lookupInt (initialVertices center radius) 2 =
      some (addVertex center radius (-1) (-((1 + MathFns.sqrt (5 : F)) / 2)) 0) := by
  simp [lookupInt, initialVertices]

theorem initialVertices_lookup3 (center : Vertex F) (radius : F) :
    lookupInt (initialVertices center radius) 3 =
      some (addVertex center radius 1 (-((1 + MathFns.sqrt (5 : F)) / 2)) 0) := by
  simp [lookupInt, initialVertices]

theorem initialVertices_lookup4 (center : Vertex F) (radius : F) :
    lookupInt (initialVertices center radius) 4 =
      some (addVertex center radius 0 (-1) ((1 + MathFns.sqrt (5 : F)) / 2)) := by
  simp [lookupInt, initialVertices]

theorem initialVertices_lookup5 (center : Vertex F) (radius : F) :
    lookupInt (initialVertices center radius) 5 =
      some (addVertex center radius 0 1 ((1 + MathFns.sqrt (5 : F)) / 2)) := by
  simp [lookupInt, initialVertices]

theorem initialVertices_lookup6 (center : Vertex F) (radius : F) :
    lookupInt (initialVertices center radius) 6 =
      some (addVertex center radius 0 (-1) (-((1 + MathFns.sqrt (5 : F)) / 2))) := by
  simp [lookupInt, initialVertices]

theorem initialVertices_lookup7 (center : Vertex F) (radius : F) :
    lookupInt (initialVertices center radius) 7 =
      some (addVertex center radius 0 1 (-((1 + MathFns.sqrt (5 : F)) / 2))) := by
  simp [lookupInt, initialVertices]

theorem initialVertices_lookup8 (center : Vertex F) (radius : F) :
    lookupInt (initialVertices center radius) 8 =
      some (addVertex center radius ((1 + MathFns.sqrt (5 : F)) / 2) 0 (-1)) := by
  simp [lookupInt, initialVertices]

theorem initialVertices_lookup9 (center : Vertex F) (radius : F) :
    lookupInt (initialVertices center radius) 9 =
      some (addVertex center radius ((1 + MathFns.sqrt (5 : F)) / 2) 0 1) := by
  simp [lookupInt, initialVertices]

theorem initialVertices_lookup10 (center : Vertex F) (radius : F) :
    lookupInt (initialVertices center radius) 10 =
      some (addVertex center radius (-((1 + MathFns.sqrt (5 : F)) / 2)) 0 (-1)) := by
  simp [lookupInt, initialVertices]

theorem initialVertices_lookup11 (center : Vertex F) (radius : F) :
    lookupInt (initialVertices center radius) 11 =
      some (addVertex center radius (-((1 + MathFns.sqrt (5 : F)) / 2)) 0 1) := by
  simp [lookupInt, initialVertices]

/-- Every pair of initial vertices joined by an edge of an initial triangle has
its midpoint away from the centre. -/
theorem initial_edges_pos (hsqrt : ∀ x : F, 0 ≤ x → MathFns.sqrt x * MathFns.sqrt x = x)
    (center : Vertex F) (radius : F) (hr : radius ≠ 0) (e : Int × Int)
    (he : e ∈ edgePairs initialIndices) (pa pb : Vertex F)
    (ha : lookupInt (initialVertices center radius) e.1 = some pa)
    (hb : lookupInt (initialVertices center radius) e.2 = some pb) :
    0 < distSq ⟨(pa.X + pb.X) / 2, (pa.Y + pb.Y) / 2, (pa.Z + pb.Z) / 2⟩ center := by
  have ht2 := golden_sq hsqrt
  simp only [edgePairs, initialIndices, List.mem_cons, List.mem_singleton, List.not_mem_nil,
    or_false] at he
  rcases he with rfl | rfl | rfl | rfl | rfl | rfl | rfl | rfl | rfl | rfl | rfl | rfl | rfl | rfl | rfl | rfl | rfl | rfl | rfl | rfl | rfl | rfl | rfl | rfl | rfl | rfl | rfl | rfl | rfl | rfl | rfl | rfl | rfl | rfl | rfl | rfl | rfl | rfl | rfl | rfl | rfl | rfl | rfl | rfl | rfl | rfl | rfl | rfl | rfl | rfl | rfl | rfl | rfl | rfl | rfl | rfl | rfl | rfl | rfl | rfl <;>
    (simp only [initialVertices_lookup0, initialVertices_lookup1, initialVertices_lookup2, initialVertices_lookup3, initialVertices_lookup4, initialVertices_lookup5, initialVertices_lookup6, initialVertices_lookup7, initialVertices_lookup8, initialVertices_lookup9, initialVertices_lookup10, initialVertices_lookup11,
       Option.some.injEq] at ha hb
     subst ha hb
     exact mid_ico_pos hsqrt center radius hr ((1 + MathFns.sqrt (5 : F)) / 2) _ _ _ _ _ _
       (by ring1) (by ring1) (by first | ring1 | linear_combination ht2))

end

section
variable {F : Type} [LinearOrderedField F] [MathFns F]

omit [LinearOrderedField F] [MathFns F] in
theorem lookupInt_append_left (l acc : List (Vertex F)) (v : Int) (h0 : 0 ≤ v)
    (h1 : v < (l.length : Int)) : lookupInt (l ++ acc) v = lookupInt l v := by
  unfold lookupInt
  rw [if_pos h0, if_pos h0]
  exact List.getElem?_append_left (by omega)

/-- The vertices after one subdivision pass whose index triples refer to the
first vertices `vs0`: the vertices before the pass, and for every pair of
indices joined by an edge of a triple the normalised midpoint of the two
vertices of `vs0`. -/
theorem subdivide_mem (center : Vertex F) (radius : F) (vs0 : List (Vertex F)) :
    ∀ (is : List Int) (acc : List (Vertex F)) (nis : List Int) (vs2 : List (Vertex F))
      (nis2 : List Int), IndicesBelow is vs0.length →
      subdivide center radius is (vs0 ++ acc) nis = some (vs2, nis2) →
      ∀ v ∈ vs2, v ∈ vs0 ++ acc ∨ ∃ e ∈ edgePairs is, ∃ pa pb,
        lookupInt vs0 e.1 = some pa ∧ lookupInt vs0 e.2 = some pb ∧
        v = sphereNormalize center radius
          ⟨(pa.X + pb.X) / 2, (pa.Y + pb.Y) / 2, (pa.Z + pb.Z) / 2⟩
  | [], acc, nis, vs2, nis2, _, h => by
    simp only [subdivide, Option.some.injEq, Prod.mk.injEq] at h
    intro v hv
    rw [← h.1] at hv
    exact Or.inl hv
  | [_], acc, nis, vs2, nis2, _, h => by
    simp only [subdivide, Option.some.injEq, Prod.mk.injEq] at h
    intro v hv
    rw [← h.1] at hv
    exact Or.inl hv
  | [_, _], acc, nis, vs2, nis2, _, h => by
    simp only [subdivide, Option.some.injEq, Prod.mk.injEq] at h
    intro v hv
    rw [← h.1] at hv
    exact Or.inl hv
  | v0 :: v1 :: v2 :: rest, acc, nis, vs2, nis2, hb, h => by
    have hv0 := hb v0 (by simp)
    have hv1 := hb v1 (by simp)
    have hv2 := hb v2 (by simp)
    obtain ⟨p0, e0⟩ := lookupInt_isSome vs0 v0 hv0.1 hv0.2
    obtain ⟨p1, e1⟩ := lookupInt_isSome vs0 v1 hv1.1 hv1.2
    obtain ⟨p2, e2⟩ := lookupInt_isSome vs0 v2 hv2.1 hv2.2
    have f0 := (lookupInt_append_left vs0 acc v0 hv0.1 hv0.2).trans e0
    have f1 := (lookupInt_append_left vs0 acc v1 hv1.1 hv1.2).trans e1
    have f2 := (lookupInt_append_left vs0 acc v2 hv2.1 hv2.2).trans e2
    have hrest : IndicesBelow rest vs0.length := fun i hi => hb i (by simp [hi])
    simp only [subdivide, f0, f1, f2, Option.bind_eq_bind, Option.some_bind,
      List.append_assoc] at h
    have ih := subdivide_mem center radius vs0 rest _ _ vs2 nis2 hrest h
    intro v hv
    rcases ih v hv with hm | ⟨e, he, pa, pb, ha, hb2, hv2⟩
    · simp only [List.mem_append, List.mem_cons, List.mem_singleton, List.not_mem_nil,
        or_false] at hm
      rcases hm with hm | hm | hm | hm | hm
      · exact Or.inl (List.mem_append.2 (Or.inl hm))
      · exact Or.inl (List.mem_append.2 (Or.inr hm))
      · exact Or.inr ⟨(v0, v1), by simp [edgePairs], p0, p1, e0, e1, hm⟩
      · exact Or.inr ⟨(v1, v2), by simp [edgePairs], p1, p2, e1, e2, hm⟩
      · exact Or.inr ⟨(v2, v0), by simp [edgePairs], p2, p0, e2, e0, hm⟩
    · exact Or.inr ⟨e, by simp [edgePairs, he], pa, pb, ha, hb2, hv2⟩

/-- Every vertex of the subdivision-level-0 mesh is at distance `radius` from
the centre. -/
theorem level0_distSq (hsqrt : ∀ x : F, 0 ≤ x → MathFns.sqrt x * MathFns.sqrt x = x)
    (center : Vertex F) (radius : F) (vs : List (Vertex F)) (is : List Int)
    (h : GenerateSphereMesh center radius 0 = some (vs, is)) :
    ∀ v ∈ vs, distSq v center = radius * radius := by
  simp only [GenerateSphereMesh, Int.toNat_zero, subdivideLevels, Option.some.injEq,
    Prod.mk.injEq] at h
  rw [← h.1]
  exact initialVertices_distSq hsqrt center radius

/-- Every vertex of the subdivision-level-1 mesh of non-zero radius is at
distance `radius` from the centre. -/
theorem level1_distSq (hsqrt : ∀ x : F, 0 ≤ x → MathFns.sqrt x * MathFns.sqrt x = x)
    (center : Vertex F) (radius : F) (hr : radius ≠ 0) (vs : List (Vertex F)) (is : List Int)
    (h : GenerateSphereMesh center radius 1 = some (vs, is)) :
    ∀ v ∈ vs, distSq v center = radius * radius := by
  have h1 : (1 : Int).toNat = 1 := rfl
  simp only [GenerateSphereMesh, h1, subdivideLevels] at h
  cases hs : subdivide center radius initialIndices (initialVertices center radius) [] with
  | none => simp [hs] at h
  | some res =>
    obtain ⟨vs1, is1⟩ := res
    simp only [hs, Option.bind_eq_bind, Option.some_bind, Option.some.injEq,
      Prod.mk.injEq] at h
    obtain ⟨rfl, rfl⟩ := h
    have hs2 : subdivide center radius initialIndices (initialVertices center radius ++ []) [] =
        some (vs1, is1) := by rw [List.append_nil]; exact hs
    intro v hv
    rcases subdivide_mem center radius (initialVertices center radius) initialIndices [] []
        vs1 is1 (by rw [initialVertices_length]; exact initialIndices_below) hs2 v hv with
      hm | ⟨e, he, pa, pb, ha, hb, rfl⟩
    · rw [List.append_nil] at hm
      exact initialVertices_distSq hsqrt center radius v hm
    · exact sphereNormalize_distSq hsqrt center radius _
        (initial_edges_pos hsqrt center radius hr e he pa pb ha hb)

/-- A sphere buffer is the buffer built from the generated mesh: its counts,
the range of its indices, its parameter and its vertex positions. -/
theorem sphereBuffer_geometry (position : Vertex F) (size : F) (level : Int)
    (sb : GeometryBuffer F) (h : sphereBuffer position size level = some sb) :
    ∃ vs is, GenerateSphereMesh position size level = some (vs, is) ∧
      sb = makeBuffer SphereColor vs is 0 true ∧
      sb.vertices.length + 8 = 20 * 4 ^ level.toNat ∧
      sb.indices.length = 60 * 4 ^ level.toNat ∧
      sb.IndexInvariant ∧ sb.UserParameter = 0 ∧
      sb.vertices.map (fun cv => cv.position) = vs.map ToGlm := by
  obtain ⟨vs, is, e, l1, l2, hb⟩ := GenerateSphereMesh_spec position size level
  simp only [sphereBuffer, e, Option.map_some', Option.some.injEq] at h
  subst h
  refine ⟨vs, is, e, rfl, ?_, ?_, makeBuffer_invariant _ _ _ _ _ hb, rfl,
    (makeBuffer_positions _ _ _ _ _).1⟩
  · rw [makeBuffer_vertices_length]; exact l2
  · rw [makeBuffer_indices, List.length_map]; exact l1

/-- The vertices of a sphere buffer of level 0, or of level 1 and non-zero
size, are at distance `size` from its position. -/
theorem sphereBuffer_distSq (hsqrt : ∀ x : F, 0 ≤ x → MathFns.sqrt x * MathFns.sqrt x = x)
    (position : Vertex F) (size : F) (level : Int)
    (hl : level = 0 ∨ (level = 1 ∧ size ≠ 0))
    (sb : GeometryBuffer F) (h : sphereBuffer position size level = some sb) :
    ∀ cv ∈ sb.vertices,
      distSq ⟨cv.position.x, cv.position.y, cv.position.z⟩ position = size * size := by
  obtain ⟨vs, is, e, _, _, _, _, _, hp⟩ := sphereBuffer_geometry position size level sb h
  intro cv hcv
  have hm : cv.position ∈ vs.map ToGlm := by
    rw [← hp]
    exact List.mem_map_of_mem _ hcv
  obtain ⟨v, hv, hv2⟩ := List.mem_map.1 hm
  have hd : distSq v position = size * size := by
    rcases hl with rfl | ⟨rfl, hs⟩
    · exact level0_distSq hsqrt position size vs is e v hv
    · exact level1_distSq hsqrt position size hs vs is e v hv
  rw [← hv2]
  exact hd

end

section
variable {F : Type} [LinearOrderedField F] [MathFns F]

omit [LinearOrderedField F] [MathFns F] in
theorem setBuffers_setBuffers (r : Renderer F) (type : Geometry)
    (l1 l2 : List (GeometryBuffer F)) :
    (r.setBuffers type l1).setBuffers type l2 = r.setBuffers type l2 := by
  simp [Renderer.setBuffers]

theorem AddSphere_eq (r : Renderer F) (position : Vertex F) (size : F) (level : Int) :
    ∃ b, sphereBuffer position size level = some b ∧
      r.AddSphere position size level =
        some (r.setBuffers SphereGeometry (r.m_buffers SphereGeometry ++ [b])) := by
  obtain ⟨vs, is, e, _⟩ := GenerateSphereMesh_spec position size level
  refine ⟨makeBuffer SphereColor vs is 0 true, by simp [sphereBuffer, e], ?_⟩
  simp [Renderer.AddSphere, e, InsertBuffer]

theorem addPathSpheres_eq :
    ∀ (path : List (Vertex F)) (r : Renderer F),
      ∃ spheres : List (GeometryBuffer F),
        path.map (fun p => sphereBuffer p (3 / 2) 1) = spheres.map some ∧
        addPathSpheres r path =
          some (r.setBuffers SphereGeometry (r.m_buffers SphereGeometry ++ spheres))
  | [], r => ⟨[], rfl, by simp [addPathSpheres, Renderer.setBuffers]⟩
  | p :: rest, r => by
    obtain ⟨b, hb, e1⟩ := AddSphere_eq r p (3 / 2) 1
    obtain ⟨spheres, hs, e2⟩ := addPathSpheres_eq rest
      (r.setBuffers SphereGeometry (r.m_buffers SphereGeometry ++ [b]))
    refine ⟨b :: spheres, by simp [hb, hs], ?_⟩
    simp only [addPathSpheres, e1, Option.bind_eq_bind, Option.some_bind, e2]
    simp [Renderer.setBuffers]

omit [LinearOrderedField F] [MathFns F] in
theorem pathLines_vertices :
    ∀ (path : List (Vertex F)) (i j : Nat), j + 1 < path.length →
      (pathLines path i).1[2 * j]? = path[j]? ∧ (pathLines path i).1[2 * j + 1]? = path[j + 1]?
  | [], i, j, h => by simp at h
  | [_], i, j, h => by simp at h
  | a :: b :: rest, i, 0, h => by simp [pathLines]
  | a :: b :: rest, i, j + 1, h => by
    obtain ⟨h1, h2⟩ := pathLines_vertices (b :: rest) (i + 1) j (by simpa using h)
    have e1 : 2 * (j + 1) = 2 * j + 1 + 1 := by ring
    have e2 : 2 * (j + 1) + 1 = 2 * j + 1 + 1 + 1 := by ring
    constructor
    · rw [e1]
      simpa [pathLines] using h1
    · rw [e2]
      simpa [pathLines] using h2

omit [LinearOrderedField F] [MathFns F] in
theorem pathLines_indices :
    ∀ (path : List (Vertex F)) (i k : Nat), k < 2 * (path.length - 1) →
      (pathLines path i).2[k]? = some ((i * 2 + k : Nat) : Int)
  | [], i, k, h => by simp at h
  | [_], i, k, h => by simp at h
  | a :: b :: rest, i, 0, h => by simp [pathLines]
  | a :: b :: rest, i, 1, h => by simp [pathLines]
  | a :: b :: rest, i, k + 2, h => by
    have := pathLines_indices (b :: rest) (i + 1) k (by simp at h ⊢; omega)
    simp only [pathLines, List.getElem?_cons_succ]
    rw [this]
    congr 2
    ring

/-- C17: `AddPath` leaves the pool unchanged for fewer than 2 waypoints; for
`n ≥ 2` waypoints it appends `n` buffers to the sphere category, the
subdivision-1 sphere of size 1.5 at each waypoint in order, and one buffer to
the line category whose vertex positions are `path[0], path[1], path[1],
path[2], ..., path[n-2], path[n-1]` (length `2(n-1)`) and whose indices are
`0, 1, ..., 2(n-1) - 1`; nothing else in the pool changes.  The sphere at
waypoint `p` is the buffer `AddSphere(p, 1.5, 1)` builds: it has 72 vertices
and 240 indices (80 triangles), all indices below 72, and, in exact arithmetic
(where `sqrt` is a square root), every vertex at distance 1.5 from `p`. -/
theorem addPath_effect (r : Renderer F) (path : List (Vertex F)) :
    (path.length < 2 → r.AddPath path = some r) ∧
    (2 ≤ path.length →
      ∃ (spheres : List (GeometryBuffer F)) (lineBuf : GeometryBuffer F),
        r.AddPath path =
          some ((r.setBuffers SphereGeometry (r.m_buffers SphereGeometry ++ spheres)).setBuffers
            LineGeometry (r.m_buffers LineGeometry ++ [lineBuf])) ∧
        spheres.length = path.length ∧
        path.map (fun p => sphereBuffer p (3 / 2) 1) = spheres.map some ∧
        lineBuf.vertices.length = 2 * (path.length - 1) ∧
        (∀ j, j + 1 < path.length →
          (lineBuf.vertices.map (fun x => x.position))[2 * j]? = (path.map ToGlm)[j]? ∧
          (lineBuf.vertices.map (fun x => x.position))[2 * j + 1]? =
            (path.map ToGlm)[j + 1]?) ∧
        lineBuf.indices =
          (List.range (2 * (path.length - 1))).map (fun k : Nat => toUnsigned (k : Int)) ∧
        (2 * (path.length - 1) ≤ 4294967296 →
          lineBuf.indices = List.range (2 * (path.length - 1))) ∧
        (∀ (j : Nat) (p : Vertex F) (sb : GeometryBuffer F),
            path[j]? = some p → spheres[j]? = some sb →
          sphereBuffer p (3 / 2) 1 = some sb ∧
          sb.vertices.length = 72 ∧ sb.indices.length = 240 ∧ sb.IndexInvariant ∧
          ((∀ x : F, 0 ≤ x → MathFns.sqrt x * MathFns.sqrt x = x) →
            ∀ cv ∈ sb.vertices,
              distSq ⟨cv.position.x, cv.position.y, cv.position.z⟩ p = 3 / 2 * (3 / 2)))) := by
  constructor
  · intro h
    simp [Renderer.AddPath, h]
  · intro h
    obtain ⟨spheres, hs, e⟩ := addPathSpheres_eq path r
    obtain ⟨l1, l2, _⟩ := pathLines_spec path 0
    have hidx : (makeBuffer LineColor (pathLines path 0).1 (pathLines path 0).2 0 false).indices =
        (List.range (2 * (path.length - 1))).map (fun k : Nat => toUnsigned (k : Int)) := by
      rw [makeBuffer_indices]
      apply List.ext_getElem?
      intro k
      by_cases hk : k < 2 * (path.length - 1)
      · simp only [List.getElem?_map, pathLines_indices path 0 k hk, Option.map_some',
          List.getElem?_range hk]
        simp
      · rw [List.getElem?_eq_none (by simp [l2]; omega),
          List.getElem?_eq_none (by simp; omega)]
    refine ⟨spheres, makeBuffer LineColor (pathLines path 0).1 (pathLines path 0).2 0 false,
      ?_, ?_, hs, ?_, ?_, hidx, ?_, ?_⟩
    · have hlt : ¬ path.length < 2 := by omega
      simp only [Renderer.AddPath, hlt, if_false, e, Option.bind_eq_bind, Option.some_bind,
        Option.pure_def, Renderer.AddLines, InsertBuffer]
      simp [Renderer.setBuffers]
    · have := congrArg List.length hs
      simpa using this.symm
    · rw [makeBuffer_vertices_length, l1]
    · intro j hj
      rw [(makeBuffer_positions _ _ _ _ _).1]
      obtain ⟨a, b⟩ := pathLines_vertices path 0 j hj
      simp [List.getElem?_map, a, b]
    · intro hle
      rw [hidx]
      apply List.ext_getElem?
      intro k
      by_cases hk : k < 2 * (path.length - 1)
      · simp only [List.getElem?_map, List.getElem?_range hk, Option.map_some',
          Option.some.injEq]
        unfold toUnsigned
        omega
      · rw [List.getElem?_eq_none (by simp; omega), List.getElem?_eq_none (by simp; omega)]
    · intro j p sb hp hsb
      have hj := congrArg (fun l => l[j]?) hs
      simp only [List.getElem?_map, hp, hsb, Option.map_some'] at hj
      have hsph : sphereBuffer p (3 / 2) 1 = some sb := Option.some.inj hj
      obtain ⟨vs, is, _, _, l1, l2, hinv, _, _⟩ := sphereBuffer_geometry p (3 / 2) 1 sb hsph
      have h1 : (1 : Int).toNat = 1 := rfl
      rw [h1] at l1 l2
      refine ⟨hsph, by omega, by omega, hinv, fun hsqrt => ?_⟩
      exact sphereBuffer_distSq hsqrt p (3 / 2) 1 (Or.inr ⟨rfl, by norm_num⟩) sb hsph

end

/-- C17 (witness): a path of two waypoints, over the reals. -/
theorem addPath_effect_witness :
    (2 ≤ [(⟨0, 0, 0⟩ : Vertex ℝ), ⟨1, 0, 0⟩].length ∧
      2 * ([(⟨0, 0, 0⟩ : Vertex ℝ), ⟨1, 0, 0⟩].length - 1) ≤ 4294967296) ∧
    ∃ (spheres : List (GeometryBuffer ℝ)) (lineBuf : GeometryBuffer ℝ),
      (Renderer.new : Renderer ℝ).AddPath [⟨0, 0, 0⟩, ⟨1, 0, 0⟩] =
        some (((Renderer.new : Renderer ℝ).setBuffers SphereGeometry
          ((Renderer.new : Renderer ℝ).m_buffers SphereGeometry ++ spheres)).setBuffers
            LineGeometry ((Renderer.new : Renderer ℝ).m_buffers LineGeometry ++ [lineBuf])) ∧
      spheres.length = 2 ∧ lineBuf.vertices.length = 2 ∧ lineBuf.indices = [0, 1] ∧
      ∀ sb, spheres[1]? = some sb → sb.vertices.length = 72 ∧ sb.indices.length = 240 ∧
        ∀ cv ∈ sb.vertices,
          distSq ⟨cv.position.x, cv.position.y, cv.position.z⟩ (⟨1, 0, 0⟩ : Vertex ℝ) =
            3 / 2 * (3 / 2) := by
  refine ⟨⟨by simp, by simp⟩, ?_⟩
  obtain ⟨spheres, lineBuf, h1, h2, _, h4, _, _, h7, h8⟩ :=
    (addPath_effect (Renderer.new : Renderer ℝ) [⟨0, 0, 0⟩, ⟨1, 0, 0⟩]).2 (by simp)
  refine ⟨spheres, lineBuf, h1, by simpa using h2, by simpa using h4, ?_, ?_⟩
  · have := h7 (by simp)
    simpa [List.range, List.range.loop] using this
  · intro sb hsb
    obtain ⟨_, a, b, _, c⟩ := h8 1 ⟨1, 0, 0⟩ sb (by simp) hsb
    exact ⟨a, b, c (fun x hx => Real.mul_self_sqrt hx)⟩

namespace Camera

section
variable {F : Type} [LinearOrderedField F]

/-- C18: `ProjectPoint` returns the zero vector when the clip-space `w` of
`projection * view * (worldPos, 1)` is exactly zero; otherwise, with
`ndc = clip.xyz / clip.w`, it returns `((ndc.x + 1) / 2 * viewportWidth +
viewportX, (1 - ndc.y) / 2 * viewportHeight + viewportY, (ndc.z + 1) / 2)`;
so NDC `y = +1` maps to the top of the viewport (`viewportY`) and every NDC
`z` in `[-1, 1]` maps to a depth in `[0, 1]`. -/
theorem projectPoint_formula (c : Camera F) (worldPos : Vec3 F) :
    ((c.clipPos worldPos).w = 0 → c.ProjectPoint worldPos = ⟨0, 0, 0⟩) ∧
    ((c.clipPos worldPos).w ≠ 0 →
      c.ProjectPoint worldPos =
        ⟨((c.clipPos worldPos).x / (c.clipPos worldPos).w + 1) / 2 * c.m_viewportWidth +
            c.m_viewportX,
         (1 - (c.clipPos worldPos).y / (c.clipPos worldPos).w) / 2 * c.m_viewportHeight +
            c.m_viewportY,
         ((c.clipPos worldPos).z / (c.clipPos worldPos).w + 1) / 2⟩ ∧
      ((c.clipPos worldPos).y / (c.clipPos worldPos).w = 1 →
        (c.ProjectPoint worldPos).y = c.m_viewportY) ∧
      (-1 ≤ (c.clipPos worldPos).z / (c.clipPos worldPos).w →
        (c.clipPos worldPos).z / (c.clipPos worldPos).w ≤ 1 →
        0 ≤ (c.ProjectPoint worldPos).z ∧ (c.ProjectPoint worldPos).z ≤ 1)) := by
  constructor
  · intro h
    have h2 : (glm.mulVec (glm.mulMat c.m_projMatrix c.m_viewMatrix)
        (glm.vec4 worldPos 1)).w = 0 := h
    simp [ProjectPoint, h2]
  · intro h
    have h2 : ¬ (glm.mulVec (glm.mulMat c.m_projMatrix c.m_viewMatrix)
        (glm.vec4 worldPos 1)).w = 0 := h
    have e : c.ProjectPoint worldPos =
        ⟨((c.clipPos worldPos).x / (c.clipPos worldPos).w + 1) / 2 * c.m_viewportWidth +
            c.m_viewportX,
         (1 - (c.clipPos worldPos).y / (c.clipPos worldPos).w) / 2 * c.m_viewportHeight +
            c.m_viewportY,
         ((c.clipPos worldPos).z / (c.clipPos worldPos).w + 1) / 2⟩ := by
      unfold ProjectPoint
      simp only [h2, if_false, glm.divs, glm.vec3, clipPos, Vec3.mk.injEq]
      refine ⟨?_, ?_, ?_⟩ <;> ring
    refine ⟨e, ?_, ?_⟩
    · intro hy
      rw [e]
      simp [hy]
    · intro h1 h3
      rw [e]
      constructor
      · show 0 ≤ ((c.clipPos worldPos).z / (c.clipPos worldPos).w + 1) / 2
        linarith
      · show ((c.clipPos worldPos).z / (c.clipPos worldPos).w + 1) / 2 ≤ 1
        linarith

end

theorem clipPos_default (p : Vec3 ℝ) :
    ((Camera.new : Camera ℝ).clipPos p).w = -p.z ∧
    ((Camera.new : Camera ℝ).clipPos p).y = 1 / Real.tan (Real.pi / 8) * p.y := by
  constructor <;>
  simp [clipPos, Camera.new, UpdateProjection, UpdateViewMatrix, lookAt_default,
    glm.perspective, glm.mulVec, glm.mulMat, glm.vec4, glm.add4, glm.scale4, glm.mat4One,
    halfFov, MathFns.tan]

/-- C18 (witness): for the freshly constructed camera the origin has clip-space
`w = 0` and projects to the zero vector; the point `(0, tan(pi/8), -1)` has
`w = 1` and NDC `y = 1`, and projects to screen `y = 0`, the top of the
viewport. -/
theorem projectPoint_formula_witness :
    (((Camera.new : Camera ℝ).clipPos ⟨0, 0, 0⟩).w = 0 ∧
      (Camera.new : Camera ℝ).ProjectPoint ⟨0, 0, 0⟩ = ⟨0, 0, 0⟩) ∧
    (((Camera.new : Camera ℝ).clipPos ⟨0, Real.tan (Real.pi / 8), -1⟩).w ≠ 0 ∧
      ((Camera.new : Camera ℝ).clipPos ⟨0, Real.tan (Real.pi / 8), -1⟩).y /
        ((Camera.new : Camera ℝ).clipPos ⟨0, Real.tan (Real.pi / 8), -1⟩).w = 1 ∧
      ((Camera.new : Camera ℝ).ProjectPoint ⟨0, Real.tan (Real.pi / 8), -1⟩).y =
        (Camera.new : Camera ℝ).m_viewportY) := by
  have hT := tanHalfFov_pos
  have h0 : ((Camera.new : Camera ℝ).clipPos ⟨0, 0, 0⟩).w = 0 := by
    rw [(clipPos_default _).1]; simp
  have h1 : ((Camera.new : Camera ℝ).clipPos ⟨0, Real.tan (Real.pi / 8), -1⟩).w ≠ 0 := by
    rw [(clipPos_default _).1]; simp
  have h2 : ((Camera.new : Camera ℝ).clipPos ⟨0, Real.tan (Real.pi / 8), -1⟩).y /
      ((Camera.new : Camera ℝ).clipPos ⟨0, Real.tan (Real.pi / 8), -1⟩).w = 1 := by
    rw [(clipPos_default _).1, (clipPos_default _).2]
    field_simp
  exact ⟨⟨h0, (projectPoint_formula _ _).1 h0⟩,
    ⟨h1, h2, ((projectPoint_formula _ _).2 h1).2.1 h2⟩⟩

end Camera

theorem foldl_firstOccurrences {α : Type} [DecidableEq α] :
    ∀ (l acc : List α), acc.Nodup →
      (l.foldl (fun acc v => if v ∈ acc then acc else acc ++ [v]) acc).Nodup ∧
      ∀ v, v ∈ l.foldl (fun acc v => if v ∈ acc then acc else acc ++ [v]) acc ↔
        v ∈ acc ∨ v ∈ l
  | [], acc, h => ⟨h, by simp⟩
  | a :: l, acc, h => by
    simp only [List.foldl_cons]
    by_cases ha : a ∈ acc
    · simp only [ha, if_true]
      obtain ⟨h1, h2⟩ := foldl_firstOccurrences l acc h
      refine ⟨h1, fun v => ?_⟩
      rw [h2 v]
      constructor
      · rintro (h | h)
        · exact Or.inl h
        · exact Or.inr (List.mem_cons_of_mem _ h)
      · rintro (h | h)
        · exact Or.inl h
        · rcases List.mem_cons.1 h with rfl | h
          · exact Or.inl ha
          · exact Or.inr h
    · simp only [ha, if_false]
      have hnd : (acc ++ [a]).Nodup := by
        rw [List.nodup_append]
        refine ⟨h, by simp, ?_⟩
        intro x hx hx2
        simp at hx2
        subst hx2
        exact ha hx
      obtain ⟨h1, h2⟩ := foldl_firstOccurrences l (acc ++ [a]) hnd
      refine ⟨h1, fun v => ?_⟩
      rw [h2 v]
      simp only [List.mem_append, List.mem_singleton, List.mem_cons]
      tauto

theorem firstOccurrences_card {α : Type} [DecidableEq α] (l : List α) :
    (firstOccurrences l).length = l.toFinset.card := by
  obtain ⟨h1, h2⟩ := foldl_firstOccurrences l [] List.nodup_nil
  unfold firstOccurrences
  rw [← List.toFinset_card_of_nodup h1]
  congr 1
  ext v
  simp only [List.mem_toFinset]
  have := h2 v
  simpa using this

theorem firstOccurrences_snoc {α : Type} [DecidableEq α] (l : List α) (v : α) :
    firstOccurrences (l ++ [v]) =
      if v ∈ firstOccurrences l then firstOccurrences l else firstOccurrences l ++ [v] := by
  simp [firstOccurrences, List.foldl_append]

namespace DetourDebugDraw

section
variable {F : Type} [LinearOrderedField F]

theorem batch_vertices_eq (dd0 : DetourDebugDraw F) (prim : duDebugDrawPrimitives) (size : F)
    (calls : List (Vertex F × Nat)) :
    (batch dd0 prim size calls).m_vertices = firstOccurrences (calls.map Prod.fst) := by
  induction calls using List.reverseRecOn with
  | nil => simp [batch, begin, firstOccurrences]
  | append_singleton cs c ih =>
    obtain ⟨_, hmap, _, _, _⟩ := batch_invariant dd0 prim size cs
    rw [batch_snoc, List.map_append, List.map_singleton, firstOccurrences_snoc, ← ih]
    generalize batch dd0 prim size cs = dd at *
    have hc : (⟨c.1.X, c.1.Y, c.1.Z⟩ : Vertex F) = c.1 := by cases c.1; rfl
    simp only [vertex, hc]
    cases hf : find dd.m_uniqueVertices c.1 with
    | some idx =>
      obtain ⟨k, _, hk⟩ := (hmap c.1 idx).1 hf
      have hmem : c.1 ∈ dd.m_vertices := List.getElem?_mem hk
      simp [hmem]
    | none =>
      have hnotin : c.1 ∉ dd.m_vertices := by
        intro hmem
        obtain ⟨k, hk, hkv⟩ := List.getElem_of_mem hmem
        have := (hmap c.1 (k : Int)).2 ⟨k, rfl, by rw [List.getElem?_eq_getElem hk, hkv]⟩
        rw [hf] at this
        exact absurd this (by simp)
      simp [hnotin]

end

section
variable {F : Type} [LinearOrderedField F] [MathFns F]

theorem addPointSpheres_eq (size : F) :
    ∀ (vs : List (Vertex F)) (r : Renderer F),
      ∃ spheres : List (GeometryBuffer F),
        vs.map (fun p => sphereBuffer p (size * (1 / 2)) 0) = spheres.map some ∧
        addPointSpheres size r vs =
          some (r.setBuffers SphereGeometry (r.m_buffers SphereGeometry ++ spheres))
  | [], r => ⟨[], rfl, by simp [addPointSpheres, Renderer.setBuffers]⟩
  | p :: rest, r => by
    obtain ⟨b, hb, e1⟩ := AddSphere_eq r p (size * (1 / 2)) 0
    obtain ⟨spheres, hs, e2⟩ := addPointSpheres_eq size rest
      (r.setBuffers SphereGeometry (r.m_buffers SphereGeometry ++ [b]))
    refine ⟨b :: spheres, by simp only [List.map_cons, hb, hs], ?_⟩
    simp only [addPointSpheres, e1, Option.bind_eq_bind, Option.some_bind, e2]
    simp [Renderer.setBuffers]

theorem sphereBuffer_level0 (p : Vertex F) (radius : F) (b : GeometryBuffer F)
    (h : sphereBuffer p radius 0 = some b) :
    b.vertices.length = 12 ∧ b.indices.length = 60 := by
  obtain ⟨vs, is, e, l1, l2, _⟩ := GenerateSphereMesh_spec p radius 0
  simp only [sphereBuffer, e, Option.map_some', Option.some.injEq] at h
  subst h
  rw [makeBuffer_vertices_length, makeBuffer_indices]
  simp at l1 l2 ⊢
  omega

/-- C19: for a points batch with at least one vertex call, `end` appends to the
sphere category one buffer per distinct position of the batch, in
first-occurrence order: the subdivision-level-0 sphere (12 vertices, 60
indices) of radius `size / 2` centred on that position; nothing else in the
pool changes.  The sphere at position `p` is the buffer
`AddSphere(p, size * 0.5, 0)` builds: all its indices are below 12 and, in
exact arithmetic (where `sqrt` is a square root), every vertex is at distance
`size / 2` from `p`. -/
theorem points_batch_spheres (IgnoreLineSize : F) (dd0 : DetourDebugDraw F) (size : F)
    (calls : List (Vertex F × Nat)) (r : Renderer F) (hne : 0 < calls.length) :
    ∃ spheres : List (GeometryBuffer F),
      end_ IgnoreLineSize (batch dd0 DU_DRAW_POINTS size calls) r =
        some (r.setBuffers SphereGeometry (r.m_buffers SphereGeometry ++ spheres)) ∧
      (firstOccurrences (calls.map Prod.fst)).map (fun p => sphereBuffer p (size / 2) 0) =
        spheres.map some ∧
      spheres.length = (calls.map Prod.fst).toFinset.card ∧
      (∀ b ∈ spheres, b.vertices.length = 12 ∧ b.indices.length = 60) ∧
      (∀ (j : Nat) (p : Vertex F) (sb : GeometryBuffer F),
        (firstOccurrences (calls.map Prod.fst))[j]? = some p → spheres[j]? = some sb →
        sphereBuffer p (size / 2) 0 = some sb ∧ sb.IndexInvariant ∧
        ((∀ x : F, 0 ≤ x → MathFns.sqrt x * MathFns.sqrt x = x) →
          ∀ cv ∈ sb.vertices,
            distSq ⟨cv.position.x, cv.position.y, cv.position.z⟩ p =
              size / 2 * (size / 2))) := by
  obtain ⟨ht, hs, _⟩ := batch_header dd0 DU_DRAW_POINTS size calls
  have hne2 := batch_vertices_ne_nil dd0 DU_DRAW_POINTS size calls hne
  have hv := batch_vertices_eq dd0 DU_DRAW_POINTS size calls
  obtain ⟨spheres, hsp, e⟩ := addPointSpheres_eq size
    (batch dd0 DU_DRAW_POINTS size calls).m_vertices r
  have hhalf : size * (1 / 2) = size / 2 := by ring
  rw [hv, hhalf] at hsp
  refine ⟨spheres, ?_, hsp, ?_, ?_, ?_⟩
  · unfold end_
    rw [if_neg (by rw [ht]; simp), if_neg (by simp [hne2])]
    simp only [ht, hs]
    exact e
  · have := congrArg List.length hsp
    simp only [List.length_map] at this
    rw [← this, firstOccurrences_card]
  · intro b hb
    have hmem : some b ∈ spheres.map some := List.mem_map_of_mem _ hb
    rw [← hsp] at hmem
    obtain ⟨p, _, hp⟩ := List.mem_map.1 hmem
    exact sphereBuffer_level0 p (size / 2) b hp
  · intro j p sb hp hsb
    have hj := congrArg (fun l => l[j]?) hsp
    simp only [List.getElem?_map, hp, hsb, Option.map_some'] at hj
    have hsph : sphereBuffer p (size / 2) 0 = some sb := Option.some.inj hj
    obtain ⟨vs, is, _, _, _, _, hinv, _, _⟩ := sphereBuffer_geometry p (size / 2) 0 sb hsph
    exact ⟨hsph, hinv, fun hsqrt =>
      sphereBuffer_distSq hsqrt p (size / 2) 0 (Or.inl rfl) sb hsph⟩

end

/-- C19 (witness): three point calls at two distinct positions, over the
reals, with size 1. -/
theorem points_batch_spheres_witness :
    0 < [((⟨0, 0, 0⟩ : Vertex ℝ), 1), (⟨1, 0, 0⟩, 1), (⟨0, 0, 0⟩, 2)].length ∧
    ∃ spheres : List (GeometryBuffer ℝ),
      end_ (3 / 2) (batch (DetourDebugDraw.new : DetourDebugDraw ℝ) DU_DRAW_POINTS 1
          [(⟨0, 0, 0⟩, 1), (⟨1, 0, 0⟩, 1), (⟨0, 0, 0⟩, 2)]) Renderer.new =
        some ((Renderer.new : Renderer ℝ).setBuffers SphereGeometry
          ((Renderer.new : Renderer ℝ).m_buffers SphereGeometry ++ spheres)) ∧
      spheres.length = 2 ∧
      ∀ sb, spheres[1]? = some sb → sb.vertices.length = 12 ∧ sb.indices.length = 60 ∧
        ∀ cv ∈ sb.vertices,
          distSq ⟨cv.position.x, cv.position.y, cv.position.z⟩ (⟨1, 0, 0⟩ : Vertex ℝ) =
            1 / 2 * (1 / 2) := by
  refine ⟨by simp, ?_⟩
  obtain ⟨spheres, h1, h2, _, h4, h5⟩ := points_batch_spheres (3 / 2 : ℝ)
    (DetourDebugDraw.new : DetourDebugDraw ℝ) 1
    [(⟨0, 0, 0⟩, 1), (⟨1, 0, 0⟩, 1), (⟨0, 0, 0⟩, 2)] Renderer.new (by simp)
  refine ⟨spheres, h1, ?_, ?_⟩
  · have := congrArg List.length h2
    simp [firstOccurrences] at this
    exact this.symm
  · intro sb hsb
    obtain ⟨a, b⟩ := h4 sb (List.getElem?_mem hsb)
    obtain ⟨_, _, c⟩ := h5 1 ⟨1, 0, 0⟩ sb (by simp [firstOccurrences]) hsb
    exact ⟨a, b, c (fun x hx => Real.mul_self_sqrt hx)⟩

end DetourDebugDraw

section
variable {F : Type} [LinearOrderedField F] [MathFns F]

theorem lastFaceNormal_short (positions : List (Vec3 F)) (is : List Nat) (k : Nat)
    (h : is.length < 3) : lastFaceNormal positions is k = none := by
  match is, h with
  | [], _ => rfl
  | [_], _ => rfl
  | [_, _], _ => rfl

theorem lastFaceNormal_cons_none (positions : List (Vec3 F)) (i0 i1 i2 : Nat)
    (rest : List Nat) (k : Nat) (h : faceNormal positions (i0, i1, i2) = none) :
    lastFaceNormal positions (i0 :: i1 :: i2 :: rest) k = lastFaceNormal positions rest k := by
  unfold lastFaceNormal
  simp only [indexTriples, List.filter_cons]
  split
  · simp [List.filterMap_cons, h]
  · rfl

theorem lastFaceNormal_cons_some (positions : List (Vec3 F)) (i0 i1 i2 : Nat)
    (rest : List Nat) (k : Nat) (N : Vec3 F) (h : faceNormal positions (i0, i1, i2) = some N) :
    lastFaceNormal positions (i0 :: i1 :: i2 :: rest) k =
      if k = i0 ∨ k = i1 ∨ k = i2 then some ((lastFaceNormal positions rest k).getD N)
      else lastFaceNormal positions rest k := by
  unfold lastFaceNormal
  simp only [indexTriples, List.filter_cons, references]
  by_cases hk : k = i0 ∨ k = i1 ∨ k = i2
  · simp only [hk, decide_True, if_true, List.filterMap_cons, h, List.getLast?_cons]
  · simp only [hk, decide_False, if_false, Bool.false_eq_true]

theorem generateNormals_get :
    ∀ (is : List Nat) (vs : List (ColoredVertex F)) (k : Nat),
      (generateNormals is vs)[k]? =
        (vs[k]?).map (fun a => { a with normal :=
          (lastFaceNormal (vs.map (fun x => x.position)) is k).getD a.normal })
  | [], vs, k => by
    simp only [generateNormals, lastFaceNormal_short _ [] k (by simp), Option.getD_none]
    cases vs[k]? <;> simp
  | [a], vs, k => by
    simp only [generateNormals, lastFaceNormal_short _ [a] k (by simp), Option.getD_none]
    cases vs[k]? <;> simp
  | [a, b], vs, k => by
    simp only [generateNormals, lastFaceNormal_short _ [a, b] k (by simp), Option.getD_none]
    cases vs[k]? <;> simp
  | i0 :: i1 :: i2 :: rest, vs, k => by
    rw [generateNormals]
    split
    · rename_i c0 c1 c2 e0 e1 e2
      simp only []
      have hN : faceNormal (vs.map (fun x => x.position)) (i0, i1, i2) =
          some (glm.normalize (glm.cross (glm.sub c1.position c0.position)
            (glm.sub c2.position c0.position))) := by
        simp [faceNormal, List.getElem?_map, e0, e1, e2]
      rw [generateNormals_get rest, modify_normal_position, modify_normal_position,
        modify_normal_position, lastFaceNormal_cons_some _ _ _ _ _ _ _ hN]
      simp only [List.getElem?_modify]
      cases vs[k]? with
      | none => simp
      | some a =>
        simp only [Option.map_some', Option.some.injEq]
        by_cases h0 : i0 = k <;> by_cases h1 : i1 = k <;> by_cases h2 : i2 = k <;>
          simp [h0, h1, h2, eq_comm]
    · rename_i hno
      have hN : faceNormal (vs.map (fun x => x.position)) (i0, i1, i2) = none := by
        cases e0 : vs[i0]? with
        | none => simp [faceNormal, List.getElem?_map, e0]
        | some c0 =>
          cases e1 : vs[i1]? with
          | none => simp [faceNormal, List.getElem?_map, e0, e1]
          | some c1 =>
            cases e2 : vs[i2]? with
            | none => simp [faceNormal, List.getElem?_map, e0, e1, e2]
            | some c2 => exact absurd e2 (hno c0 c1 c2 e0 e1)
      rw [generateNormals_get rest, lastFaceNormal_cons_none _ _ _ _ _ _ hN]

/-- C20: after `InsertBuffer` with `genNormals` set, the normal of every vertex
`k` of the new buffer is the face normal `normalize(cross(p1 - p0, p2 - p0))`
of the last complete index triple, all of whose indices are in range, that
references `k`, and the default `(0, 0, 1)` if there is none (in particular
with fewer than 3 indices); out-of-range triples and trailing indices change
no normal.  With `genNormals` unset every normal is `(0, 0, 1)`.  The buffer
has one vertex per input vertex. -/
theorem normals_last_triangle (color : Vec4 F) (vertices : List (Vertex F))
    (indices : List Int) (userParam : Nat) :
    (makeBuffer color vertices indices userParam true).vertices.length = vertices.length ∧
    (∀ k cv, (makeBuffer color vertices indices userParam true).vertices[k]? = some cv →
      cv.normal =
        (lastFaceNormal (vertices.map ToGlm) (indices.map toUnsigned) k).getD ⟨0, 0, 1⟩) ∧
    (∀ cv ∈ (makeBuffer color vertices indices userParam false).vertices,
      cv.normal = ⟨0, 0, 1⟩) := by
  refine ⟨makeBuffer_vertices_length _ _ _ _ _, ?_, ?_⟩
  · intro k cv h
    unfold makeBuffer at h
    simp only [] at h
    split at h
    · rw [generateNormals_get] at h
      simp only [List.map_map, List.getElem?_map, Option.map_map] at h
      cases hv : vertices[k]? with
      | none => simp [hv] at h
      | some v =>
        simp only [hv, Option.map_some', Function.comp_apply, Option.some.injEq] at h
        subst h
        have : ((fun x : ColoredVertex F => x.position) ∘
            fun v => ({ position := ToGlm v, normal := ⟨0, 0, 1⟩, color := color } :
              ColoredVertex F)) = ToGlm := rfl
        simp only [this]
    · rename_i hshort
      have hlen : (indices.map toUnsigned).length < 3 := by
        simp only [true_and, ge_iff_le, not_le] at hshort
        exact hshort
      rw [lastFaceNormal_short _ _ _ hlen]
      simp only [List.getElem?_map] at h
      cases hv : vertices[k]? with
      | none => simp [hv] at h
      | some v =>
        simp only [hv, Option.map_some', Option.some.injEq] at h
        subst h
        rfl
  · intro cv hcv
    simp [makeBuffer] at hcv
    obtain ⟨_, _, rfl⟩ := hcv
    rfl

end

/-- C20 (witness): two triangles sharing the vertices 1 and 2; vertex 0 keeps
the normal of the first triangle, vertex 1 gets the normal of the second, and
vertex 4, referenced only by an out-of-range triple and by trailing indices,
keeps the default. -/
theorem normals_last_triangle_witness :
    (∃ cv, (makeBuffer (TerrainColor : Vec4 ℝ)
        [⟨0, 0, 0⟩, ⟨0, 1, 0⟩, ⟨0, 0, 1⟩, ⟨1, 0, 0⟩, ⟨5, 5, 5⟩]
        [0, 1, 2, 1, 2, 3, 4, 4, 9, 4, 4] 0 true).vertices[0]? = some cv ∧
      cv.normal = glm.normalize ⟨1, 0, 0⟩) ∧
    (∃ cv, (makeBuffer (TerrainColor : Vec4 ℝ)
        [⟨0, 0, 0⟩, ⟨0, 1, 0⟩, ⟨0, 0, 1⟩, ⟨1, 0, 0⟩, ⟨5, 5, 5⟩]
        [0, 1, 2, 1, 2, 3, 4, 4, 9, 4, 4] 0 true).vertices[1]? = some cv ∧
      cv.normal = glm.normalize ⟨1, 1, 1⟩) ∧
    (∃ cv, (makeBuffer (TerrainColor : Vec4 ℝ)
        [⟨0, 0, 0⟩, ⟨0, 1, 0⟩, ⟨0, 0, 1⟩, ⟨1, 0, 0⟩, ⟨5, 5, 5⟩]
        [0, 1, 2, 1, 2, 3, 4, 4, 9, 4, 4] 0 true).vertices[4]? = some cv ∧
      cv.normal = ⟨0, 0, 1⟩) := by
  obtain ⟨hlen, key, _⟩ := normals_last_triangle (TerrainColor : Vec4 ℝ)
    [⟨0, 0, 0⟩, ⟨0, 1, 0⟩, ⟨0, 0, 1⟩, ⟨1, 0, 0⟩, ⟨5, 5, 5⟩]
    [0, 1, 2, 1, 2, 3, 4, 4, 9, 4, 4] 0
  simp only [List.length_cons, List.length_nil] at hlen
  generalize makeBuffer (TerrainColor : Vec4 ℝ)
    [⟨0, 0, 0⟩, ⟨0, 1, 0⟩, ⟨0, 0, 1⟩, ⟨1, 0, 0⟩, ⟨5, 5, 5⟩]
    [0, 1, 2, 1, 2, 3, 4, 4, 9, 4, 4] 0 true = B at *
  have h0 : 0 < B.vertices.length := by omega
  have h1 : 1 < B.vertices.length := by omega
  have h4 : 4 < B.vertices.length := by omega
  refine ⟨⟨B.vertices[0], List.getElem?_eq_getElem h0, ?_⟩,
    ⟨B.vertices[1], List.getElem?_eq_getElem h1, ?_⟩,
    ⟨B.vertices[4], List.getElem?_eq_getElem h4, ?_⟩⟩
  · rw [key 0 _ (List.getElem?_eq_getElem h0)]
    simp [lastFaceNormal, indexTriples, references, faceNormal, List.filter, List.filterMap,
      toUnsigned, ToGlm, glm.sub, glm.cross]
  · rw [key 1 _ (List.getElem?_eq_getElem h1)]
    simp [lastFaceNormal, indexTriples, references, faceNormal, List.filter, List.filterMap,
      toUnsigned, ToGlm, glm.sub, glm.cross]
  · rw [key 4 _ (List.getElem?_eq_getElem h4)]
    simp [lastFaceNormal, indexTriples, references, faceNormal, List.filter, List.filterMap,
      toUnsigned, ToGlm]

section
variable {F : Type} [Add F] [Sub F] [Mul F] [Div F] [Neg F] [LT F]
  [DecidableRel (fun a b : F => a < b)] [IntCast F] [OfNat F 0] [OfNat F 1] [OfNat F 2]
  [OfNat F 100000] [OfNat F 340282346638528859811704183484516925440] [MathFns F]

/-- C21 (amended): `F` is any type with the operations of the hit test, no
law assumed.  For a pool whose selected buffers satisfy the index invariant,
let the hit sequence list the qualifying triangles (accepted by the
Moller-Trumbore test of the loop body, `t > 1e-5`) of the selected categories
for the pick ray of `HitTest`, in iteration order: categories by increasing
enumerator value, buffers in insertion order, triangles by position.  If an
entry `(b, t)` of the sequence has `t < FLT_MAX`, every earlier entry is
strictly farther and no later entry is nearer (so `(b, t)` is the first entry
of minimal distance, ties included), then `HitTest` reports a hit at distance
`t`, with position `rayOrigin + rayDir * t` and the `UserParameter` of `b`.
The entries of the sequence are exactly the qualifying triangles of the
selected buffers. -/
theorem hitTest_first_of_ties (r : Renderer F) (camera : Camera F) (x y : Int)
    (geometryFlags : Nat) (out : Vertex F) (param : Nat)
    (pre post : List (GeometryBuffer F × F)) (b : GeometryBuffer F) (t : F)
    (hwf : r.SelectedInvariant geometryFlags)
    (hseq : r.hitSequence (camera.GetPickRay x y).1 (camera.GetPickRay x y).2 geometryFlags =
      pre ++ (b, t) :: post)
    (hpre : ∀ h ∈ pre, t < h.2) (hpost : ∀ h ∈ post, ¬ h.2 < t) (hmax : t < FLT_MAX) :
    (∀ b2 t2,
      (b2, t2) ∈ r.hitSequence (camera.GetPickRay x y).1 (camera.GetPickRay x y).2
        geometryFlags ↔
      r.Qualifies (camera.GetPickRay x y).1 (camera.GetPickRay x y).2 geometryFlags b2 t2) ∧
    r.HitTest camera x y geometryFlags out param =
      some { closestDist := t, found := true,
             out := ⟨(camera.GetPickRay x y).1.x + (camera.GetPickRay x y).2.x * t,
               (camera.GetPickRay x y).1.y + (camera.GetPickRay x y).2.y * t,
               (camera.GetPickRay x y).1.z + (camera.GetPickRay x y).2.z * t⟩,
             param := b.UserParameter } := by
  have hH : r.HitTest camera x y geometryFlags out param =
      r.HitTestRay (camera.GetPickRay x y).1 (camera.GetPickRay x y).2 geometryFlags
        out param := rfl
  rw [hH]
  generalize (camera.GetPickRay x y).1 = rayOrigin at *
  generalize (camera.GetPickRay x y).2 = rayDir at *
  refine ⟨fun b2 t2 => mem_hitSequence_iff r rayOrigin rayDir geometryFlags b2 t2, ?_⟩
  obtain ⟨st, e⟩ := HitTestRay_isSome r rayOrigin rayDir geometryFlags out param hwf
  have hfold := HitTestRay_fold r rayOrigin rayDir geometryFlags out param st e
  have ht : t > 1 / 100000 :=
    hitSequence_gt r rayOrigin rayDir geometryFlags (b, t) (by rw [hseq]; simp)
  rw [hseq, recordHits_first_min rayOrigin rayDir pre post b t _ hpre hpost ht hmax] at hfold
  rw [e, hfold]

end

section
variable {F : Type} [Add F] [Sub F] [Mul F] [Div F] [Neg F] [LT F]
  [DecidableRel (fun a b : F => a < b)] [OfNat F 0] [OfNat F 1] [OfNat F 100000]

theorem hitSequence_terrain (r : Renderer F) (o d : Vec3 F) :
    r.hitSequence o d 1 = (r.m_buffers TerrainGeometry).flatMap (bufferHits o d) := by
  have hf : allGeometry.filter (flagSet 1) = [TerrainGeometry] := by decide
  rw [Renderer.hitSequence, hf]
  simp only [List.flatMap_cons, List.flatMap_nil, List.append_nil]

theorem bufferHits_rejected (o d : Vec3 F) (b : GeometryBuffer F) (p0 p1 p2 : Vec3 F)
    (hv : b.vertices.map (fun x => x.position) = [p0, p1, p2]) (hi : b.indices = [0, 1, 2])
    (hrt : rayTriangle o d p0 p1 p2 = none) :
    bufferHits o d b = [] := by
  rcases hb : b.vertices with _ | ⟨c0, _ | ⟨c1, _ | ⟨c2, _ | ⟨c3, l⟩⟩⟩⟩ <;>
    rw [hb] at hv <;> simp at hv
  obtain ⟨h0, h1, h2⟩ := hv
  subst h0 h1 h2
  simp only [bufferHits, hi, triangles, List.filterMap_cons, List.filterMap_nil, triangleHit,
    hb, List.getElem?_cons_zero, List.getElem?_cons_succ, Option.bind_eq_bind,
    Option.some_bind, hrt, Option.none_bind]

omit [Add F] [Sub F] [Mul F] [Div F] [Neg F] [LT F] [DecidableRel (fun a b : F => a < b)]
  [OfNat F 0] [OfNat F 1] [OfNat F 100000] in
theorem triangle_indexInvariant (b : GeometryBuffer F) (p0 p1 p2 : Vec3 F)
    (hv : b.vertices.map (fun x => x.position) = [p0, p1, p2]) (hi : b.indices = [0, 1, 2]) :
    b.IndexInvariant := by
  have hl : b.vertices.length = 3 := by
    have := congrArg List.length hv
    simpa using this
  intro i hm
  rw [hi] at hm
  simp at hm
  omega

omit [Add F] [Sub F] [Mul F] [Div F] [Neg F] [LT F] [DecidableRel (fun a b : F => a < b)]
  [OfNat F 0] [OfNat F 1] [OfNat F 100000] in
theorem terrain_selectedInvariant (r : Renderer F)
    (h : ∀ b ∈ r.m_buffers TerrainGeometry, b.IndexInvariant) : r.SelectedInvariant 1 := by
  intro g hg b hb
  rw [flagSet_one] at hg
  have hg2 : g = TerrainGeometry := of_decide_eq_true hg
  subst hg2
  exact h b hb

end

section
variable {F : Type} [Add F] [Sub F] [Mul F] [Div F] [Neg F] [LT F]
  [DecidableRel (fun a b : F => a < b)] [OfNat F 0] [OfNat F 1] [OfNat F 100000]
  [OfNat F 340282346638528859811704183484516925440]

/-- The scan with only the terrain category selected, as a fold over the hits
of the terrain buffers. -/
theorem HitTestRay_terrain (r : Renderer F) (o d : Vec3 F) (out : Vertex F) (param : Nat)
    (h : ∀ b ∈ r.m_buffers TerrainGeometry, b.IndexInvariant) :
    r.HitTestRay o d 1 out param =
      some (((r.m_buffers TerrainGeometry).flatMap (bufferHits o d)).foldl
        (fun s h => recordHit o d h.1 h.2 s)
        { closestDist := FLT_MAX, found := false, out := out, param := param }) := by
  obtain ⟨st, e⟩ := HitTestRay_isSome r o d 1 out param (terrain_selectedInvariant r h)
  have hfold := HitTestRay_fold r o d 1 out param st e
  rw [hitSequence_terrain] at hfold
  rw [e, hfold]

end

namespace XFloat

theorem lt_irreflexive (a : XFloat) : ¬ a < a := by
  show ¬ lt a a = true
  cases a <;> simp [lt]

theorem lt_transitive (a b c : XFloat) (h1 : a < b) (h2 : b < c) : a < c := by
  have h1 : lt a b = true := h1
  have h2 : lt b c = true := h2
  show lt a c = true
  cases a <;> cases b <;> cases c <;> simp [lt] at h1 h2 ⊢
  exact lt_trans h1 h2

theorem nan_not_lt (a : XFloat) : ¬ nan < a ∧ ¬ a < nan := by
  constructor
  · show ¬ lt nan a = true
    cases a <;> simp [lt]
  · show ¬ lt a nan = true
    cases a <;> simp [lt]

end XFloat

/-! ### The triangle test in the float-like arithmetic -/

/-- For `nanTriangle` and the ray from the origin along `-z`, the float-like
arithmetic computes `a = 2^107`, `u = NaN` (from `inf - inf`), `v = 1024` and
`t = 10`: neither `u < 0 || u > 1` nor `v < 0 || u + v > 1` holds, and the
triangle is accepted. -/
theorem rayTriangle_nan :
    rayTriangle (⟨0, 0, 0⟩ : Vec3 XFloat) ⟨0, 0, -1⟩
      ⟨-1180591620717411303424, -1180591620717411303424, -10⟩
      ⟨-1180591479979922948096, -1180591620717411303424, -10⟩
      ⟨-1179438699212804456448, -1179438699212804456448, -10⟩ = some 10 := by
  decide!

/-- For `farTriangle` and the ray from the origin along `-z`, the float-like
arithmetic computes `v = NaN` (from `0 * inf`) and `t = inf`. -/
theorem rayTriangle_far_overflow :
    rayTriangle (⟨0, 0, 0⟩ : Vec3 XFloat) ⟨0, 0, -1⟩
      ⟨-1, -1, -255211775190703847597530955573826158592⟩
      ⟨1, -1, -255211775190703847597530955573826158592⟩
      ⟨0, 1, -255211775190703847597530955573826158592⟩ = some XFloat.pinf := by
  decide!

theorem rayTriangle_boundary :
    rayTriangle (⟨0, 0, 0⟩ : Vec3 ℝ) ⟨0, 0, -1⟩ ⟨-(1 / 4), -(1 / 4), -FLT_MAX⟩
      ⟨1 / 4, -(1 / 4), -FLT_MAX⟩ ⟨0, 1 / 4, -FLT_MAX⟩ = some FLT_MAX := by
  simp [rayTriangle, glm.sub, glm.cross, glm.dot, FLT_MAX]
  norm_num

theorem rayTriangle_near :
    rayTriangle (⟨0, 0, 0⟩ : Vec3 ℝ) ⟨0, 0, -1⟩ ⟨-1, -1, -10⟩ ⟨1, -1, -10⟩ ⟨0, 1, -10⟩ =
      some 10 := by
  simp [rayTriangle, glm.sub, glm.cross, glm.dot]
  norm_num

theorem bufferHits_boundary (color : Vec4 ℝ) (userParam : Nat) :
    bufferHits ⟨0, 0, 0⟩ ⟨0, 0, -1⟩
        (makeBuffer color boundaryTriangle [0, 1, 2] userParam true) =
      [(makeBuffer color boundaryTriangle [0, 1, 2] userParam true, FLT_MAX)] :=
  bufferHits_triangle _ _ _ _ _ _ _
    (by rw [(makeBuffer_positions _ _ _ _ _).1]; simp [boundaryTriangle, ToGlm])
    (by rw [makeBuffer_indices]; simp [toUnsigned])
    rayTriangle_boundary (by norm_num [FLT_MAX])

theorem bufferHits_near (color : Vec4 ℝ) (userParam : Nat) :
    bufferHits ⟨0, 0, 0⟩ ⟨0, 0, -1⟩ (makeBuffer color nearTriangle [0, 1, 2] userParam true) =
      [(makeBuffer color nearTriangle [0, 1, 2] userParam true, 10)] :=
  bufferHits_triangle _ _ _ _ _ _ _
    (by rw [(makeBuffer_positions _ _ _ _ _).1]; simp [nearTriangle, ToGlm])
    (by rw [makeBuffer_indices]; simp [toUnsigned])
    rayTriangle_near (by norm_num)

theorem boundaryPool_invariant :
    (((Renderer.new : Renderer ℝ).AddTerrain boundaryTriangle [0, 1, 2] 1).AddTerrain
      boundaryTriangle [0, 1, 2] 2).IndexInvariant :=
  insert_invariant _ _ _ _ _ _ _
    (insert_invariant _ _ _ _ _ _ _ new_invariant
      (by intro i hi; simp [boundaryTriangle] at hi ⊢; omega))
    (by intro i hi; simp [boundaryTriangle] at hi ⊢; omega)

theorem boundaryPool_hitSequence :
    (((Renderer.new : Renderer ℝ).AddTerrain boundaryTriangle [0, 1, 2] 1).AddTerrain
      boundaryTriangle [0, 1, 2] 2).hitSequence ⟨0, 0, 0⟩ ⟨0, 0, -1⟩ 1 =
      [(makeBuffer (TerrainColor : Vec4 ℝ) boundaryTriangle [0, 1, 2] 1 true, FLT_MAX),
       (makeBuffer (TerrainColor : Vec4 ℝ) boundaryTriangle [0, 1, 2] 2 true, FLT_MAX)] := by
  have hf : allGeometry.filter (flagSet 1) = [TerrainGeometry] := by decide
  have hb : (((Renderer.new : Renderer ℝ).AddTerrain boundaryTriangle [0, 1, 2] 1).AddTerrain
      boundaryTriangle [0, 1, 2] 2).m_buffers TerrainGeometry =
      [makeBuffer (TerrainColor : Vec4 ℝ) boundaryTriangle [0, 1, 2] 1 true,
       makeBuffer (TerrainColor : Vec4 ℝ) boundaryTriangle [0, 1, 2] 2 true] := by
    simp [Renderer.AddTerrain, Renderer.setBuffers, InsertBuffer, Renderer.new]
  rw [Renderer.hitSequence, hf]
  simp only [List.flatMap_cons, List.flatMap_nil, hb, bufferHits_boundary, List.append_nil,
    List.singleton_append]

theorem rayTriangle_far_real :
    rayTriangle (⟨0, 0, 0⟩ : Vec3 ℝ) ⟨0, 0, -1⟩
      ⟨-1, -1, -255211775190703847597530955573826158592⟩
      ⟨1, -1, -255211775190703847597530955573826158592⟩
      ⟨0, 1, -255211775190703847597530955573826158592⟩ =
      some 255211775190703847597530955573826158592 := by
  simp [rayTriangle, glm.sub, glm.cross, glm.dot]
  norm_num

theorem bufferHits_far (color : Vec4 ℝ) (userParam : Nat) :
    bufferHits ⟨0, 0, 0⟩ ⟨0, 0, -1⟩ (makeBuffer color farTriangle [0, 1, 2] userParam true) =
      [(makeBuffer color farTriangle [0, 1, 2] userParam true,
        255211775190703847597530955573826158592)] :=
  bufferHits_triangle _ _ _ _ _ _ _
    (by rw [(makeBuffer_positions _ _ _ _ _).1]; simp [farTriangle, ToGlm])
    (by rw [makeBuffer_indices]; simp [toUnsigned])
    rayTriangle_far_real (by norm_num)

theorem farPool_hitSequence :
    (((Renderer.new : Renderer ℝ).AddTerrain farTriangle [0, 1, 2] 1).AddTerrain
      farTriangle [0, 1, 2] 2).hitSequence ⟨0, 0, 0⟩ ⟨0, 0, -1⟩ 1 =
      [(makeBuffer (TerrainColor : Vec4 ℝ) farTriangle [0, 1, 2] 1 true,
          255211775190703847597530955573826158592),
       (makeBuffer (TerrainColor : Vec4 ℝ) farTriangle [0, 1, 2] 2 true,
          255211775190703847597530955573826158592)] := by
  have hb : (((Renderer.new : Renderer ℝ).AddTerrain farTriangle [0, 1, 2] 1).AddTerrain
      farTriangle [0, 1, 2] 2).m_buffers TerrainGeometry =
      [makeBuffer (TerrainColor : Vec4 ℝ) farTriangle [0, 1, 2] 1 true,
       makeBuffer (TerrainColor : Vec4 ℝ) farTriangle [0, 1, 2] 2 true] := by
    simp [Renderer.AddTerrain, Renderer.setBuffers, InsertBuffer, Renderer.new]
  rw [hitSequence_terrain, hb]
  simp only [List.flatMap_cons, List.flatMap_nil, bufferHits_far, List.append_nil,
    List.singleton_append]

/-- C21 (counterexample), in three parts.

(1) Two terrain buffers with user parameters 1 and 2 hold the same triangle
`boundaryTriangle` in the plane `z = -FLT_MAX`.  The pick ray of the freshly
constructed camera through the centre of its viewport runs from the origin
along `-z` and meets both triangles at the same minimal distance
`t = FLT_MAX`, the buffer with parameter 1 first in iteration order.  `HitTest`
reports no hit and leaves the caller's parameter 0 in place, because
`t < closestDist` fails against the initial `closestDist = FLT_MAX`.

(2) Two terrain buffers hold the same triangle `farTriangle` in the plane
`z = -3 * 2^126`.  In exact arithmetic both qualify for that ray at the same
distance `3 * 2^126 < FLT_MAX`.  In the float-like arithmetic `XFloat` the
product `2 * (3 * 2^126)` in the cross product overflows, the distance
`HitTest` computes for both is `inf`, and the scan for that ray reports no hit.

(3) On the pool left by `AddTerrain({}, {0, 1, 2}, 0)` the scan performs an
out-of-range vertex lookup. -/
theorem hitTest_boundary_tie_not_reported :
    ((((Renderer.new : Renderer ℝ).AddTerrain boundaryTriangle [0, 1, 2] 1).AddTerrain
        boundaryTriangle [0, 1, 2] 2).IndexInvariant ∧
      (((Renderer.new : Renderer ℝ).AddTerrain boundaryTriangle [0, 1, 2] 1).AddTerrain
        boundaryTriangle [0, 1, 2] 2).hitSequence
          ((Camera.new : Camera ℝ).GetPickRay 400 300).1
          ((Camera.new : Camera ℝ).GetPickRay 400 300).2 1 =
        [(makeBuffer (TerrainColor : Vec4 ℝ) boundaryTriangle [0, 1, 2] 1 true, FLT_MAX),
         (makeBuffer (TerrainColor : Vec4 ℝ) boundaryTriangle [0, 1, 2] 2 true, FLT_MAX)] ∧
      (makeBuffer (TerrainColor : Vec4 ℝ) boundaryTriangle [0, 1, 2] 1 true).UserParameter = 1 ∧
      (((Renderer.new : Renderer ℝ).AddTerrain boundaryTriangle [0, 1, 2] 1).AddTerrain
        boundaryTriangle [0, 1, 2] 2).HitTest Camera.new 400 300 1 ⟨0, 0, 0⟩ 0 =
          some { closestDist := FLT_MAX, found := false, out := ⟨0, 0, 0⟩, param := 0 }) ∧
    ((Camera.new : Camera ℝ).GetPickRay 400 300 = (⟨0, 0, 0⟩, ⟨0, 0, -1⟩) ∧
      (((Renderer.new : Renderer ℝ).AddTerrain farTriangle [0, 1, 2] 1).AddTerrain
        farTriangle [0, 1, 2] 2).hitSequence
          ((Camera.new : Camera ℝ).GetPickRay 400 300).1
          ((Camera.new : Camera ℝ).GetPickRay 400 300).2 1 =
        [(makeBuffer (TerrainColor : Vec4 ℝ) farTriangle [0, 1, 2] 1 true,
            255211775190703847597530955573826158592),
         (makeBuffer (TerrainColor : Vec4 ℝ) farTriangle [0, 1, 2] 2 true,
            255211775190703847597530955573826158592)] ∧
      (255211775190703847597530955573826158592 : ℝ) < FLT_MAX ∧
      ∀ (r : Renderer XFloat) (b1 b2 : GeometryBuffer XFloat),
        r.m_buffers TerrainGeometry = [b1, b2] →
        b1.vertices.map (fun cv => cv.position) = farTriangle.map ToGlm →
        b2.vertices.map (fun cv => cv.position) = farTriangle.map ToGlm →
        b1.indices = [0, 1, 2] → b2.indices = [0, 1, 2] →
        r.hitSequence ⟨0, 0, 0⟩ ⟨0, 0, -1⟩ 1 = [(b1, XFloat.pinf), (b2, XFloat.pinf)] ∧
        r.HitTestRay ⟨0, 0, 0⟩ ⟨0, 0, -1⟩ 1 ⟨0, 0, 0⟩ 0 =
          some { closestDist := FLT_MAX, found := false, out := ⟨0, 0, 0⟩, param := 0 }) ∧
    ((Renderer.new : Renderer ℝ).AddTerrain [] [0, 1, 2] 0).HitTest
      Camera.new 400 300 1 ⟨0, 0, 0⟩ 0 = none := by
  refine ⟨⟨boundaryPool_invariant, ?_, rfl, ?_⟩,
    ⟨Camera.GetPickRay_center, ?_, by norm_num [FLT_MAX], ?_⟩, ?_⟩
  · rw [Camera.GetPickRay_center]
    exact boundaryPool_hitSequence
  · obtain ⟨st, e⟩ := HitTestRay_isSome
      (((Renderer.new : Renderer ℝ).AddTerrain boundaryTriangle [0, 1, 2] 1).AddTerrain
        boundaryTriangle [0, 1, 2] 2) ⟨0, 0, 0⟩ ⟨0, 0, -1⟩ 1 ⟨0, 0, 0⟩ 0
      (SelectedInvariant_of_IndexInvariant _ _ boundaryPool_invariant)
    have hfold := HitTestRay_fold _ _ _ _ _ _ st e
    rw [boundaryPool_hitSequence, recordHits_skip] at hfold
    · have hH : (((Renderer.new : Renderer ℝ).AddTerrain boundaryTriangle [0, 1, 2] 1).AddTerrain
          boundaryTriangle [0, 1, 2] 2).HitTest Camera.new 400 300 1 ⟨0, 0, 0⟩ 0 =
          (((Renderer.new : Renderer ℝ).AddTerrain boundaryTriangle [0, 1, 2] 1).AddTerrain
            boundaryTriangle [0, 1, 2] 2).HitTestRay
            ((Camera.new : Camera ℝ).GetPickRay 400 300).1
            ((Camera.new : Camera ℝ).GetPickRay 400 300).2 1 ⟨0, 0, 0⟩ 0 := rfl
      rw [hH, Camera.GetPickRay_center, e, hfold]
    · intro h hh
      simp only [List.mem_cons, List.mem_singleton, List.not_mem_nil, or_false] at hh
      rcases hh with rfl | rfl <;> exact lt_irrefl _
  · rw [Camera.GetPickRay_center]
    exact farPool_hitSequence
  · intro r b1 b2 hr hv1 hv2 hi1 hi2
    have e1 : bufferHits (⟨0, 0, 0⟩ : Vec3 XFloat) ⟨0, 0, -1⟩ b1 = [(b1, XFloat.pinf)] :=
      bufferHits_triangle _ _ _ _ _ _ _ (by rw [hv1]; rfl) hi1 rayTriangle_far_overflow
        (by decide!)
    have e2 : bufferHits (⟨0, 0, 0⟩ : Vec3 XFloat) ⟨0, 0, -1⟩ b2 = [(b2, XFloat.pinf)] :=
      bufferHits_triangle _ _ _ _ _ _ _ (by rw [hv2]; rfl) hi2 rayTriangle_far_overflow
        (by decide!)
    have hseq : r.hitSequence ⟨0, 0, 0⟩ ⟨0, 0, -1⟩ 1 =
        [(b1, XFloat.pinf), (b2, XFloat.pinf)] := by
      rw [hitSequence_terrain, hr]
      simp only [List.flatMap_cons, List.flatMap_nil, e1, e2, List.append_nil,
        List.singleton_append]
    refine ⟨hseq, ?_⟩
    rw [HitTestRay_terrain r _ _ _ _ (by
      intro b hb
      rw [hr] at hb
      simp only [List.mem_cons, List.mem_singleton, List.not_mem_nil, or_false] at hb
      rcases hb with rfl | rfl
      · exact triangle_indexInvariant _ _ _ _ (by rw [hv1]; rfl) hi1
      · exact triangle_indexInvariant _ _ _ _ (by rw [hv2]; rfl) hi2), hr]
    simp only [List.flatMap_cons, List.flatMap_nil, e1, e2, List.append_nil,
      List.singleton_append]
    rw [recordHits_skip]
    intro h hh
    simp only [List.mem_cons, List.mem_singleton, List.not_mem_nil, or_false] at hh
    have hp : ¬ XFloat.pinf < (FLT_MAX : XFloat) := by decide!
    rcases hh with rfl | rfl <;> exact hp
  · simp [Renderer.HitTest, Renderer.HitTestRay, hitCategories, allGeometry, flagSet_one,
      Renderer.AddTerrain, Renderer.setBuffers, InsertBuffer, Renderer.new, hitBuffers,
      makeBuffer, generateNormals, toUnsigned, hitTriangles]

theorem nearPair_invariant :
    ((Renderer.new.AddTerrain nearTriangle [0, 1, 2] 7).AddLiquid
      nearTriangle [0, 1, 2]).SelectedInvariant 3 :=
  SelectedInvariant_of_IndexInvariant _ _
    (insert_invariant _ _ _ _ _ _ _
      (insert_invariant _ _ _ _ _ _ _ new_invariant
        (by intro i hi; simp [nearTriangle] at hi ⊢; omega))
      (by intro i hi; simp [nearTriangle] at hi ⊢; omega))

theorem nearPair_hitSequence :
    ((Renderer.new.AddTerrain nearTriangle [0, 1, 2] 7).AddLiquid
      nearTriangle [0, 1, 2]).hitSequence
        ((Camera.new : Camera ℝ).GetPickRay 400 300).1
        ((Camera.new : Camera ℝ).GetPickRay 400 300).2 3 =
      [] ++ (makeBuffer TerrainColor nearTriangle [0, 1, 2] 7 true, 10) ::
        [(makeBuffer LiquidColor nearTriangle [0, 1, 2] 0 true, 10)] := by
  have hf : allGeometry.filter (flagSet 3) = [TerrainGeometry, LiquidGeometry] := by decide
  have hb : ((Renderer.new.AddTerrain nearTriangle [0, 1, 2] 7).AddLiquid
      nearTriangle [0, 1, 2]).m_buffers TerrainGeometry =
      [makeBuffer TerrainColor nearTriangle [0, 1, 2] 7 true] := by
    simp [Renderer.AddTerrain, Renderer.AddLiquid, Renderer.setBuffers, InsertBuffer,
      Renderer.new]
  have hl : ((Renderer.new.AddTerrain nearTriangle [0, 1, 2] 7).AddLiquid
      nearTriangle [0, 1, 2]).m_buffers LiquidGeometry =
      [makeBuffer LiquidColor nearTriangle [0, 1, 2] 0 true] := by
    simp [Renderer.AddTerrain, Renderer.AddLiquid, Renderer.setBuffers, InsertBuffer,
      Renderer.new]
  rw [Camera.GetPickRay_center, Renderer.hitSequence, hf]
  simp only [List.flatMap_cons, List.flatMap_nil, hb, hl, bufferHits_near, List.append_nil,
    List.singleton_append, List.nil_append]

/-- C21 (witness): the same triangle ten units in front of the freshly
constructed camera is held by a terrain buffer with parameter 7 and by a liquid
buffer with parameter 0; with both categories selected the tie at `t = 10` goes
to the terrain buffer. -/
theorem hitTest_first_of_ties_witness :
    ((Renderer.new.AddTerrain nearTriangle [0, 1, 2] 7).AddLiquid
      nearTriangle [0, 1, 2]).HitTest Camera.new 400 300 3 ⟨0, 0, 0⟩ 0 =
      some { closestDist := 10, found := true,
             out := ⟨((Camera.new : Camera ℝ).GetPickRay 400 300).1.x +
                 ((Camera.new : Camera ℝ).GetPickRay 400 300).2.x * 10,
               ((Camera.new : Camera ℝ).GetPickRay 400 300).1.y +
                 ((Camera.new : Camera ℝ).GetPickRay 400 300).2.y * 10,
               ((Camera.new : Camera ℝ).GetPickRay 400 300).1.z +
                 ((Camera.new : Camera ℝ).GetPickRay 400 300).2.z * 10⟩,
             param := 7 } ∧
    (Camera.new : Camera ℝ).GetPickRay 400 300 = (⟨0, 0, 0⟩, ⟨0, 0, -1⟩) :=
  ⟨(hitTest_first_of_ties _ Camera.new 400 300 3 ⟨0, 0, 0⟩ 0 []
      [(makeBuffer LiquidColor nearTriangle [0, 1, 2] 0 true, 10)]
      (makeBuffer TerrainColor nearTriangle [0, 1, 2] 7 true) 10
      nearPair_invariant nearPair_hitSequence (by simp) (by simp) (by norm_num [FLT_MAX])).2,
   Camera.GetPickRay_center⟩

/-! ### Examples for the closest-hit and the mask properties -/

/-- In exact arithmetic the ray from the origin along `-z` misses
`nanTriangle`: `u = 0` and `v = 1024`, so `u + v > 1`. -/
theorem rayTriangle_nan_real :
    rayTriangle (⟨0, 0, 0⟩ : Vec3 ℝ) ⟨0, 0, -1⟩
      ⟨-1180591620717411303424, -1180591620717411303424, -10⟩
      ⟨-1180591479979922948096, -1180591620717411303424, -10⟩
      ⟨-1179438699212804456448, -1179438699212804456448, -10⟩ = none := by
  simp [rayTriangle, glm.sub, glm.cross, glm.dot]
  norm_num

theorem twentyNan_invariant :
    (((Renderer.new : Renderer ℝ).AddTerrain [⟨-1, -1, -20⟩, ⟨1, -1, -20⟩, ⟨0, 1, -20⟩]
      [0, 1, 2] 1).AddTerrain nanTriangle [0, 1, 2] 2).IndexInvariant :=
  insert_invariant _ _ _ _ _ _ _
    (insert_invariant _ _ _ _ _ _ _ new_invariant
      (by intro i hi; simp at hi ⊢; omega))
    (by intro i hi; simp [nanTriangle] at hi ⊢; omega)

theorem nanPool_invariant :
    ((Renderer.new : Renderer ℝ).AddTerrain nanTriangle [0, 1, 2] 7).IndexInvariant :=
  insert_invariant _ _ _ _ _ _ _ new_invariant
    (by intro i hi; simp [nanTriangle] at hi ⊢; omega)

theorem nanPool_hitSequence :
    ((Renderer.new : Renderer ℝ).AddTerrain nanTriangle [0, 1, 2] 7).hitSequence
      ⟨0, 0, 0⟩ ⟨0, 0, -1⟩ 1 = [] := by
  have hb : ((Renderer.new : Renderer ℝ).AddTerrain nanTriangle [0, 1, 2] 7).m_buffers
      TerrainGeometry = [makeBuffer (TerrainColor : Vec4 ℝ) nanTriangle [0, 1, 2] 7 true] := by
    simp [Renderer.AddTerrain, Renderer.setBuffers, InsertBuffer, Renderer.new]
  have h2 : bufferHits (⟨0, 0, 0⟩ : Vec3 ℝ) ⟨0, 0, -1⟩
      (makeBuffer (TerrainColor : Vec4 ℝ) nanTriangle [0, 1, 2] 7 true) = [] :=
    bufferHits_rejected _ _ _ _ _ _
      (by rw [(makeBuffer_positions _ _ _ _ _).1]; simp [nanTriangle, ToGlm])
      (by rw [makeBuffer_indices]; simp [toUnsigned])
      rayTriangle_nan_real
  rw [hitSequence_terrain, hb]
  simp only [List.flatMap_cons, List.flatMap_nil, h2, List.append_nil]

/-- C3 (counterexample): the terrain category, the only one selected by mask 1,
holds one buffer with the triangle `nanTriangle`, which lies in the plane
`z = -10` far away from the z axis.  The pick ray of the freshly constructed
camera through the centre of its viewport runs from the origin along `-z` and
does not intersect the triangle: in exact arithmetic no triangle satisfies the
Moller-Trumbore conditions (`u = 0`, `v = 1024`) and `HitTest` reports no hit.
In the float-like arithmetic `XFloat` the products `2^70 * 2^60` in `u`
overflow, `u` is `inf - inf = NaN`, a NaN fails both `u < 0` and `u > 1`, and
the scan for that ray reports a hit at distance 10 with the parameter of the
buffer. -/
theorem hitTest_accepts_missed_triangle :
    (Camera.new : Camera ℝ).GetPickRay 400 300 = (⟨0, 0, 0⟩, ⟨0, 0, -1⟩) ∧
    ((Renderer.new : Renderer ℝ).AddTerrain nanTriangle [0, 1, 2] 7).IndexInvariant ∧
    (∀ b t, ¬ ((Renderer.new : Renderer ℝ).AddTerrain nanTriangle [0, 1, 2] 7).Hit
      ((Camera.new : Camera ℝ).GetPickRay 400 300).1
      ((Camera.new : Camera ℝ).GetPickRay 400 300).2 1 b t) ∧
    ((Renderer.new : Renderer ℝ).AddTerrain nanTriangle [0, 1, 2] 7).HitTest
      Camera.new 400 300 1 ⟨0, 0, 0⟩ 0 =
        some { closestDist := FLT_MAX, found := false, out := ⟨0, 0, 0⟩, param := 0 } ∧
    (1 : XFloat) /
        glm.dot
          (glm.sub ⟨-1180591479979922948096, -1180591620717411303424, -10⟩
            ⟨-1180591620717411303424, -1180591620717411303424, -10⟩)
          (glm.cross ⟨0, 0, -1⟩
            (glm.sub ⟨-1179438699212804456448, -1179438699212804456448, -10⟩
              ⟨-1180591620717411303424, -1180591620717411303424, -10⟩)) *
      glm.dot
        (glm.sub ⟨0, 0, 0⟩ ⟨-1180591620717411303424, -1180591620717411303424, -10⟩)
        (glm.cross ⟨0, 0, -1⟩
          (glm.sub ⟨-1179438699212804456448, -1179438699212804456448, -10⟩
            ⟨-1180591620717411303424, -1180591620717411303424, -10⟩)) = XFloat.nan ∧
    ∀ (r : Renderer XFloat) (b : GeometryBuffer XFloat),
      r.m_buffers TerrainGeometry = [b] →
      b.vertices.map (fun cv => cv.position) = nanTriangle.map ToGlm →
      b.indices = [0, 1, 2] →
      r.HitTestRay ⟨0, 0, 0⟩ ⟨0, 0, -1⟩ 1 ⟨0, 0, 0⟩ 0 =
        some { closestDist := 10, found := true, out := ⟨0, 0, -10⟩,
               param := b.UserParameter } := by
  refine ⟨Camera.GetPickRay_center, nanPool_invariant, ?_, ?_, by decide!, ?_⟩
  · intro b t hh
    rw [← qualifies_iff_hit, ← mem_hitSequence_iff, Camera.GetPickRay_center,
      nanPool_hitSequence] at hh
    simp at hh
  · have hH : ((Renderer.new : Renderer ℝ).AddTerrain nanTriangle [0, 1, 2] 7).HitTest
        Camera.new 400 300 1 ⟨0, 0, 0⟩ 0 =
        ((Renderer.new : Renderer ℝ).AddTerrain nanTriangle [0, 1, 2] 7).HitTestRay
          ((Camera.new : Camera ℝ).GetPickRay 400 300).1
          ((Camera.new : Camera ℝ).GetPickRay 400 300).2 1 ⟨0, 0, 0⟩ 0 := rfl
    obtain ⟨st, e⟩ := HitTestRay_isSome
      ((Renderer.new : Renderer ℝ).AddTerrain nanTriangle [0, 1, 2] 7)
      ⟨0, 0, 0⟩ ⟨0, 0, -1⟩ 1 ⟨0, 0, 0⟩ 0
      (SelectedInvariant_of_IndexInvariant _ _ nanPool_invariant)
    have hfold := HitTestRay_fold _ _ _ _ _ _ st e
    rw [nanPool_hitSequence] at hfold
    rw [hH, Camera.GetPickRay_center, e, hfold]
    rfl
  · intro r b hr hv hi
    have e2 : bufferHits (⟨0, 0, 0⟩ : Vec3 XFloat) ⟨0, 0, -1⟩ b = [(b, 10)] :=
      bufferHits_triangle _ _ _ _ _ _ _ (by rw [hv]; rfl) hi rayTriangle_nan (by decide!)
    rw [HitTestRay_terrain r _ _ _ _ (by
      intro b0 hb
      rw [hr] at hb
      simp only [List.mem_singleton] at hb
      subst hb
      exact triangle_indexInvariant _ _ _ _ (by rw [hv]; rfl) hi), hr]
    simp only [List.flatMap_cons, List.flatMap_nil, e2, List.append_nil, List.foldl_cons,
      List.foldl_nil]
    rw [recordHit_of_lt _ _ b 10 _ (by decide!) (by decide!)]
    congr 2
    decide!

theorem liquidPool_no_terrain_hit (o d : Vec3 ℝ) (b : GeometryBuffer ℝ) (t : ℝ) :
    ¬ (Renderer.new.AddLiquid nearTriangle [0, 1, 2]).Qualifies o d 1 b t := by
  rintro ⟨g, hg, hb, _⟩
  rw [flagSet_one] at hg
  have hg2 : g = TerrainGeometry := of_decide_eq_true hg
  subst hg2
  simp [Renderer.AddLiquid, Renderer.setBuffers, Renderer.new] at hb

theorem liquidPool_agrees (g : Geometry) (hg : flagSet 1 g = true) :
    (Renderer.new.AddLiquid nearTriangle [0, 1, 2]).m_buffers g =
      (Renderer.new : Renderer ℝ).m_buffers g := by
  rw [flagSet_one] at hg
  have hg2 : g = TerrainGeometry := of_decide_eq_true hg
  subst hg2
  simp [Renderer.AddLiquid, Renderer.setBuffers, Renderer.new]

theorem liquidPool_selected_invariant :
    (Renderer.new.AddLiquid nearTriangle [0, 1, 2]).SelectedInvariant 1 :=
  SelectedInvariant_of_IndexInvariant _ _
    (insert_invariant _ _ _ _ _ _ _ new_invariant
      (by intro i hi; simp [nearTriangle] at hi ⊢; omega))

/-- C3 (witness): over the reals, a pool with one liquid buffer and the empty
pool agree on the terrain category, which is the only one selected by mask 1. -/
theorem hitTest_depends_on_selected_witness :
    (∀ g, flagSet 1 g = true →
      (Renderer.new.AddLiquid nearTriangle [0, 1, 2]).m_buffers g =
        (Renderer.new : Renderer ℝ).m_buffers g) ∧
    (Renderer.new.AddLiquid nearTriangle [0, 1, 2]).HitTest Camera.new 400 300 1 ⟨0, 0, 0⟩ 0 =
      (Renderer.new : Renderer ℝ).HitTest Camera.new 400 300 1 ⟨0, 0, 0⟩ 0 ∧
    (∀ b t, ¬ (Renderer.new.AddLiquid nearTriangle [0, 1, 2]).Qualifies
      ((Camera.new : Camera ℝ).GetPickRay 400 300).1
      ((Camera.new : Camera ℝ).GetPickRay 400 300).2 1 b t) ∧
    (Renderer.new.AddLiquid nearTriangle [0, 1, 2]).SelectedInvariant 1 ∧
    (Renderer.new.AddLiquid nearTriangle [0, 1, 2]).HitTest Camera.new 400 300 1 ⟨0, 0, 0⟩ 0 =
      some { closestDist := FLT_MAX, found := false, out := ⟨0, 0, 0⟩, param := 0 } ∧
    (Renderer.new.AddLiquid nearTriangle [0, 1, 2]).HitTest Camera.new 400 300 0 ⟨0, 0, 0⟩ 0 =
      some { closestDist := FLT_MAX, found := false, out := ⟨0, 0, 0⟩, param := 0 } :=
  ⟨liquidPool_agrees,
   (hitTest_depends_on_selected Camera.new 400 300 1 ⟨0, 0, 0⟩ 0 _ _ liquidPool_agrees).1,
   liquidPool_no_terrain_hit _ _,
   liquidPool_selected_invariant,
   ((hitTest_depends_on_selected Camera.new 400 300 1 ⟨0, 0, 0⟩ 0 _ _ liquidPool_agrees).2.1
     (liquidPool_no_terrain_hit _ _)).2 liquidPool_selected_invariant,
   (hitTest_depends_on_selected Camera.new 400 300 1 ⟨0, 0, 0⟩ 0 _ _ liquidPool_agrees).2.2⟩

namespace DetourDebugDraw

section
variable {F : Type} [LinearOrderedField F] [MathFns F]

/-- C22: for a quads batch whose number of vertex calls since `begin` (which is
the accumulated index count) is not a multiple of 4, and for a batch of any
kind with no vertex call, `end` completes and leaves the pool as it was: no
buffer is added to any category, and there is no error result. -/
theorem malformed_batch_ignored (IgnoreLineSize : F) (dd0 : DetourDebugDraw F)
    (prim : duDebugDrawPrimitives) (size : F) (calls : List (Vertex F × Nat)) (r : Renderer F)
    (h : (prim = DU_DRAW_QUADS ∧ calls.length % 4 ≠ 0) ∨ calls = []) :
    (batch dd0 prim size calls).m_indices.length = calls.length ∧
    end_ IgnoreLineSize (batch dd0 prim size calls) r = some r := by
  obtain ⟨_, _, hil, _, _⟩ := batch_invariant dd0 prim size calls
  refine ⟨hil, ?_⟩
  rcases h with ⟨rfl, h4⟩ | rfl
  · obtain ⟨ht, _, _⟩ := batch_header dd0 DU_DRAW_QUADS size calls
    have hne := batch_vertices_ne_nil dd0 DU_DRAW_QUADS size calls
      (by rcases calls with _ | ⟨c, cs⟩
          · simp at h4
          · simp)
    generalize batch dd0 DU_DRAW_QUADS size calls = dd at *
    have h4b : ¬ dd.m_indices.length % 4 = 0 := by rw [hil]; exact h4
    simp [end_, ht, hne, h4b]
  · unfold end_
    split
    · rfl
    · simp [batch, begin]

/-- C22 (witness): a quads batch with three vertex calls. -/
theorem malformed_batch_ignored_witness :
    (batch (DetourDebugDraw.new : DetourDebugDraw ℝ) DU_DRAW_QUADS 1
      [(⟨0, 0, 0⟩, 1), (⟨1, 0, 0⟩, 1), (⟨1, 1, 0⟩, 1)]).m_indices.length = 3 ∧
    end_ (3 / 2) (batch (DetourDebugDraw.new : DetourDebugDraw ℝ) DU_DRAW_QUADS 1
      [(⟨0, 0, 0⟩, 1), (⟨1, 0, 0⟩, 1), (⟨1, 1, 0⟩, 1)]) Renderer.new = some Renderer.new :=
  malformed_batch_ignored (3 / 2 : ℝ) DetourDebugDraw.new DU_DRAW_QUADS 1
    [(⟨0, 0, 0⟩, 1), (⟨1, 0, 0⟩, 1), (⟨1, 1, 0⟩, 1)] Renderer.new
    (Or.inl ⟨rfl, by decide⟩)

end
end DetourDebugDraw

section
variable {F : Type}

/-! ### Upload and render: the trace of a render pass -/

theorem isEmpty_eq_false_of_ne_nil {α : Type} (l : List α) (h : l ≠ []) :
    l.isEmpty = false := by
  cases l with
  | nil => exact absurd rfl h
  | cons a l => rfl

theorem UploadBuffer_noop (gl : GLContext F) (b : GeometryBuffer F)
    (h : b.uploaded = true ∨ b.vertices = []) : UploadBuffer gl b = (gl, b) := by
  unfold UploadBuffer
  rcases h with h | h
  · simp [h]
  · simp [h]

theorem UploadBuffer_fresh (gl : GLContext F) (b : GeometryBuffer F)
    (h1 : b.uploaded = false) (h2 : b.vertices ≠ []) :
    (UploadBuffer gl b).2.uploaded = true ∧
    (UploadBuffer gl b).2.vertices = b.vertices ∧
    (UploadBuffer gl b).2.indices = b.indices ∧
    (UploadBuffer gl b).2.UserParameter = b.UserParameter ∧
    (UploadBuffer gl b).1.calls = gl.calls ++ [GLCall.upload (UploadBuffer gl b).2] ∧
    (UploadBuffer gl b).2.vao = gl.generated + 1 ∧
    (UploadBuffer gl b).2.vbo = gl.generated + 2 ∧
    (b.indices ≠ [] → (UploadBuffer gl b).2.ebo = gl.generated + 3 ∧
      (UploadBuffer gl b).1.generated = gl.generated + 3) ∧
    (b.indices = [] → (UploadBuffer gl b).2.ebo = b.ebo ∧
      (UploadBuffer gl b).1.generated = gl.generated + 2) := by
  have hne := isEmpty_eq_false_of_ne_nil b.vertices h2
  unfold UploadBuffer
  simp only [h1, hne, Bool.or_self, Bool.false_eq_true, if_false]
  cases hi : b.indices with
  | nil => simp
  | cons a l => simp

theorem drawCall_isDraw (b : GeometryBuffer F) (mvp : Mat4 F) :
    (drawCall b mvp).isDraw = true ∧ (drawCall b mvp).buffer = b := by
  unfold drawCall
  split <;> exact ⟨rfl, rfl⟩

/-- One pass of the loop body of `renderGeometry`. -/
theorem renderOne_spec (gl : GLContext F) (b : GeometryBuffer F) (mvp : Mat4 F) :
    Rendered b (if !b.uploaded then UploadBuffer gl b else (gl, b)).2 ∧
    (RenderBuffer (if !b.uploaded then UploadBuffer gl b else (gl, b)).1
      (if !b.uploaded then UploadBuffer gl b else (gl, b)).2 mvp).calls =
      gl.calls ++ bufferCalls mvp (b, (if !b.uploaded then UploadBuffer gl b else (gl, b)).2) ∧
    gl.generated ≤ (RenderBuffer (if !b.uploaded then UploadBuffer gl b else (gl, b)).1
      (if !b.uploaded then UploadBuffer gl b else (gl, b)).2 mvp).generated := by
  cases hu : b.uploaded with
  | true =>
    simp only [Bool.not_true, Bool.false_eq_true, if_false]
    refine ⟨⟨rfl, rfl, rfl, fun _ => rfl, fun _ => hu⟩, ?_, ?_⟩
    · unfold RenderBuffer bufferCalls
      cases hv : b.vertices.isEmpty <;> simp [hu]
    · unfold RenderBuffer
      split <;> simp
  | false =>
    simp only [Bool.not_false, if_true]
    by_cases hv : b.vertices = []
    · rw [UploadBuffer_noop gl b (Or.inr hv)]
      refine ⟨⟨rfl, rfl, rfl, fun _ => rfl, fun h => absurd hv h⟩, ?_, ?_⟩
      · simp [RenderBuffer, bufferCalls, hu, hv]
      · simp [RenderBuffer, hu]
    · obtain ⟨f1, f2, f3, f4, f5, _, _, f8, f9⟩ := UploadBuffer_fresh gl b hu hv
      have hne := isEmpty_eq_false_of_ne_nil b.vertices hv
      have hne2 : (UploadBuffer gl b).2.vertices.isEmpty = false := by rw [f2]; exact hne
      refine ⟨⟨f2, f3, f4, ?_, fun _ => f1⟩, ?_, ?_⟩
      · rintro (h | h)
        · rw [hu] at h; exact absurd h (by simp)
        · exact absurd h hv
      · simp [RenderBuffer, bufferCalls, f1, hne2, hne, hu, f5]
      · have hg : gl.generated ≤ (UploadBuffer gl b).1.generated := by
          by_cases hi : b.indices = []
          · rw [(f9 hi).2]; omega
          · rw [(f8 hi).2]; omega
        unfold RenderBuffer
        split
        · exact hg
        · exact hg

theorem renderBuffers_spec (mvp : Mat4 F) :
    ∀ (bs : List (GeometryBuffer F)) (gl : GLContext F),
      List.Forall₂ Rendered bs (renderBuffers mvp gl bs).2 ∧
      (renderBuffers mvp gl bs).1.calls =
        gl.calls ++ (List.zip bs (renderBuffers mvp gl bs).2).flatMap (bufferCalls mvp)
  | [], gl => by simp [renderBuffers]
  | b :: rest, gl => by
    obtain ⟨h1, h2, _⟩ := renderOne_spec gl b mvp
    obtain ⟨i1, i2⟩ := renderBuffers_spec mvp rest
      (RenderBuffer (if !b.uploaded then UploadBuffer gl b else (gl, b)).1
        (if !b.uploaded then UploadBuffer gl b else (gl, b)).2 mvp)
    simp only [renderBuffers]
    refine ⟨List.Forall₂.cons h1 i1, ?_⟩
    rw [i2, h2, List.zip_cons_cons, List.flatMap_cons, List.append_assoc]

theorem flatMap_congr_mem {α β : Type} (l : List α) (f g : α → List β)
    (h : ∀ x ∈ l, f x = g x) : l.flatMap f = l.flatMap g := by
  induction l with
  | nil => rfl
  | cons a l ih =>
    rw [List.flatMap_cons, List.flatMap_cons, h a (by simp),
      ih (fun x hx => h x (by simp [hx]))]

theorem filter_flatMap {α β : Type} (l : List α) (f : α → List β) (p : β → Bool) :
    (l.flatMap f).filter p = l.flatMap (fun x => (f x).filter p) := by
  induction l with
  | nil => rfl
  | cons a l ih => rw [List.flatMap_cons, List.flatMap_cons, List.filter_append, ih]

theorem renderGeometry_spec (r : Renderer F) (gl : GLContext F) (mvp : Mat4 F)
    (type : Geometry) (en : Bool) :
    (r.renderGeometry gl mvp type en).2.enabled = r.enabled ∧
    (∀ t, t ≠ type ∨ en = false →
      (r.renderGeometry gl mvp type en).2.m_buffers t = r.m_buffers t) ∧
    (en = true →
      List.Forall₂ Rendered (r.m_buffers type) ((r.renderGeometry gl mvp type en).2.m_buffers type)) ∧
    (r.renderGeometry gl mvp type en).1.calls = gl.calls ++
      (if en then (List.zip (r.m_buffers type)
        ((r.renderGeometry gl mvp type en).2.m_buffers type)).flatMap (bufferCalls mvp)
       else []) := by
  cases en with
  | false => simp [Renderer.renderGeometry]
  | true =>
    obtain ⟨h1, h2⟩ := renderBuffers_spec mvp (r.m_buffers type) gl
    simp only [Renderer.renderGeometry, Bool.not_true, Bool.false_eq_true, if_false, if_true,
      Renderer.setBuffers, Function.update_same]
    refine ⟨?_, ?_, fun _ => h1, h2⟩
    · funext t; cases t <;> rfl
    · rintro t (ht | ht)
      · exact Function.update_noteq ht _ _
      · exact absurd ht (by simp)

theorem renderTypes_spec (mvp : Mat4 F) :
    ∀ (types : List Geometry) (gl : GLContext F) (r : Renderer F), types.Nodup →
      (renderTypes mvp types (gl, r)).2.enabled = r.enabled ∧
      (∀ t, t ∉ types ∨ r.enabled t = false →
        (renderTypes mvp types (gl, r)).2.m_buffers t = r.m_buffers t) ∧
      (∀ t ∈ types, r.enabled t = true →
        List.Forall₂ Rendered (r.m_buffers t) ((renderTypes mvp types (gl, r)).2.m_buffers t)) ∧
      (renderTypes mvp types (gl, r)).1.calls = gl.calls ++
        (types.filter r.enabled).flatMap (fun t =>
          (List.zip (r.m_buffers t)
            ((renderTypes mvp types (gl, r)).2.m_buffers t)).flatMap (bufferCalls mvp))
  | [], gl, r, _ => by simp [renderTypes]
  | type :: rest, gl, r, hnd => by
    obtain ⟨hnot, hrest⟩ := List.nodup_cons.1 hnd
    obtain ⟨g1, g2, g3, g4⟩ := renderGeometry_spec r gl mvp type (r.enabled type)
    obtain ⟨i1, i2, i3, i4⟩ := renderTypes_spec mvp rest
      (r.renderGeometry gl mvp type (r.enabled type)).1
      (r.renderGeometry gl mvp type (r.enabled type)).2 hrest
    simp only [renderTypes]
    generalize r.renderGeometry gl mvp type (r.enabled type) = st1 at *
    generalize renderTypes mvp rest (st1.1, st1.2) = res at *
    rw [g1] at i1 i2 i3 i4
    have htype : res.2.m_buffers type = st1.2.m_buffers type := i2 type (Or.inl hnot)
    refine ⟨i1, ?_, ?_, ?_⟩
    · rintro t (ht | ht)
      · have hne : t ≠ type := fun h => ht (by simp [h])
        have hnr : t ∉ rest := fun h => ht (by simp [h])
        rw [i2 t (Or.inl hnr), g2 t (Or.inl hne)]
      · rw [i2 t (Or.inr ht)]
        by_cases hne : t = type
        · subst hne
          exact g2 t (Or.inr ht)
        · exact g2 t (Or.inl hne)
    · intro t ht hen
      rcases List.mem_cons.1 ht with rfl | ht
      · rw [htype]
        exact g3 hen
      · have hne : t ≠ type := fun h => hnot (h ▸ ht)
        have := i3 t ht hen
        rw [g2 t (Or.inl hne)] at this
        exact this
    · rw [i4, g4, List.append_assoc]
      congr 1
      have hcongr : (rest.filter r.enabled).flatMap (fun t =>
          (List.zip (st1.2.m_buffers t) (res.2.m_buffers t)).flatMap (bufferCalls mvp)) =
          (rest.filter r.enabled).flatMap (fun t =>
          (List.zip (r.m_buffers t) (res.2.m_buffers t)).flatMap (bufferCalls mvp)) := by
        apply flatMap_congr_mem
        intro t ht
        have htr : t ∈ rest := (List.mem_filter.1 ht).1
        have hne : t ≠ type := fun h => hnot (h ▸ htr)
        rw [g2 t (Or.inl hne)]
      rw [hcongr]
      cases hen : r.enabled type with
      | true =>
        rw [List.filter_cons_of_pos hen, List.flatMap_cons, htype]
        simp
      | false =>
        rw [List.filter_cons_of_neg (by simp [hen])]
        simp

end

section
variable {F : Type} [LinearOrderedField F]

theorem Render_eq_renderTypes (r : Renderer F) (gl : GLContext F) (camera : Camera F)
    (width height : Int) :
    r.Render gl camera width height =
      renderTypes (glm.mulMat camera.m_projMatrix camera.m_viewMatrix) renderOrder (gl, r) :=
  rfl

theorem renderOrder_nodup : renderOrder.Nodup := by decide

end

section
variable {F : Type}

/-- C24: `UploadBuffer` returns the context and the buffer unchanged (flag and
GPU handles included, nothing allocated) when the buffer is already uploaded or
its vertex sequence is empty; otherwise it sets the uploaded flag, keeps the
vertex and index sequences and allocates object names; and a second call on the
buffer it returns, in any context, changes neither that buffer nor the context:
`upload(upload(b)) = upload(b)`, and the second call allocates nothing. -/
theorem upload_idempotent (gl gl2 : GLContext F) (b : GeometryBuffer F) :
    (b.uploaded = true ∨ b.vertices = [] → UploadBuffer gl b = (gl, b)) ∧
    (b.uploaded = false → b.vertices ≠ [] →
      (UploadBuffer gl b).2.uploaded = true ∧
      (UploadBuffer gl b).2.vertices = b.vertices ∧
      (UploadBuffer gl b).2.indices = b.indices ∧
      gl.generated < (UploadBuffer gl b).1.generated) ∧
    UploadBuffer gl2 (UploadBuffer gl b).2 = (gl2, (UploadBuffer gl b).2) := by
  refine ⟨UploadBuffer_noop gl b, ?_, ?_⟩
  · intro h1 h2
    obtain ⟨f1, f2, f3, _, _, _, _, f8, f9⟩ := UploadBuffer_fresh gl b h1 h2
    refine ⟨f1, f2, f3, ?_⟩
    by_cases hi : b.indices = []
    · rw [(f9 hi).2]; omega
    · rw [(f8 hi).2]; omega
  · by_cases h : b.uploaded = true ∨ b.vertices = []
    · rw [UploadBuffer_noop gl b h]
      exact UploadBuffer_noop gl2 b h
    · push_neg at h
      have h1 : b.uploaded = false := by simpa using h.1
      exact UploadBuffer_noop gl2 _ (Or.inl (UploadBuffer_fresh gl b h1 h.2).1)

/-! ### Reading the trace of `Render` -/

theorem mem_bufferCalls (mvp : Mat4 F) (b b2 : GeometryBuffer F) (c : GLCall F)
    (h : c ∈ bufferCalls mvp (b, b2)) :
    b.vertices ≠ [] ∧ c.buffer = b2 ∧ (c.isDraw = true → c = drawCall b2 mvp) := by
  unfold bufferCalls at h
  cases hv : b.vertices with
  | nil => simp [hv] at h
  | cons a l =>
    simp only [hv, List.isEmpty_cons, Bool.false_eq_true, if_false, List.mem_append,
      List.mem_singleton] at h
    refine ⟨by simp, ?_⟩
    rcases h with h | h
    · split at h
      · simp at h
      · simp only [List.mem_singleton] at h
        subst h
        exact ⟨rfl, fun hd => absurd hd (by simp [GLCall.isDraw])⟩
    · subst h
      exact ⟨(drawCall_isDraw b2 mvp).2, fun _ => rfl⟩

theorem mem_zipCalls (mvp : Mat4 F) (bs bs2 : List (GeometryBuffer F))
    (hr : List.Forall₂ Rendered bs bs2) (c : GLCall F)
    (h : c ∈ (List.zip bs bs2).flatMap (bufferCalls mvp)) :
    c.buffer.vertices ≠ [] ∧ (c.isDraw = true → c.buffer.uploaded = true) := by
  obtain ⟨p, hp, hc⟩ := List.mem_flatMap.1 h
  have hrel : Rendered p.1 p.2 := List.forall₂_zip hr (by simpa using hp)
  obtain ⟨hne, hb, _⟩ := mem_bufferCalls mvp p.1 p.2 c hc
  obtain ⟨r1, _, _, _, r5⟩ := hrel
  rw [hb]
  exact ⟨by rw [r1]; exact hne, fun _ => r5 hne⟩

theorem zipCalls_split (mvp : Mat4 F) :
    ∀ (bs bs2 : List (GeometryBuffer F)), List.Forall₂ Rendered bs bs2 →
      ∀ (i : Nat) (b : GeometryBuffer F), bs[i]? = some b →
        ∃ (b2 : GeometryBuffer F) (C D : List (GLCall F)), bs2[i]? = some b2 ∧ Rendered b b2 ∧
          (List.zip bs bs2).flatMap (bufferCalls mvp) = C ++ bufferCalls mvp (b, b2) ++ D
  | [], _, _, i, b, h => by simp at h
  | a :: bs, [], h, _, _, _ => by cases h
  | a :: bs, a2 :: bs2, h, i, b, hi => by
    cases h with
    | cons h1 h2 =>
      cases i with
      | zero =>
        simp only [List.getElem?_cons_zero, Option.some.injEq] at hi
        subst hi
        exact ⟨a2, [], (List.zip bs bs2).flatMap (bufferCalls mvp), by simp, h1, by simp⟩
      | succ i =>
        simp only [List.getElem?_cons_succ] at hi
        obtain ⟨b2, C, D, e1, e2, e3⟩ := zipCalls_split mvp bs bs2 h2 i b hi
        refine ⟨b2, bufferCalls mvp (a, a2) ++ C, D, by simpa using e1, e2, ?_⟩
        rw [List.zip_cons_cons, List.flatMap_cons, e3]
        simp

theorem flatMap_split_mem {α β : Type} (l : List α) (f : α → List β) (a : α) (h : a ∈ l) :
    ∃ A B : List β, l.flatMap f = A ++ f a ++ B := by
  obtain ⟨s, t, rfl⟩ := List.append_of_mem h
  exact ⟨s.flatMap f, t.flatMap f, by simp⟩

theorem mem_renderOrder (g : Geometry) : g ∈ renderOrder := by
  cases g <;> simp [renderOrder]

theorem rendered_data :
    ∀ (bs bs2 : List (GeometryBuffer F)), List.Forall₂ Rendered bs bs2 →
      bs2.map (fun b => (b.UserParameter, b.vertices, b.indices)) =
        bs.map (fun b => (b.UserParameter, b.vertices, b.indices))
  | [], [], _ => rfl
  | [], _ :: _, h => by cases h
  | _ :: _, [], h => by cases h
  | b :: bs, b2 :: bs2, h => by
    cases h with
    | cons h1 h2 =>
      obtain ⟨r1, r2, r3, _, _⟩ := h1
      rw [List.map_cons, List.map_cons, rendered_data bs bs2 h2, r1, r2, r3]

theorem rendered_draws (mvp : Mat4 F) :
    ∀ (bs bs2 : List (GeometryBuffer F)), List.Forall₂ Rendered bs bs2 →
      ((List.zip bs bs2).flatMap (bufferCalls mvp)).filter GLCall.isDraw =
        (bs2.filter (fun b => !b.vertices.isEmpty)).map (fun b => drawCall b mvp)
  | [], [], _ => rfl
  | [], _ :: _, h => by cases h
  | _ :: _, [], h => by cases h
  | b :: bs, b2 :: bs2, h => by
    cases h with
    | cons h1 h2 =>
      obtain ⟨r1, _, _, _, _⟩ := h1
      rw [List.zip_cons_cons, List.flatMap_cons, List.filter_append,
        rendered_draws mvp bs bs2 h2]
      cases hv : b.vertices with
      | nil =>
        have hv2 : b2.vertices = [] := by rw [r1, hv]
        simp [bufferCalls, hv, hv2]
      | cons a l =>
        have hv2 : b2.vertices = a :: l := by rw [r1, hv]
        have hd := (drawCall_isDraw b2 mvp).1
        have hup : (GLCall.upload b2 : GLCall F).isDraw = false := rfl
        cases hu : b.uploaded <;>
          simp [bufferCalls, hv, hv2, hu, hd, hup, List.filter_cons]

end

section
variable {F : Type} [LinearOrderedField F]

/-- C23: the uploads and draw calls `new` that one call of `Render` issues
satisfy: every draw call is for a buffer whose uploaded flag is set at that
moment; no upload and no draw call is for a buffer with an empty vertex
sequence, and such a buffer is left as it was; and every buffer with a
non-empty vertex sequence at position `i` of an enabled category is drawn, as
the buffer `b2` found at that position after the call, with the same vertices
and indices and the uploaded flag set: when it was uploaded before the call it
is drawn unchanged, and when it was not, its upload is the call right before
its draw call. -/
theorem render_uploads_before_drawing (r : Renderer F) (gl : GLContext F) (camera : Camera F)
    (width height : Int) :
    ∃ new : List (GLCall F),
      (r.Render gl camera width height).1.calls = gl.calls ++ new ∧
      (∀ c ∈ new, c.isDraw = true → c.buffer.uploaded = true) ∧
      (∀ c ∈ new, c.buffer.vertices ≠ []) ∧
      (∀ (type : Geometry) (i : Nat) (b : GeometryBuffer F), r.enabled type = true →
        (r.m_buffers type)[i]? = some b → b.vertices ≠ [] →
        ∃ (b2 : GeometryBuffer F) (pre post : List (GLCall F)),
          ((r.Render gl camera width height).2.m_buffers type)[i]? = some b2 ∧
          b2.vertices = b.vertices ∧ b2.indices = b.indices ∧ b2.uploaded = true ∧
          new = pre ++ drawCall b2 (glm.mulMat camera.m_projMatrix camera.m_viewMatrix) :: post ∧
          (b.uploaded = true → b2 = b) ∧
          (b.uploaded = false → ∃ pre0, pre = pre0 ++ [GLCall.upload b2])) ∧
      (∀ (type : Geometry) (i : Nat) (b : GeometryBuffer F),
        (r.m_buffers type)[i]? = some b → b.vertices = [] →
        ((r.Render gl camera width height).2.m_buffers type)[i]? = some b) := by
  rw [Render_eq_renderTypes]
  obtain ⟨_, h2, h3, h4⟩ := renderTypes_spec
    (glm.mulMat camera.m_projMatrix camera.m_viewMatrix) renderOrder gl r renderOrder_nodup
  generalize renderTypes (glm.mulMat camera.m_projMatrix camera.m_viewMatrix) renderOrder
    (gl, r) = res at *
  generalize glm.mulMat camera.m_projMatrix camera.m_viewMatrix = mvp at *
  refine ⟨_, h4, ?_, ?_, ?_, ?_⟩
  · intro c hc
    obtain ⟨t, ht, hct⟩ := List.mem_flatMap.1 hc
    obtain ⟨ht1, ht2⟩ := List.mem_filter.1 ht
    exact (mem_zipCalls mvp _ _ (h3 t ht1 ht2) c hct).2
  · intro c hc
    obtain ⟨t, ht, hct⟩ := List.mem_flatMap.1 hc
    obtain ⟨ht1, ht2⟩ := List.mem_filter.1 ht
    exact (mem_zipCalls mvp _ _ (h3 t ht1 ht2) c hct).1
  · intro type i b hen hi hne
    obtain ⟨b2, C, D, e1, ⟨r1, r2, _, r4, r5⟩, e3⟩ :=
      zipCalls_split mvp _ _ (h3 type (mem_renderOrder type) hen) i b hi
    obtain ⟨A, B, e4⟩ := flatMap_split_mem (renderOrder.filter r.enabled)
      (fun t => (List.zip (r.m_buffers t) (res.2.m_buffers t)).flatMap (bufferCalls mvp)) type
      (List.mem_filter.2 ⟨mem_renderOrder type, hen⟩)
    have hemp := isEmpty_eq_false_of_ne_nil b.vertices hne
    cases hu : b.uploaded with
    | true =>
      refine ⟨b2, A ++ C, D ++ B, e1, r1, r2, r5 hne, ?_, fun _ => r4 (Or.inl hu),
        fun h => absurd h (by simp)⟩
      rw [e4]
      simp only [e3, bufferCalls, hemp, hu, Bool.false_eq_true, if_false, if_true]
      simp
    | false =>
      refine ⟨b2, A ++ C ++ [GLCall.upload b2], D ++ B, e1, r1, r2, r5 hne, ?_,
        fun h => absurd h (by simp), fun _ => ⟨A ++ C, rfl⟩⟩
      rw [e4]
      simp only [e3, bufferCalls, hemp, hu, Bool.false_eq_true, if_false]
      simp
  · intro type i b hi hv
    by_cases hen : r.enabled type = true
    · obtain ⟨b2, _, _, e1, ⟨_, _, _, r4, _⟩, _⟩ :=
        zipCalls_split mvp _ _ (h3 type (mem_renderOrder type) hen) i b hi
      rw [e1, r4 (Or.inr hv)]
    · rw [h2 type (Or.inr (by simpa using hen))]
      exact hi

/-- C25: the draw calls that one call of `Render` issues are, in this order:
for each category of `[Terrain, WMO, Doodad, GameObject, Liquid, NavMesh,
Sphere, Line, Arrow]` that is enabled (terrain, liquid, WMO, doodad and
navigation mesh by their flags, the other four always), one draw call for each
buffer of the category with a non-empty vertex sequence, in list order; and
the buffers after the call carry, position by position, the data of the
buffers before the call, so list order is insertion order. -/
theorem render_category_order (r : Renderer F) (gl : GLContext F) (camera : Camera F)
    (width height : Int) :
    ∃ new : List (GLCall F),
      (r.Render gl camera width height).1.calls = gl.calls ++ new ∧
      new.filter GLCall.isDraw =
        ((([TerrainGeometry, WmoGeometry, DoodadGeometry, GameObjectGeometry, LiquidGeometry,
          NavMeshGeometry, SphereGeometry, LineGeometry, ArrowGeometry] : List Geometry).filter
            r.enabled).flatMap
          (fun type =>
            (((r.Render gl camera width height).2.m_buffers type).filter
              (fun b => !b.vertices.isEmpty)).map
              (fun b => drawCall b (glm.mulMat camera.m_projMatrix camera.m_viewMatrix)))) ∧
      (∀ type : Geometry,
        ((r.Render gl camera width height).2.m_buffers type).map
            (fun b => (b.UserParameter, b.vertices, b.indices)) =
          (r.m_buffers type).map (fun b => (b.UserParameter, b.vertices, b.indices))) ∧
      (r.enabled TerrainGeometry = r.m_renderADT ∧ r.enabled LiquidGeometry = r.m_renderLiquid ∧
        r.enabled WmoGeometry = r.m_renderWMO ∧ r.enabled DoodadGeometry = r.m_renderDoodad ∧
        r.enabled NavMeshGeometry = r.m_renderMesh ∧ r.enabled GameObjectGeometry = true ∧
        r.enabled SphereGeometry = true ∧ r.enabled LineGeometry = true ∧
        r.enabled ArrowGeometry = true) := by
  rw [Render_eq_renderTypes]
  obtain ⟨_, h2, h3, h4⟩ := renderTypes_spec
    (glm.mulMat camera.m_projMatrix camera.m_viewMatrix) renderOrder gl r renderOrder_nodup
  generalize renderTypes (glm.mulMat camera.m_projMatrix camera.m_viewMatrix) renderOrder
    (gl, r) = res at *
  generalize glm.mulMat camera.m_projMatrix camera.m_viewMatrix = mvp at *
  refine ⟨_, h4, ?_, ?_, ⟨rfl, rfl, rfl, rfl, rfl, rfl, rfl, rfl, rfl⟩⟩
  · rw [filter_flatMap]
    apply flatMap_congr_mem
    intro t ht
    obtain ⟨ht1, ht2⟩ := List.mem_filter.1 ht
    exact rendered_draws mvp _ _ (h3 t ht1 ht2)
  · intro type
    by_cases hen : r.enabled type = true
    · exact rendered_data _ _ (h3 type (mem_renderOrder type) hen)
    · rw [h2 type (Or.inr (by simpa using hen))]

end

section
variable {F : Type} [LinearOrderedField F] [MathFns F]

/-- A pool holding one line buffer, rendered in a fresh context: the buffer is
uploaded with the object names 1, 2 and 3, then drawn with its two indices. -/
theorem render_lines_example (camera : Camera F) :
    ((Renderer.new.AddLines [⟨0, 0, 0⟩, ⟨1, 0, 0⟩] [0, 1] : Renderer F).Render {} camera
        800 600).1.calls =
      [GLCall.upload
        { makeBuffer LineColor [⟨0, 0, 0⟩, ⟨1, 0, 0⟩] [0, 1] 0 false with
          vao := 1, vbo := 2, ebo := 3, uploaded := true },
       GLCall.drawElements
        { makeBuffer LineColor [⟨0, 0, 0⟩, ⟨1, 0, 0⟩] [0, 1] 0 false with
          vao := 1, vbo := 2, ebo := 3, uploaded := true }
        (glm.mulMat camera.m_projMatrix camera.m_viewMatrix) 2] := by
  simp [Renderer.Render, Renderer.renderGeometry, renderBuffers, Renderer.AddLines,
    Renderer.setBuffers, InsertBuffer, Renderer.new, UploadBuffer, RenderBuffer, drawCall,
    makeBuffer, toUnsigned]

end

namespace Camera

section
variable {F : Type} [LinearOrderedField F] [MathFns F]

theorem UpdateViewMatrix_current (c : Camera F) : c.UpdateViewMatrix.ViewCurrent := rfl

theorem new_current : (Camera.new : Camera F).ViewCurrent := rfl

theorem Yaw_current (c : Camera F) (delta : F) : (c.Yaw delta).ViewCurrent := rfl

theorem Pitch_current (c : Camera F) (delta : F) : (c.Pitch delta).ViewCurrent := rfl

theorem UpdateMousePan_idle (c : Camera F) (newX newY : Int) (h : c.m_mousePanning = false) :
    c.UpdateMousePan newX newY = c := by
  simp [UpdateMousePan, h]

theorem UpdateMousePan_panning (c : Camera F) (newX newY : Int)
    (h : c.m_mousePanning = true) :
    c.UpdateMousePan newX newY =
      { (c.Yaw (-((newX - c.m_mousePanX : Int) : F) * (5 / 1000))).Pitch
          (-((newY - c.m_mousePanY : Int) : F) * (5 / 1000)) with
        m_mousePanX := newX, m_mousePanY := newY } := by
  simp [UpdateMousePan, h]

theorem UpdateMousePan_current (c : Camera F) (newX newY : Int)
    (h : c.m_mousePanning = true ∨ c.ViewCurrent) : (c.UpdateMousePan newX newY).ViewCurrent := by
  by_cases hp : c.m_mousePanning = true
  · rw [UpdateMousePan_panning c newX newY hp]
    have hP := Pitch_current (c.Yaw (-((newX - c.m_mousePanX : Int) : F) * (5 / 1000)))
      (-((newY - c.m_mousePanY : Int) : F) * (5 / 1000))
    generalize (c.Yaw (-((newX - c.m_mousePanX : Int) : F) * (5 / 1000))).Pitch
      (-((newY - c.m_mousePanY : Int) : F) * (5 / 1000)) = P at hP ⊢
    exact hP
  · rw [UpdateMousePan_idle c newX newY (by simpa using hp)]
    rcases h with h | h
    · exact absurd h hp
    · exact h

theorem applyOp_current (c : Camera F) (op : CameraOp F) (h : c.ViewCurrent) :
    (c.applyOp op).ViewCurrent := by
  cases op with
  | move position => rfl
  | lookAt target => rfl
  | moveUp delta => rfl
  | moveIn delta => rfl
  | moveRight delta => rfl
  | moveVertical delta => rfl
  | yaw delta => rfl
  | pitch delta => rfl
  | beginMousePan screenX screenY => exact h
  | endMousePan => exact h
  | updateMousePan newX newY => exact UpdateMousePan_current c newX newY (Or.inr h)
  | updateProjection width height => exact h

theorem applyOps_current (ops : List (CameraOp F)) :
    ∀ c : Camera F, c.ViewCurrent → (c.applyOps ops).ViewCurrent := by
  induction ops with
  | nil => intro c h; exact h
  | cons op rest ih =>
    intro c h
    exact ih (c.applyOp op) (applyOp_current c op h)

/-- C26: the view matrix stored by the constructor, and by `Move`, `LookAt`,
`MoveUp`, `MoveIn`, `MoveRight`, `MoveVertical`, `Yaw` and `Pitch` called on
any camera, is `lookAt(position, position + forward, up)` of the position,
forward and up vectors the camera then has; `UpdateMousePan` stores it too
when it rotates (panning flag set) and otherwise leaves a camera whose matrix
was current as it is; hence after every finite sequence of calls of the
state-changing member functions on a constructed camera the view matrix is
current. -/
theorem viewMatrix_never_stale (c : Camera F) (ops : List (CameraOp F)) :
    (Camera.new : Camera F).ViewCurrent ∧
    (∀ position, (c.Move position).ViewCurrent) ∧
    (∀ target, (c.LookAt target).ViewCurrent) ∧
    (∀ delta, (c.MoveUp delta).ViewCurrent) ∧
    (∀ delta, (c.MoveIn delta).ViewCurrent) ∧
    (∀ delta, (c.MoveRight delta).ViewCurrent) ∧
    (∀ delta, (c.MoveVertical delta).ViewCurrent) ∧
    (∀ delta, (c.Yaw delta).ViewCurrent) ∧
    (∀ delta, (c.Pitch delta).ViewCurrent) ∧
    (∀ newX newY, c.m_mousePanning = true ∨ c.ViewCurrent →
      (c.UpdateMousePan newX newY).ViewCurrent) ∧
    ((Camera.new : Camera F).applyOps ops).ViewCurrent :=
  ⟨new_current, fun _ => rfl, fun _ => rfl, fun _ => rfl, fun _ => rfl, fun _ => rfl,
   fun _ => rfl, fun _ => rfl, fun _ => rfl, fun x y h => UpdateMousePan_current c x y h,
   applyOps_current ops _ new_current⟩

end

section
variable {F : Type} [LinearOrderedField F] [MathFns F]

/-- C27: with the panning flag false, `UpdateMousePan(x, y)` returns the camera
it was given, every member unchanged; the flag is false in a constructed camera
and after `EndMousePan`; `EndMousePan` changes no member but the flag, and
`BeginMousePan` changes no member but the flag and the two anchor
coordinates. -/
theorem updatePan_idle_noop (c : Camera F) (x y screenX screenY : Int) :
    (c.m_mousePanning = false → c.UpdateMousePan x y = c) ∧
    (Camera.new : Camera F).m_mousePanning = false ∧
    (Camera.new : Camera F).UpdateMousePan x y = Camera.new ∧
    c.EndMousePan.m_mousePanning = false ∧
    c.EndMousePan.UpdateMousePan x y = c.EndMousePan ∧
    c.EndMousePan = { c with m_mousePanning := false } ∧
    c.BeginMousePan screenX screenY =
      { c with m_mousePanning := true, m_mousePanX := screenX, m_mousePanY := screenY } := by
  exact ⟨UpdateMousePan_idle c x y, rfl, UpdateMousePan_idle _ x y rfl, rfl,
    UpdateMousePan_idle _ x y rfl, rfl, rfl⟩

end
end Camera

section
variable {F : Type} [LinearOrderedField F] [MathFns F]

/-! ### One subdivision pass only appends vertices -/

theorem subdivide_append (center : Vertex F) (radius : F) :
    ∀ (is : List Int) (vs : List (Vertex F)) (nis : List Int) (vs2 : List (Vertex F))
      (nis2 : List Int), subdivide center radius is vs nis = some (vs2, nis2) →
      ∃ added : List (Vertex F), vs2 = vs ++ added ∧ added.length = 3 * (is.length / 3)
  | [], vs, nis, vs2, nis2, h => by
    simp only [subdivide, Option.some.injEq, Prod.mk.injEq] at h
    exact ⟨[], by simp [h.1], by simp⟩
  | [_], vs, nis, vs2, nis2, h => by
    simp only [subdivide, Option.some.injEq, Prod.mk.injEq] at h
    exact ⟨[], by simp [h.1], by simp⟩
  | [_, _], vs, nis, vs2, nis2, h => by
    simp only [subdivide, Option.some.injEq, Prod.mk.injEq] at h
    exact ⟨[], by simp [h.1], by simp⟩
  | v0 :: v1 :: v2 :: rest, vs, nis, vs2, nis2, h => by
    cases e0 : lookupInt vs v0 with
    | none => simp [subdivide, e0] at h
    | some p0 =>
    cases e1 : lookupInt vs v1 with
    | none => simp [subdivide, e0, e1] at h
    | some p1 =>
    cases e2 : lookupInt vs v2 with
    | none => simp [subdivide, e0, e1, e2] at h
    | some p2 =>
    simp only [subdivide, e0, e1, e2, Option.bind_eq_bind, Option.some_bind] at h
    obtain ⟨added, ha, hl⟩ := subdivide_append center radius rest _ _ vs2 nis2 h
    refine ⟨sphereNormalize center radius
        ⟨(p0.X + p1.X) / 2, (p0.Y + p1.Y) / 2, (p0.Z + p1.Z) / 2⟩ ::
      sphereNormalize center radius
        ⟨(p1.X + p2.X) / 2, (p1.Y + p2.Y) / 2, (p1.Z + p2.Z) / 2⟩ ::
      sphereNormalize center radius
        ⟨(p2.X + p0.X) / 2, (p2.Y + p0.Y) / 2, (p2.Z + p0.Z) / 2⟩ :: added, ?_, ?_⟩
    · rw [ha]; simp
    · simp only [List.length_cons, hl]
      omega

theorem subdivideLevels_succ (center : Vertex F) (radius : F) :
    ∀ (n : Nat) (vs : List (Vertex F)) (is : List Int),
      subdivideLevels center radius (n + 1) vs is =
        (subdivideLevels center radius n vs is).bind
          (fun p => subdivide center radius p.2 p.1 [])
  | 0, vs, is => by
    cases h : subdivide center radius is vs [] with
    | none => simp [subdivideLevels, h]
    | some p => simp [subdivideLevels, h]
  | n + 1, vs, is => by
    cases h : subdivide center radius is vs [] with
    | none => simp [subdivideLevels, h]
    | some p =>
      have ih := subdivideLevels_succ center radius n p.1 p.2
      rw [subdivideLevels] at ih
      simp only [subdivideLevels, h, Option.bind_eq_bind, Option.some_bind]
      simpa [subdivideLevels] using ih

theorem sum_levels (L : Nat) :
    12 + 3 * (Finset.range L).sum (fun k => 20 * 4 ^ k) + 8 = 20 * 4 ^ L := by
  induction L with
  | zero => simp
  | succ n ih =>
    rw [Finset.sum_range_succ, pow_succ]
    omega

/-- C28: the vertices returned at subdivision level `L + 1` are the vertices
returned at level `L` followed by exactly three new vertices for each of the
`20 * 4 ^ L` triangles of level `L`: nothing is removed, reordered or shared.
So the vertex count at level `L` is `12 + 3 * (20 + 20 * 4 + ... + 20 * 4 ^ (L - 1))
= 20 * 4 ^ L - 8`, which is 12, 72 and 312 at the levels 0, 1 and 2. -/
theorem subdivision_appends_three_per_triangle (center : Vertex F) (radius : F) (L : Nat) :
    (∃ (vs : List (Vertex F)) (is : List Int) (vs2 : List (Vertex F)) (is2 : List Int)
        (added : List (Vertex F)),
      GenerateSphereMesh center radius (L : Int) = some (vs, is) ∧
      GenerateSphereMesh center radius ((L : Int) + 1) = some (vs2, is2) ∧
      vs2 = vs ++ added ∧ added.length = 3 * (is.length / 3) ∧
      is.length / 3 = 20 * 4 ^ L ∧
      vs.length = 12 + 3 * (Finset.range L).sum (fun k => 20 * 4 ^ k) ∧
      vs.length = 20 * 4 ^ L - 8) ∧
    (∃ vs is, GenerateSphereMesh center radius 0 = some (vs, is) ∧ vs.length = 12) ∧
    (∃ vs is, GenerateSphereMesh center radius 1 = some (vs, is) ∧ vs.length = 72) ∧
    (∃ vs is, GenerateSphereMesh center radius 2 = some (vs, is) ∧ vs.length = 312) := by
  refine ⟨?_, ?_, ?_, ?_⟩
  · obtain ⟨vs, is, e, l1, l2, hb⟩ := GenerateSphereMesh_spec center radius (L : Int)
    simp only [Int.toNat_ofNat] at l1 l2
    obtain ⟨vs2, is2, e2, _, _, _⟩ :=
      subdivide_spec center radius is vs [] hb (by intro i hi; simp at hi)
    obtain ⟨added, ha, hl⟩ := subdivide_append center radius is vs [] vs2 is2 e2
    refine ⟨vs, is, vs2, is2, added, e, ?_, ha, hl, by omega, ?_, by omega⟩
    · have ht : ((L : Int) + 1).toNat = L + 1 := by omega
      unfold GenerateSphereMesh at e ⊢
      rw [ht, subdivideLevels_succ, Int.toNat_ofNat] at *
      rw [e]
      exact e2
    · have := sum_levels L
      omega
  · obtain ⟨vs, is, e, _, l2, _⟩ := GenerateSphereMesh_spec center radius 0
    exact ⟨vs, is, e, by simp at l2; omega⟩
  · obtain ⟨vs, is, e, _, l2, _⟩ := GenerateSphereMesh_spec center radius 1
    exact ⟨vs, is, e, by simp at l2; omega⟩
  · obtain ⟨vs, is, e, _, l2, _⟩ := GenerateSphereMesh_spec center radius 2
    exact ⟨vs, is, e, by simp at l2; omega⟩

/-- C30: for every centre, radius and level, `GenerateSphereMesh` completes (all
its vertex lookups `vertices[v0]`, `vertices[v1]`, `vertices[v2]` are in
range) and every index it returns is `≥ 0` and less than the number of
vertices it returns; `AddSphere` completes and appends one buffer to the sphere
category, and that buffer satisfies the index invariant; for a negative level
the result is the result for level 0. -/
theorem sphere_indices_in_range (center : Vertex F) (radius : F) (recursionLevel : Int)
    (r : Renderer F) :
    (∃ vs is, GenerateSphereMesh center radius recursionLevel = some (vs, is) ∧
      (∀ i ∈ is, 0 ≤ i ∧ i < (vs.length : Int)) ∧
      ∃ b : GeometryBuffer F,
        r.AddSphere center radius recursionLevel =
          some (r.setBuffers SphereGeometry (r.m_buffers SphereGeometry ++ [b])) ∧
        b.vertices.length = vs.length ∧ b.indices = is.map toUnsigned ∧
        ∀ i ∈ b.indices, i < b.vertices.length) ∧
    (recursionLevel < 0 →
      GenerateSphereMesh center radius recursionLevel = GenerateSphereMesh center radius 0) := by
  constructor
  · obtain ⟨vs, is, e, _, _, hb⟩ := GenerateSphereMesh_spec center radius recursionLevel
    refine ⟨vs, is, e, hb, makeBuffer SphereColor vs is 0 true, ?_,
      makeBuffer_vertices_length _ _ _ _ _, makeBuffer_indices _ _ _ _ _,
      makeBuffer_invariant _ _ _ _ _ hb⟩
    simp [Renderer.AddSphere, e, InsertBuffer]
  · intro h
    have h0 : recursionLevel.toNat = 0 := by omega
    unfold GenerateSphereMesh
    rw [h0]
    rfl

end

namespace DetourDebugDraw

section
variable {F : Type} [LinearOrderedField F] [MathFns F]

theorem mem_quadsToTris : ∀ (l : List Int) (q : Int), q ∈ quadsToTris l → q ∈ l
  | [], q, h => by simp [quadsToTris] at h
  | [_], q, h => by simp [quadsToTris] at h
  | [_, _], q, h => by simp [quadsToTris] at h
  | [_, _, _], q, h => by simp [quadsToTris] at h
  | a :: b :: c :: d :: rest, q, h => by
    simp only [quadsToTris, List.mem_cons] at h
    simp only [List.mem_cons]
    rcases h with h | h | h | h | h | h | h
    · exact Or.inl h
    · exact Or.inr (Or.inl h)
    · exact Or.inr (Or.inr (Or.inl h))
    · exact Or.inl h
    · exact Or.inr (Or.inr (Or.inl h))
    · exact Or.inr (Or.inr (Or.inr (Or.inl h)))
    · exact Or.inr (Or.inr (Or.inr (Or.inr (mem_quadsToTris rest q h))))

/-- C29: for a lines, triangles or quads batch (any vertex calls after
`begin`), the accumulated indices all lie in `[0, number of unique vertices)`,
there is one colour per unique vertex and one index per vertex call, and quad
splitting emits only accumulated indices; `end` completes, and it either
leaves the pool as it was or appends exactly one buffer to one category, a
buffer with one vertex per unique vertex whose every index is less than its
vertex count; so a pool that satisfies the index invariant still does
afterwards. -/
theorem batch_buffer_index_invariant (IgnoreLineSize : F) (dd0 : DetourDebugDraw F)
    (prim : duDebugDrawPrimitives) (size : F) (calls : List (Vertex F × Nat)) (r : Renderer F)
    (hprim : prim ≠ DU_DRAW_POINTS) :
    (∀ q ∈ (batch dd0 prim size calls).m_indices,
      0 ≤ q ∧ q < ((batch dd0 prim size calls).m_vertices.length : Int)) ∧
    (batch dd0 prim size calls).m_colors.length =
      (batch dd0 prim size calls).m_vertices.length ∧
    (batch dd0 prim size calls).m_indices.length = calls.length ∧
    (∀ q ∈ quadsToTris (batch dd0 prim size calls).m_indices,
      q ∈ (batch dd0 prim size calls).m_indices) ∧
    (end_ IgnoreLineSize (batch dd0 prim size calls) r = some r ∨
      ∃ (type : Geometry) (b : GeometryBuffer F),
        end_ IgnoreLineSize (batch dd0 prim size calls) r =
          some (r.setBuffers type (r.m_buffers type ++ [b])) ∧
        b.vertices.length = (batch dd0 prim size calls).m_vertices.length ∧
        ∀ i ∈ b.indices, i < b.vertices.length) ∧
    (r.IndexInvariant →
      ∃ r2, end_ IgnoreLineSize (batch dd0 prim size calls) r = some r2 ∧ r2.IndexInvariant) := by
  obtain ⟨ht, _, _⟩ := batch_header dd0 prim size calls
  obtain ⟨_, _, hil, _, hcol⟩ := batch_invariant dd0 prim size calls
  have hrange := batch_indices_range dd0 prim size calls
  generalize batch dd0 prim size calls = dd at *
  have hquad : IndicesBelow (quadsToTris dd.m_indices) dd.m_vertices.length :=
    fun q hq => hrange q (mem_quadsToTris _ q hq)
  have hend : end_ IgnoreLineSize dd r = some r ∨
      ∃ (type : Geometry) (color : Vec4 F) (indices : List Int) (gen : Bool),
        IndicesBelow indices dd.m_vertices.length ∧
        end_ IgnoreLineSize dd r = some (r.setBuffers type
          (InsertBuffer (r.m_buffers type) color dd.m_vertices indices 0 gen)) := by
    unfold end_
    split
    · exact Or.inl rfl
    · split
      · exact Or.inl rfl
      · rw [ht]
        cases prim with
        | DU_DRAW_POINTS => exact absurd rfl hprim
        | DU_DRAW_LINES =>
          exact Or.inr ⟨LineGeometry, LineColor, dd.m_indices, false, hrange, rfl⟩
        | DU_DRAW_TRIS =>
          exact Or.inr ⟨NavMeshGeometry, _, dd.m_indices, true, hrange, rfl⟩
        | DU_DRAW_QUADS =>
          simp only []
          split
          · exact Or.inr ⟨NavMeshGeometry, _, quadsToTris dd.m_indices, true, hquad, rfl⟩
          · exact Or.inl rfl
  refine ⟨hrange, hcol, hil, mem_quadsToTris _, ?_, ?_⟩
  · rcases hend with h | ⟨type, color, indices, gen, hb, h⟩
    · exact Or.inl h
    · exact Or.inr ⟨type, makeBuffer color dd.m_vertices indices 0 gen, h,
        makeBuffer_vertices_length _ _ _ _ _, makeBuffer_invariant _ _ _ _ _ hb⟩
  · intro hr
    rcases hend with h | ⟨type, color, indices, gen, hb, h⟩
    · exact ⟨r, h, hr⟩
    · exact ⟨_, h, insert_invariant r type color dd.m_vertices indices 0 gen hr hb⟩

/-- C29 (witness): a triangles batch with three vertex calls. -/
theorem batch_buffer_index_invariant_witness :
    (batch (DetourDebugDraw.new : DetourDebugDraw ℝ) DU_DRAW_TRIS 1
      [(⟨0, 0, 0⟩, 1), (⟨1, 0, 0⟩, 1), (⟨0, 1, 0⟩, 1)]).m_indices.length = 3 ∧
    (end_ (3 / 2) (batch (DetourDebugDraw.new : DetourDebugDraw ℝ) DU_DRAW_TRIS 1
        [(⟨0, 0, 0⟩, 1), (⟨1, 0, 0⟩, 1), (⟨0, 1, 0⟩, 1)]) Renderer.new = some Renderer.new ∨
      ∃ (type : Geometry) (b : GeometryBuffer ℝ),
        end_ (3 / 2) (batch (DetourDebugDraw.new : DetourDebugDraw ℝ) DU_DRAW_TRIS 1
          [(⟨0, 0, 0⟩, 1), (⟨1, 0, 0⟩, 1), (⟨0, 1, 0⟩, 1)]) Renderer.new =
          some ((Renderer.new : Renderer ℝ).setBuffers type
            ((Renderer.new : Renderer ℝ).m_buffers type ++ [b])) ∧
        b.vertices.length = (batch (DetourDebugDraw.new : DetourDebugDraw ℝ) DU_DRAW_TRIS 1
          [(⟨0, 0, 0⟩, 1), (⟨1, 0, 0⟩, 1), (⟨0, 1, 0⟩, 1)]).m_vertices.length ∧
        ∀ i ∈ b.indices, i < b.vertices.length) :=
  ⟨(batch_buffer_index_invariant (3 / 2 : ℝ) DetourDebugDraw.new DU_DRAW_TRIS 1
      [(⟨0, 0, 0⟩, 1), (⟨1, 0, 0⟩, 1), (⟨0, 1, 0⟩, 1)] Renderer.new (by decide)).2.2.1,
   (batch_buffer_index_invariant (3 / 2 : ℝ) DetourDebugDraw.new DU_DRAW_TRIS 1
      [(⟨0, 0, 0⟩, 1), (⟨1, 0, 0⟩, 1), (⟨0, 1, 0⟩, 1)] Renderer.new (by decide)).2.2.2.2.1⟩

end
end DetourDebugDraw

end MapViewer
